import Mathlib

/-!
# BloodDonationChain: the dashboards' scheduling, history, inventory and request handlers

A shallow embedding of the handlers of `frontend/src/pages/DonorDashboard.js`,
`frontend/src/pages/HospitalDashboard.js`, `frontend/src/pages/hospital/ApproveRequests.js`
and `frontend/src/pages/RecipientDashboard.js`.

Conventions of the embedding.

* A JavaScript number is an `Int`, or `none` for `NaN` (`JsNum`).  Every quantity
  the handlers compute stays in the range where double arithmetic is exact.
* A `Date` is its time value in milliseconds since the epoch, `none` for an
  Invalid Date (`TimeValue`).
* React state is an explicit record; a handler is a function from the state (and
  the answers of the contract) to the new state or to the list of effects it issued.
* What a view lets the user do is a step relation on its state: one constructor for
  each control the view renders, under the condition under which it renders it.
  Where a handler awaits the contract before it updates the state and the view
  stays usable meanwhile, the click and the return of the call are separate steps.
* The contract behind the dashboards is not among the sources; the one operation of
  it that is needed, completing a scheduled donation, is modelled from the
  specification in the namespace `Ledger`.
-/

set_option autoImplicit false

namespace BloodDonationChain

/-! ## JavaScript primitives -/

/-- A JavaScript number holding an integer; `none` is `NaN`. -/
abbrev JsNum := Option Int

/-- The time value of a `Date` in milliseconds; `none` is an Invalid Date. -/
abbrev TimeValue := Option Int

/-- The comparison `a <= b` of two numbers: false as soon as one side is `NaN`. -/
def jsLe (a b : JsNum) : Bool :=
  match a, b with
  | some x, some y => decide (x ≤ y)
  | _, _ => false

/-- The comparison `a < b` of two numbers: false as soon as one side is `NaN`. -/
def jsLt (a b : JsNum) : Bool :=
  match a, b with
  | some x, some y => decide (x < y)
  | _, _ => false

/-- The comparison `a >= b` of two numbers: false as soon as one side is `NaN`. -/
def jsGe (a b : JsNum) : Bool :=
  match a, b with
  | some x, some y => decide (y ≤ x)
  | _, _ => false

/-- The subtraction `a - b`: `NaN` as soon as one side is `NaN`. -/
def jsSub (a b : JsNum) : JsNum :=
  match a, b with
  | some x, some y => some (x - y)
  | _, _ => none

/-- White space and line terminators that `parseInt` skips at the start of its input. -/
def isStrWhiteSpace (c : Char) : Bool :=
  decide (c.toNat ∈ [9, 10, 11, 12, 13, 32, 160, 5760, 8232, 8233, 8239, 8287, 12288, 65279])
    || (decide (8192 ≤ c.toNat) && decide (c.toNat ≤ 8202))

/-- The value of a character read as a digit of some radix up to 36. -/
def digitValue (c : Char) : Option Nat :=
  if 48 ≤ c.toNat ∧ c.toNat ≤ 57 then some (c.toNat - 48)
  else if 97 ≤ c.toNat ∧ c.toNat ≤ 122 then some (c.toNat - 87)
  else if 65 ≤ c.toNat ∧ c.toNat ≤ 90 then some (c.toNat - 55)
  else none

/-- The longest prefix of radix-`R` digits, as digit values. -/
def takeDigits (R : Nat) : List Char → List Nat
  | [] => []
  | c :: cs =>
    match digitValue c with
    | some d => if d < R then d :: takeDigits R cs else []
    | none => []

/-- The number a list of digit values denotes in radix `R`, most significant first. -/
def digitsValue (R : Nat) (ds : List Nat) : Nat :=
  ds.foldl (fun acc d => acc * R + d) 0

/-- Sign step of `parseInt`: whether the input starts with `-`, and the input
without its leading `+` or `-`. -/
def stripSign : List Char → Bool × List Char
  | [] => (false, [])
  | c :: cs => if c = '-' then (true, cs) else if c = '+' then (false, cs) else (false, c :: cs)

/-- Radix step of `parseInt` called without a radix: `0x` or `0X` selects radix 16
and is removed, anything else is read in radix 10. -/
def stripRadixPrefix : List Char → Nat × List Char
  | c :: d :: cs => if c = '0' ∧ (d = 'x' ∨ d = 'X') then (16, cs) else (10, c :: d :: cs)
  | cs => (10, cs)

/-- The global `parseInt(string)` on a list of characters. -/
def parseIntChars (s : List Char) : JsNum :=
  let signed := stripSign (s.dropWhile isStrWhiteSpace)
  let radixed := stripRadixPrefix signed.2
  match takeDigits radixed.1 radixed.2 with
  | [] => none
  | d :: ds =>
    if signed.1 then some (-(digitsValue radixed.1 (d :: ds) : Int))
    else some (digitsValue radixed.1 (d :: ds) : Int)

/-- The global `parseInt(string)`. -/
def parseInt (s : String) : JsNum := parseIntChars s.toList

/-- The call `parseInt(x)` where `x` may be `undefined` (`none`): the argument is
first converted to the string `"undefined"`. -/
def parseIntArg : Option (List Char) → JsNum
  | some s => parseIntChars s
  | none => parseIntChars "undefined".toList

/-- The method `split(sep)` for a one-character separator. -/
def splitOnChar (sep : Char) : List Char → List (List Char)
  | [] => [[]]
  | c :: cs =>
    if c = sep then [] :: splitOnChar sep cs
    else
      match splitOnChar sep cs with
      | [] => [[c]]
      | h :: t => (c :: h) :: t

/-- `TimeClip`: a time value beyond ±8.64e15 ms is not a date. -/
def timeClip (v : Int) : TimeValue :=
  if v.natAbs ≤ 8640000000000000 then some v else none

/-- Milliseconds per day. -/
def msPerDay : Int := 86400000

/-- Milliseconds per hour. -/
def msPerHour : Int := 3600000

/-- Milliseconds per minute. -/
def msPerMinute : Int := 60000

/-- The method `Date.prototype.setHours(hour, min)` in a time zone whose offset from
UTC is the constant `tza` milliseconds: the day, the seconds and the milliseconds of
the local time are kept, hours and minutes are replaced (values out of range roll
over), and the result is clipped. -/
def setHours (tza : Int) (t : TimeValue) (hour min : JsNum) : TimeValue :=
  match t, hour, min with
  | some t, some h, some m =>
    let lt := t + tza
    let day := lt / msPerDay
    let time := h * msPerHour + m * msPerMinute + ((lt / 1000) % 60) * 1000 + lt % 1000
    timeClip (day * msPerDay + time - tza)
  | _, _, _ => none

/-- The conversion of a number to a string (`toString()`, template literals): decimal
digits with a leading `-` for a negative integer, `NaN` for `NaN`. -/
def numberToString : JsNum → String
  | some n => toString n
  | none => "NaN"

/-- The truthiness of a string: every string but the empty one. -/
def truthy (s : String) : Bool := decide (s ≠ "")

/-- The method `includes(search)` on lists of characters: `search` occurs as a
contiguous part. -/
def includesChars (search : List Char) : List Char → Bool
  | [] => search.isPrefixOf []
  | c :: cs => search.isPrefixOf (c :: cs) || includesChars search cs

/-- The method `String.prototype.includes(search)`. -/
def includes (s search : String) : Bool := includesChars search.toList s.toList

/-! ## DonorDashboard.js -/

namespace DonorDashboard

/-- The React state `scheduleData` of the schedule dialog.  `date` is the value of
the date picker: `none` is `null`, otherwise the time value of the picked `Date`. -/
structure ScheduleData where
  date : Option TimeValue
  time : String
  hospital : String
  notes : String
  deriving DecidableEq, Repr

/-- The fields of the answer of `contract.getDonorInfo(account)` that the dashboard
reads; `lastDonationTime` is the result of `.toNumber()`, in seconds. -/
structure DonorInfo where
  isRegistered : Bool
  rewardPoints : Nat
  lastDonationTime : Nat
  deriving DecidableEq, Repr

/-- What surrounds one run of `handleScheduleDonation`: the time zone offset and the
clock of the browser, the connected account, and the answers of the contract (a
contract object is connected: `contract` is not `null`).
`hasScheduleDonation` is the truthiness of `contract.scheduleDonation`; an
`Except.error` carries the `message` of the error a call rejects with (for
`donorInfo` also the one `toNumber()` throws); `receipt` is first the outcome of
`contract.scheduleDonation(...)`, then of `tx.wait()`, whose value is
`receipt.status`; `localeDate` is `scheduleData.date.toLocaleDateString()`. -/
structure ScheduleEnv where
  tza : Int
  now : Int
  account : String
  hasScheduleDonation : Bool
  donorInfo : Except String DonorInfo
  receipt : Except String (Except String Int)
  localeDate : String

/-- What `handleScheduleDonation` does to the outside, in order. -/
inductive Effect where
  | getDonorInfo (account : String)
  | scheduleDonation (hospital notes : String)
  | txWait
  | loadDonorData
  | closeDialog
  deriving DecidableEq, Repr

/-- Whether an effect is a `contract.scheduleDonation` call. -/
def Effect.isScheduleDonation : Effect → Bool
  | .scheduleDonation _ _ => true
  | _ => false

/-- Whether an effect is a `contract.getDonorInfo` call. -/
def Effect.isGetDonorInfo : Effect → Bool
  | .getDonorInfo _ => true
  | _ => false

/-- The result of one run of `handleScheduleDonation`: the effects issued and the
value of the `error` state when the handler returns. -/
structure Outcome where
  effects : List Effect
  error : String
  deriving DecidableEq, Repr

/-- Whether the run issued a `contract.scheduleDonation` call. -/
def Outcome.scheduled (o : Outcome) : Bool := o.effects.any Effect.isScheduleDonation

/-- Whether the run issued a `contract.getDonorInfo` call. -/
def Outcome.lookedUp (o : Outcome) : Bool := o.effects.any Effect.isGetDonorInfo

/-- The constant `minimumInterval`: 90 days in milliseconds. -/
def minimumInterval : Int := 90 * 24 * 60 * 60 * 1000

/-- The `catch` clause: `setError(err.message || 'Failed to schedule donation')`. -/
def catchMessage (message : String) : String :=
  if message = "" then "Failed to schedule donation" else message

/-- The value of `scheduledDateTime` after lines 229-231: `new Date(scheduleData.date)`
(`new Date(null)` is the epoch), then `setHours` with the two first parts of
`scheduleData.time.split(':')` read by `parseInt`. -/
def scheduledDateTime (tza : Int) (sd : ScheduleData) : TimeValue :=
  let parts := splitOnChar ':' sd.time.toList
  setHours tza (sd.date.getD (some 0)) (parseIntArg parts.head?) (parseIntArg parts.tail.head?)

/-- The handler `handleScheduleDonation`. -/
def handleScheduleDonation (env : ScheduleEnv) (sd : ScheduleData) : Outcome :=
  if sd.date = none ∨ sd.time = "" ∨ sd.hospital = "" then
    ⟨[], catchMessage "Please fill in all required fields"⟩
  else if env.hasScheduleDonation = false then
    ⟨[], catchMessage
      "Contract function not available. Please make sure you have the latest contract deployed."⟩
  else if jsLe (scheduledDateTime env.tza sd) (some env.now) = true then
    ⟨[], catchMessage "Please schedule for a future date and time"⟩
  else
    match env.donorInfo with
    | .error message => ⟨[.getDonorInfo env.account], catchMessage message⟩
    | .ok donorInfo =>
      let lastDonationTime := timeClip ((donorInfo.lastDonationTime : Int) * 1000)
      if jsLt (jsSub (scheduledDateTime env.tza sd) lastDonationTime) (some minimumInterval)
          = true then
        ⟨[.getDonorInfo env.account], catchMessage "Must wait 90 days between donations"⟩
      else
        match env.receipt with
        | .error message =>
          ⟨[.getDonorInfo env.account, .scheduleDonation sd.hospital sd.notes],
            catchMessage message⟩
        | .ok (.error message) =>
          ⟨[.getDonorInfo env.account, .scheduleDonation sd.hospital sd.notes, .txWait],
            catchMessage message⟩
        | .ok (.ok status) =>
          if status = 1 then
            ⟨[.getDonorInfo env.account, .scheduleDonation sd.hospital sd.notes, .txWait,
                .loadDonorData, .closeDialog],
              "Donation scheduled for " ++ env.localeDate ++ " at " ++ sd.time ++ " at "
                ++ sd.hospital⟩
          else
            ⟨[.getDonorInfo env.account, .scheduleDonation sd.hospital sd.notes, .txWait],
              catchMessage "Transaction failed"⟩

/-- The conditions of lines 219-226 under which a run reaches the checks on the
requested time: date, time and hospital are filled in (the Schedule button is
disabled otherwise) and the contract exposes `scheduleDonation`. -/
def FormReady (env : ScheduleEnv) (sd : ScheduleData) : Prop :=
  sd.date ≠ none ∧ sd.time ≠ "" ∧ sd.hospital ≠ "" ∧ env.hasScheduleDonation = true

instance (env : ScheduleEnv) (sd : ScheduleData) : Decidable (FormReady env sd) := by
  unfold FormReady; infer_instance

/-- A sample environment: UTC, the clock at `now`, a contract that has
`scheduleDonation`, answers the donor lookup with `info` and mines the transaction. -/
def sampleEnv (now : Int) (info : DonorInfo) : ScheduleEnv :=
  { tza := 0, now := now, account := "0xD0", hasScheduleDonation := true,
    donorInfo := .ok info, receipt := .ok (.ok 1), localeDate := "11/30/2023" }

/-- A sample complete form for the day starting at `date` and the time `time`. -/
def sampleForm (date : Int) (time : String) : ScheduleData :=
  { date := some (some date), time := time, hospital := "Medical Center", notes := "" }

end DonorDashboard

/-! ## HospitalDashboard.js -/

namespace HospitalDashboard

/-- One entry of the `inventory` state. -/
structure InventoryItem where
  bloodGroup : String
  quantity : JsNum
  lastUpdated : String
  deriving DecidableEq, Repr

/-- One entry of the `requests` state. -/
structure BloodRequest where
  id : Int
  bloodGroup : String
  units : Int
  recipient : String
  status : String
  date : String
  urgency : String
  deriving DecidableEq, Repr

/-- The React state of the component `HospitalDashboard`. -/
structure State where
  inventory : List InventoryItem
  requests : List BloodRequest
  loading : Bool
  error : String
  openDialog : Bool
  dialogType : String
  selectedItem : Option InventoryItem
  selectedBloodGroup : String
  selectedUnits : String
  deriving DecidableEq, Repr

/-- The initial values given to `useState`. -/
def initialState : State :=
  { inventory := [], requests := [], loading := true, error := "", openDialog := false,
    dialogType := "", selectedItem := none, selectedBloodGroup := "", selectedUnits := "" }

/-- The constant `mockInventory` of `loadDashboardData`. -/
def mockInventory : List InventoryItem :=
  [ { bloodGroup := "A+", quantity := some 10, lastUpdated := "2024-03-15" },
    { bloodGroup := "B+", quantity := some 5, lastUpdated := "2024-03-15" },
    { bloodGroup := "O+", quantity := some 8, lastUpdated := "2024-03-14" },
    { bloodGroup := "AB+", quantity := some 3, lastUpdated := "2024-03-13" } ]

/-- The constant `mockRequests` of `loadDashboardData`. -/
def mockRequests : List BloodRequest :=
  [ { id := 1, bloodGroup := "O+", units := 2, recipient := "0x1234...5678",
      status := "PENDING", date := "2024-03-15", urgency := "urgent" },
    { id := 2, bloodGroup := "A+", units := 1, recipient := "0x8765...4321",
      status := "FULFILLED", date := "2024-03-14", urgency := "normal" } ]

/-- The function `loadDashboardData`, run once when the component mounts. -/
def loadDashboardData (s : State) : State :=
  { s with error := "", inventory := mockInventory, requests := mockRequests, loading := false }

/-- The function `handleDialogClose`. -/
def handleDialogClose (s : State) : State :=
  { s with openDialog := false, dialogType := "", selectedItem := none,
           selectedBloodGroup := "", selectedUnits := "" }

/-- The method `findIndex`: the position of the first element satisfying `p`;
`none` stands for the result `-1`. -/
def findIndex {α : Type} (p : α → Bool) : List α → Option Nat
  | [] => none
  | x :: xs => if p x then some 0 else (findIndex p xs).map (· + 1)

/-- The assignment `updated[index] = f(updated[index])` on a copy of the array, for
an index inside the array. -/
def updateAt {α : Type} (f : α → α) : Nat → List α → List α
  | _, [] => []
  | 0, x :: xs => f x :: xs
  | n + 1, x :: xs => x :: updateAt f n xs

/-- The handler `handleUpdateInventory(bloodGroup, quantity)`; `today` is
`new Date().toISOString().split('T')[0]`. -/
def handleUpdateInventory (today bloodGroup quantity : String) (s : State) : State :=
  let inventory :=
    match findIndex (fun item => decide (item.bloodGroup = bloodGroup)) s.inventory with
    | some index =>
      updateAt (fun item => { item with quantity := parseInt quantity, lastUpdated := today })
        index s.inventory
    | none =>
      s.inventory ++
        [{ bloodGroup := bloodGroup, quantity := parseInt quantity, lastUpdated := today }]
  handleDialogClose { s with inventory := inventory }

/-- The handler `handleUpdateRequestStatus(requestId, status)`; `callOk` tells whether
`contract.updateRequestStatus(requestId, status)` resolved (it throws when no
contract is connected, and rejects when the transaction is refused). -/
def handleUpdateRequestStatus (callOk : Bool) (requestId : Int) (status : String)
    (s : State) : State :=
  if callOk then
    { s with requests := s.requests.map fun request =>
        if request.id = requestId then { request with status := status } else request }
  else
    { s with error := "Failed to update request status" }

/-- One click on Update in the inventory dialog. -/
structure InventoryCall where
  today : String
  bloodGroup : String
  quantity : String
  deriving DecidableEq, Repr

/-- A sequence of `handleUpdateInventory` calls, first call first. -/
def runInventoryCalls (calls : List InventoryCall) (s : State) : State :=
  calls.foldl (fun st c => handleUpdateInventory c.today c.bloodGroup c.quantity st) s

/-- The state once the dashboard is loaded. -/
def loadedState : State := loadDashboardData initialState

/-- The loaded dashboard after the hospital has set the `O+` inventory to the text
`units` on 16 March 2024. -/
def stateWithOPos (units : String) : State :=
  handleUpdateInventory "2024-03-16" "O+" units loadedState

/-- The first mock request: 2 units of `O+`, pending. -/
def requestOPos : BloodRequest :=
  { id := 1, bloodGroup := "O+", units := 2, recipient := "0x1234...5678",
    status := "PENDING", date := "2024-03-15", urgency := "urgent" }

/-- The constant `bloodGroups` offered by the inventory dialog. -/
def bloodGroups : List String := ["A+", "A-", "B+", "B-", "AB+", "AB-", "O+", "O-"]

/-- The function `handleDialogOpen(type, item = null)`. -/
def handleDialogOpen (type : String) (item : Option InventoryItem) (s : State) : State :=
  match item with
  | some it =>
    { s with dialogType := type, selectedItem := some it, selectedBloodGroup := it.bloodGroup,
             selectedUnits := numberToString it.quantity, openDialog := true }
  | none =>
    { s with dialogType := type, selectedItem := none, selectedBloodGroup := "",
             selectedUnits := "", openDialog := true }

/-- The dashboard proper is rendered (lines 180-198): not while loading, and not
while `error` is set, when only the alert is shown. -/
def Rendered (s : State) : Prop := s.loading = false ∧ s.error = ""

/-- The inventory dialog is shown: `openDialog && dialogType === 'inventory'`. -/
def DialogShown (s : State) : Prop := s.openDialog = true ∧ s.dialogType = "inventory"

/-- The two buttons on the row of a request whose status is `PENDING`
(lines 343-362). -/
inductive Button where
  | approve
  | reject
  deriving DecidableEq, Repr

/-- The status a button passes to `handleUpdateRequestStatus`: Approve passes
'FULFILLED' (line 349), Reject passes 'REJECTED' (line 357). -/
def Button.status : Button → String
  | .approve => "FULFILLED"
  | .reject => "REJECTED"

/-- A run of `handleUpdateRequestStatus(requestId, status)` that has been started by
a click and waits at `await contract.updateRequestStatus(requestId, status)`
(line 164). -/
structure AwaitedCall where
  requestId : Int
  button : Button
  deriving DecidableEq, Repr

/-- The dashboard in use: the React state, and the runs of
`handleUpdateRequestStatus` that wait for the contract.  The handler sets no
loading flag, so the dashboard stays rendered and usable while they wait. -/
structure Session where
  state : State
  awaiting : List AwaitedCall
  deriving DecidableEq, Repr

/-- One event of the dashboard in use.  A click on Approve or Reject, offered on the
rows of `PENDING` requests only, starts a run of `handleUpdateRequestStatus`, which
changes nothing before its `await`; when the contract call of a waiting run returns
(`callOk` tells how), the rest of the handler is applied to the state of that
moment: the functional update of `setRequests`, or `setError`.  The other events
are the actions of the inventory dialog. -/
inductive Step : Session → Session → Prop where
  | approve (v : Session) (request : BloodRequest) :
      Rendered v.state → request ∈ v.state.requests → request.status = "PENDING" →
      Step v { v with awaiting := v.awaiting ++ [⟨request.id, .approve⟩] }
  | reject (v : Session) (request : BloodRequest) :
      Rendered v.state → request ∈ v.state.requests → request.status = "PENDING" →
      Step v { v with awaiting := v.awaiting ++ [⟨request.id, .reject⟩] }
  | settle (v : Session) (call : AwaitedCall) (callOk : Bool) :
      call ∈ v.awaiting →
      Step v { state := (handleUpdateRequestStatus callOk call.requestId call.button.status
                 v.state)
               awaiting := v.awaiting.erase call }
  | openAdd (v : Session) :
      Rendered v.state →
      Step v { v with state := handleDialogOpen "inventory" none v.state }
  | openEdit (v : Session) (item : InventoryItem) :
      Rendered v.state → item ∈ v.state.inventory →
      Step v { v with state := handleDialogOpen "inventory" (some item) v.state }
  | close (v : Session) :
      Rendered v.state → DialogShown v.state →
      Step v { v with state := handleDialogClose v.state }
  | selectBloodGroup (v : Session) (group : String) :
      Rendered v.state → DialogShown v.state → v.state.selectedItem = none →
      group ∈ bloodGroups →
      Step v { v with state := { v.state with selectedBloodGroup := group } }
  | typeUnits (v : Session) (text : String) :
      Rendered v.state → DialogShown v.state →
      Step v { v with state := { v.state with selectedUnits := text } }
  | update (v : Session) (today : String) :
      Rendered v.state → DialogShown v.state →
      Step v { v with state :=
        (handleUpdateInventory today v.state.selectedBloodGroup v.state.selectedUnits
          v.state) }

/-- The loaded dashboard, before any click. -/
def loadedSession : Session := { state := loadedState, awaiting := [] }

/-- The sessions the dashboard can be in after it has loaded. -/
def Reachable (v : Session) : Prop := Relation.ReflTransGen Step loadedSession v

/-- The loaded dashboard after Approve has been clicked on the pending request 1,
before the contract call has returned. -/
def sessionApproveClicked : Session :=
  { state := loadedState, awaiting := [⟨1, .approve⟩] }

/-- The loaded dashboard after Approve and then Reject have been clicked on the
pending request 1, before either contract call has returned. -/
def sessionBothClicked : Session :=
  { state := loadedState, awaiting := [⟨1, .approve⟩, ⟨1, .reject⟩] }

/-- The session `sessionBothClicked` after the call of Approve has returned:
request 1 is `FULFILLED`, the run started by Reject still waits. -/
def sessionFulfilled : Session :=
  { state := handleUpdateRequestStatus true 1 "FULFILLED" loadedState
    awaiting := [⟨1, .reject⟩] }

/-- The session `sessionFulfilled` after the call of Reject has returned. -/
def sessionRejected : Session :=
  { state := handleUpdateRequestStatus true 1 "REJECTED"
      (handleUpdateRequestStatus true 1 "FULFILLED" loadedState)
    awaiting := [] }

end HospitalDashboard

/-! ## hospital/ApproveRequests.js -/

namespace ApproveRequests

/-- One entry of the `requests` state; `rejectionReason` is `none` while the field
is absent. -/
structure BloodRequest where
  id : Int
  bloodGroup : String
  units : Int
  recipient : String
  status : String
  date : String
  urgency : String
  hospital : String
  patientName : String
  reason : String
  rejectionReason : Option String
  deriving DecidableEq, Repr

/-- The React state of the component `ApproveRequests`. -/
structure State where
  requests : List BloodRequest
  loading : Bool
  error : String
  selectedRequest : Option BloodRequest
  openDialog : Bool
  rejectionReason : String
  deriving DecidableEq, Repr

/-- The initial values given to `useState`. -/
def initialState : State :=
  { requests := [], loading := true, error := "", selectedRequest := none,
    openDialog := false, rejectionReason := "" }

/-- The constant `mockRequests` of `loadRequests`. -/
def mockRequests : List BloodRequest :=
  [ { id := 1, bloodGroup := "O+", units := 2, recipient := "0x1234...5678",
      status := "PENDING", date := "2024-03-15", urgency := "urgent",
      hospital := "City General Hospital", patientName := "John Doe",
      reason := "Emergency Surgery", rejectionReason := none },
    { id := 2, bloodGroup := "A+", units := 1, recipient := "0x8765...4321",
      status := "PENDING", date := "2024-03-14", urgency := "normal",
      hospital := "Memorial Hospital", patientName := "Jane Smith",
      reason := "Regular Transfusion", rejectionReason := none },
    { id := 3, bloodGroup := "B+", units := 3, recipient := "0x9876...5432",
      status := "PENDING", date := "2024-03-16", urgency := "urgent",
      hospital := "St. Mary's Hospital", patientName := "Robert Johnson",
      reason := "Accident Victim", rejectionReason := none } ]

/-- The function `loadRequests`, run once when the component mounts. -/
def loadRequests (s : State) : State :=
  { s with error := "", requests := mockRequests, loading := false }

/-- The handler `handleApprove(requestId)`.  Nothing in its `try` block throws (the
contract call is commented out), so the `catch` branch is never taken. -/
def handleApprove (requestId : Int) (s : State) : State :=
  { s with requests := s.requests.map fun request =>
      if request.id = requestId then { request with status := "APPROVED" } else request }

/-- The handler `handleReject(request)`. -/
def handleReject (request : BloodRequest) (s : State) : State :=
  { s with selectedRequest := some request, openDialog := true }

/-- The function `handleDialogClose`. -/
def handleDialogClose (s : State) : State :=
  { s with openDialog := false, selectedRequest := none, rejectionReason := "" }

/-- The handler `handleRejectConfirm`.  The result is `none` when no request is
selected although the list is not empty: the state updater then reads
`selectedRequest.id` of `null` while React applies it, outside the handler's `try`,
and the component fails to render. -/
def handleRejectConfirm (s : State) : Option State :=
  if truthy s.rejectionReason = false then
    some { s with error := "Please provide a reason for rejection" }
  else
    match s.selectedRequest, s.requests with
    | some selected, _ =>
      some (handleDialogClose { s with requests := s.requests.map fun request =>
        if request.id = selected.id then
          { request with status := "REJECTED", rejectionReason := some s.rejectionReason }
        else request })
    | none, [] => some (handleDialogClose s)
    | none, _ :: _ => none

/-- One user action on the rendered view and the state it leads to.  The buttons
Approve and Reject exist only on the rows of requests whose status is `PENDING`
(lines 222-241); the dialog with its text field and its buttons Cancel and Confirm
Rejection is shown while `openDialog` holds. -/
inductive Step : State → State → Prop where
  | approve (s : State) (request : BloodRequest) :
      s.loading = false → request ∈ s.requests → request.status = "PENDING" →
      Step s (handleApprove request.id s)
  | reject (s : State) (request : BloodRequest) :
      s.loading = false → request ∈ s.requests → request.status = "PENDING" →
      Step s (handleReject request s)
  | typeReason (s : State) (text : String) :
      s.loading = false → s.openDialog = true → Step s { s with rejectionReason := text }
  | confirm (s s' : State) :
      s.loading = false → s.openDialog = true → handleRejectConfirm s = some s' → Step s s'
  | close (s : State) :
      s.loading = false → s.openDialog = true → Step s (handleDialogClose s)

/-- The state once the view is loaded. -/
def loadedState : State := loadRequests initialState

/-- The states the view can be in after it has loaded. -/
def Reachable (s : State) : Prop := Relation.ReflTransGen Step loadedState s

/-- The first mock request: 2 units of `O+` for John Doe, pending. -/
def requestJohn : BloodRequest :=
  { id := 1, bloodGroup := "O+", units := 2, recipient := "0x1234...5678",
    status := "PENDING", date := "2024-03-15", urgency := "urgent",
    hospital := "City General Hospital", patientName := "John Doe",
    reason := "Emergency Surgery", rejectionReason := none }

/-- The loaded view with the rejection dialog open on the first request and the
text `reason` typed in. -/
def stateRejecting (reason : String) : State :=
  { handleReject requestJohn loadedState with rejectionReason := reason }

/-- The loaded view after the first request has been rejected for 'No stock'. -/
def stateRejected : State :=
  (handleRejectConfirm (stateRejecting "No stock")).getD loadedState

/-- The invariant of the view: the ids of the listed requests are pairwise distinct,
and the request selected for rejection, if any, names a listed request that is
still `PENDING` or `APPROVED`. -/
def Inv (s : State) : Prop :=
  (s.requests.map (·.id)).Nodup ∧
    ∀ selected, s.selectedRequest = some selected →
      ∀ r ∈ s.requests, r.id = selected.id → r.status = "PENDING" ∨ r.status = "APPROVED"

end ApproveRequests

/-! ## RecipientDashboard.js -/

namespace RecipientDashboard

/-- The React state `newRequest` of the request dialog: the four form fields, all
texts. -/
structure NewRequest where
  bloodGroup : String
  units : String
  urgency : String
  notes : String
  deriving DecidableEq, Repr

/-- The field `units` of a listed request: a number in the loaded requests, the text
of the form field in a submitted one. -/
inductive Units where
  | number (n : Int)
  | text (s : String)
  deriving DecidableEq, Repr

/-- One entry of the `requests` state; `hospital` and `notes` are `none` where the
field is absent. -/
structure BloodRequest where
  id : Int
  bloodGroup : String
  units : Units
  status : String
  date : String
  hospital : Option String
  urgency : String
  notes : Option String
  deriving DecidableEq, Repr

/-- The React state of the component `RecipientDashboard`. -/
structure State where
  requests : List BloodRequest
  loading : Bool
  error : String
  openDialog : Bool
  newRequest : NewRequest
  deriving DecidableEq, Repr

/-- The empty form. -/
def emptyRequest : NewRequest :=
  { bloodGroup := "", units := "", urgency := "normal", notes := "" }

/-- The initial values given to `useState`. -/
def initialState : State :=
  { requests := [], loading := false, error := "", openDialog := false,
    newRequest := emptyRequest }

/-- The function `loadRequests`, run when contract and account are available. -/
def loadRequests (s : State) : State :=
  { s with
    error := ""
    requests :=
      [ { id := 1, bloodGroup := "O+", units := .number 2, status := "PENDING",
          date := "2024-03-15", hospital := some "City General Hospital",
          urgency := "urgent", notes := none },
        { id := 2, bloodGroup := "A+", units := .number 1, status := "FULFILLED",
          date := "2024-03-10", hospital := some "Medical Center",
          urgency := "normal", notes := none } ]
    loading := false }

/-- The function `handleDialogClose`. -/
def handleDialogClose (s : State) : State :=
  { s with openDialog := false, newRequest := emptyRequest }

/-- What surrounds one run of `handleSubmitRequest`: the values `account`, `contract`
and `signer` of the Web3 context (`none` is `null`), the outcome of
`connectWallet()`, the outcome of `requestBlood(...)` and then of `tx.wait()` (an
`Except.error` carries the `message` of the rejection), `Date.now()` and
`new Date().toISOString().split('T')[0]`. -/
structure SubmitEnv where
  account : Option String
  hasContract : Bool
  hasSigner : Bool
  connectWallet : Except String Unit
  requestBlood : Except String (Except String Unit)
  now : Int
  today : String

/-- What `handleSubmitRequest` does to the outside, in order. -/
inductive Effect where
  | connectWallet
  | requestBlood (bloodGroup : String)
  | txWait
  deriving DecidableEq, Repr

/-- Whether an effect is a `requestBlood` call. -/
def Effect.isRequestBlood : Effect → Bool
  | .requestBlood _ => true
  | _ => false

/-- The result of one run of `handleSubmitRequest`. -/
structure Outcome where
  state : State
  effects : List Effect
  deriving DecidableEq, Repr

/-- The `catch` clause: `setError(err.message || 'Failed to submit request')`. -/
def catchMessage (message : String) : String :=
  if message = "" then "Failed to submit request" else message

/-- The request `handleSubmitRequest` puts in front of the list:
`{ id: Date.now(), ...newRequest, status: 'PENDING', date: ... }`. -/
def submittedRequest (env : SubmitEnv) (form : NewRequest) : BloodRequest :=
  { id := env.now, bloodGroup := form.bloodGroup, units := .text form.units,
    status := "PENDING", date := env.today, hospital := none, urgency := form.urgency,
    notes := some form.notes }

/-- The handler `handleSubmitRequest`. -/
def handleSubmitRequest (env : SubmitEnv) (s : State) : Outcome :=
  if (env.account.map truthy).getD false = false then
    match env.connectWallet with
    | .ok _ => ⟨{ s with loading := false }, [.connectWallet]⟩
    | .error message =>
      ⟨{ s with error := catchMessage message, loading := false }, [.connectWallet]⟩
  else if env.hasContract = false ∨ env.hasSigner = false then
    ⟨{ s with error := catchMessage "Please connect your wallet first", loading := false }, []⟩
  else
    match env.requestBlood with
    | .error message =>
      ⟨{ s with error := catchMessage message, loading := false },
        [.requestBlood s.newRequest.bloodGroup]⟩
    | .ok (.error message) =>
      ⟨{ s with error := catchMessage message, loading := false },
        [.requestBlood s.newRequest.bloodGroup, .txWait]⟩
    | .ok (.ok _) =>
      ⟨handleDialogClose
          { s with error := "", loading := false,
                   requests := submittedRequest env s.newRequest :: s.requests },
        [.requestBlood s.newRequest.bloodGroup, .txWait]⟩

/-- The run succeeds: a wallet account is connected, contract and signer are
available, and the transaction is sent and mined. -/
def Succeeds (env : SubmitEnv) : Prop :=
  (env.account.map truthy).getD false = true ∧ env.hasContract = true ∧
    env.hasSigner = true ∧ env.requestBlood = .ok (.ok ())

/-- The Submit Request button is enabled (line 400): blood group and units are
both filled in. -/
def SubmitEnabled (s : State) : Prop :=
  truthy s.newRequest.bloodGroup = true ∧ truthy s.newRequest.units = true

/-- A sample environment: a connected wallet whose transaction is mined on
16 March 2024. -/
def sampleEnv : SubmitEnv :=
  { account := some "0xR1", hasContract := true, hasSigner := true,
    connectWallet := .ok (), requestBlood := .ok (.ok ()), now := 1710580000000,
    today := "2024-03-16" }

/-- The loaded dashboard with the form filled in for `units` units of `B-`. -/
def stateWithForm (units : String) : State :=
  { loadRequests initialState with
    openDialog := true
    newRequest := { bloodGroup := "B-", units := units, urgency := "Urgent", notes := "" } }

end RecipientDashboard

/-! ## DonorDashboard.js: history, completion, rewards and alert -/

namespace DonorDashboard

/-- The answer of `contract.getScheduledDonations(account)`: four parallel arrays;
the timestamps are in seconds. -/
structure ScheduledDonations where
  timestamps : List Nat
  hospitals : List String
  completed : List Bool
  notes : List String
  deriving DecidableEq, Repr

/-- One `BloodDonationRecorded` log of the donor, with the timestamp (in seconds) of
its block.  `hospital` is what `ethers.utils.parseBytes32String(event.topics[2])`
gives for the log (line 156): the decoded text, or `none` when the call throws, as
it does on a topic that is absent, that is not 32 bytes ending in a zero byte, or
that is not UTF-8 (the hash that stands for an indexed `string`, for one). -/
structure DonationEvent where
  transactionHash : String
  blockTimestamp : Nat
  hospital : Option String
  deriving DecidableEq, Repr

/-- One entry of the `donationHistory` state.  `date` holds the UTC day number of the
entry: it stands for the text `YYYY-MM-DD` that `toISOString().split('T')[0]` gives,
and `new Date(text)` is that day number times `msPerDay`.  `hospital` and `notes`
are `none` where the field is `undefined` or absent. -/
structure Donation where
  id : String
  date : Int
  time : String
  hospital : Option String
  status : String
  pointsEarned : Int
  notes : Option String
  deriving DecidableEq, Repr

/-- The day of `new Date(seconds * 1000).toISOString()`; `none` when the date is
invalid and `toISOString` throws a `RangeError`. -/
def isoDay (seconds : Nat) : Option Int :=
  (timeClip ((seconds : Int) * 1000)).map (· / msPerDay)

/-- The entry built for the scheduled donation at position `index` (lines 128-136);
`localeTime` is `toLocaleTimeString()` of the date of a timestamp. -/
def scheduledEntry (localeTime : Nat → String) (sd : ScheduledDonations) (timestamp : Nat)
    (index : Nat) : Option Donation :=
  (isoDay timestamp).map fun day =>
    { id := "scheduled-" ++ toString timestamp
      date := day
      time := localeTime timestamp
      hospital := sd.hospitals[index]?
      status := if (sd.completed[index]?).getD false = true then "Completed" else "Scheduled"
      pointsEarned := if (sd.completed[index]?).getD false = true then 10 else 0
      notes := sd.notes[index]? }

/-- The method `map((element, index) => ...)` for a callback that may throw: the
entries in order, or `none` as soon as one call throws; `start` is the index of the
first element. -/
def mapWithIndex {α β : Type} (f : α → Nat → Option β) : Nat → List α → Option (List β)
  | _, [] => some []
  | start, a :: as =>
    match f a start, mapWithIndex f (start + 1) as with
    | some b, some bs => some (b :: bs)
    | _, _ => none

/-- The constant `scheduledDonationsList` of `loadDonorData`. -/
def scheduledDonationsList (localeTime : Nat → String) (sd : ScheduledDonations) :
    Option (List Donation) :=
  mapWithIndex (scheduledEntry localeTime sd) 0 sd.timestamps

/-- The entry built for one recorded donation (lines 152-159); `none` when
`toISOString` or `parseBytes32String` throws. -/
def completedEntry (localeTime : Nat → String) (event : DonationEvent) : Option Donation :=
  match isoDay event.blockTimestamp, event.hospital with
  | some day, some hospital =>
    some { id := event.transactionHash
           date := day
           time := localeTime event.blockTimestamp
           hospital := some hospital
           status := "Completed"
           pointsEarned := 10
           notes := none }
  | _, _ => none

/-- The constant `completedHistory` of `loadDonorData`. -/
def completedHistory (localeTime : Nat → String) (events : List DonationEvent) :
    Option (List Donation) :=
  mapWithIndex (fun event _ => completedEntry localeTime event) 0 events

/-- The comparison function of line 167: `new Date(b.date) - new Date(a.date)`. -/
def compareDonations (a b : Donation) : Int := b.date * msPerDay - a.date * msPerDay

/-- The order `sort` establishes: `a` may stand before `b` when the comparison
function does not answer a positive number. -/
def MayPrecede (a b : Donation) : Prop := compareDonations a b ≤ 0

instance : DecidableRel MayPrecede := fun a b =>
  inferInstanceAs (Decidable (compareDonations a b ≤ 0))

/-- The method `sort` with the comparison function of line 167: a stable sort (the
entries that compare equal keep their order). -/
def sortDonations (l : List Donation) : List Donation := l.insertionSort MayPrecede

/-- The list `loadDonorData` passes to `setDonationHistory` (lines 163-170); `none`
when building an entry throws (an invalid date, a topic that does not decode), in
which case the history is not set. -/
def donationHistory (localeTime : Nat → String) (sd : ScheduledDonations)
    (events : List DonationEvent) : Option (List Donation) :=
  match scheduledDonationsList localeTime sd, completedHistory localeTime events with
  | some scheduled, some completed => some (sortDonations (scheduled ++ completed))
  | _, _ => none

/-- The total of `pointsEarned` over a list of entries. -/
def totalPoints (l : List Donation) : Int := (l.map (·.pointsEarned)).sum

/-- The Complete button is rendered on an entry (line 335). -/
def completeOffered (d : Donation) : Bool := decide (d.status = "Scheduled")

/-- The argument of the Complete button (line 340):
`parseInt(donation.id.split('-')[1])`. -/
def completeArgument (d : Donation) : JsNum :=
  parseIntArg ((splitOnChar '-' d.id.toList)[1]?)

/-- What surrounds one run of `handleCompleteDonation`: the outcome of
`contract.completeScheduledDonation(...)`, then of `tx.wait()`. -/
structure CompleteEnv where
  receipt : Except String (Except String Unit)

/-- What `handleCompleteDonation` does to the outside, in order. -/
inductive CompletionEffect where
  | completeScheduledDonation (scheduledTimestamp : JsNum)
  | txWait
  | loadDonorData
  deriving DecidableEq, Repr

/-- The result of one run of `handleCompleteDonation`: the effects issued and the
value of the `error` state when the handler returns. -/
structure CompletionOutcome where
  effects : List CompletionEffect
  error : String
  deriving DecidableEq, Repr

/-- The `catch` clause: `setError(err.message || 'Failed to complete donation')`. -/
def catchCompleteMessage (message : String) : String :=
  if message = "" then "Failed to complete donation" else message

/-- The handler `handleCompleteDonation(scheduledTimestamp)`. -/
def handleCompleteDonation (env : CompleteEnv) (scheduledTimestamp : JsNum) :
    CompletionOutcome :=
  match env.receipt with
  | .error message =>
    ⟨[.completeScheduledDonation scheduledTimestamp], catchCompleteMessage message⟩
  | .ok (.error message) =>
    ⟨[.completeScheduledDonation scheduledTimestamp, .txWait], catchCompleteMessage message⟩
  | .ok (.ok _) =>
    ⟨[.completeScheduledDonation scheduledTimestamp, .txWait, .loadDonorData],
      "Donation completed successfully!"⟩

/-- The value of `getRewardLevel(points)`. -/
structure RewardLevel where
  level : String
  color : String
  deriving DecidableEq, Repr

/-- The function `getRewardLevel(points)`. -/
def getRewardLevel (points : Int) : RewardLevel :=
  if points ≥ 100 then { level := "Platinum", color := "#E5E4E2" }
  else if points ≥ 50 then { level := "Gold", color := "#FFD700" }
  else if points ≥ 20 then { level := "Silver", color := "#C0C0C0" }
  else { level := "Bronze", color := "#CD7F32" }

/-- The place of a tier among the four, lowest first. -/
def tierRank (level : String) : Nat :=
  if level = "Platinum" then 3 else if level = "Gold" then 2
  else if level = "Silver" then 1 else 0

/-- The number shown after 'Next reward at' (line 496):
`rewardPoints + (10 - (rewardPoints % 10))`, for the non-negative integer
`rewardPoints` holds. -/
def nextReward (rewardPoints : Nat) : Nat := rewardPoints + (10 - rewardPoints % 10)

/-- The severity of the alert (line 428):
`error.includes('scheduled') ? 'success' : 'error'`. -/
def alertSeverity (error : String) : String :=
  if includes error "scheduled" = true then "success" else "error"

/-- The fixed messages the dashboard sets on its failure paths. -/
def failureMessages : List String :=
  [ "Please complete your registration first",
    "Failed to load donor data. Please try again later.",
    "Please fill in all required fields",
    "Contract function not available. Please make sure you have the latest contract deployed.",
    "Please schedule for a future date and time",
    "Must wait 90 days between donations",
    "Transaction failed",
    "Failed to schedule donation",
    "Failed to complete donation" ]

end DonorDashboard

/-! ## The ledger behind `completeScheduledDonation` -/

namespace Ledger

/-- Modelled from the spec: one ScheduledDonation of a donor, keyed by its
requested time. -/
structure ScheduledDonation where
  timestamp : Nat
  hospital : String
  notes : String
  completed : Bool
  deriving DecidableEq, Repr

/-- Modelled from the spec: what the ledger holds for one donor. -/
structure DonorRecord where
  rewardPoints : Nat
  lastDonationTime : Nat
  scheduled : List ScheduledDonation
  deriving DecidableEq, Repr

/-- Modelled from the spec: the two failures of `CompleteScheduledDonation`. -/
inductive CompleteError where
  | scheduleNotFound
  | alreadyCompleted
  deriving DecidableEq, Repr

/-- Modelled from the spec: the entry with the given time gets `completed = true`. -/
def markCompleted (scheduledTime : Nat) : List ScheduledDonation → List ScheduledDonation
  | [] => []
  | entry :: entries =>
    if entry.timestamp = scheduledTime then { entry with completed := true } :: entries
    else entry :: markCompleted scheduledTime entries

/-- Modelled from the spec: `CompleteScheduledDonation(donor, scheduledTime)` fails
with `ScheduleNotFound` without a matching entry and with `AlreadyCompleted` on a
completed entry; otherwise it sets `completed`, sets `lastDonationTime` to the
scheduled time and awards 10 reward points. -/
def completeScheduledDonation (scheduledTime : Nat) (donor : DonorRecord) :
    Except CompleteError DonorRecord :=
  match donor.scheduled.find? (fun entry => decide (entry.timestamp = scheduledTime)) with
  | none => .error .scheduleNotFound
  | some entry =>
    if entry.completed = true then .error .alreadyCompleted
    else .ok { rewardPoints := donor.rewardPoints + 10
               lastDonationTime := scheduledTime
               scheduled := markCompleted scheduledTime donor.scheduled }

/-- Modelled from the spec: the answer of `getScheduledDonations` for a donor, as
the dashboard reads it. -/
def getScheduledDonations (donor : DonorRecord) : DonorDashboard.ScheduledDonations :=
  { timestamps := donor.scheduled.map (·.timestamp)
    hospitals := donor.scheduled.map (·.hospital)
    completed := donor.scheduled.map (·.completed)
    notes := donor.scheduled.map (·.notes) }

end Ledger

/-! ## DonorDashboard.js: loading and completing on the state -/

namespace Ledger

/-- Modelled from the spec: the text of a failure, as the dashboard receives it in
`err.message`. -/
def CompleteError.message : CompleteError → String
  | .scheduleNotFound => "ScheduleNotFound"
  | .alreadyCompleted => "AlreadyCompleted"

/-- Modelled from the spec: the answer of the contract to
`completeScheduledDonation(scheduledTimestamp)`: the ledger operation on the
timestamp; an argument that is not a non-negative integer is refused. -/
def answer (scheduledTimestamp : JsNum) (donor : DonorRecord) : Except String DonorRecord :=
  match scheduledTimestamp with
  | some (Int.ofNat scheduledTime) =>
    match completeScheduledDonation scheduledTime donor with
    | .ok completed => .ok completed
    | .error e => .error e.message
  | _ => .error "invalid scheduledTimestamp"

/-- Modelled from the spec: the ledger after the contract has answered. -/
def after (scheduledTimestamp : JsNum) (donor : DonorRecord) : DonorRecord :=
  match answer scheduledTimestamp donor with
  | .ok completed => completed
  | .error _ => donor

/-- Modelled from the spec: the number of completed donations of a donor. -/
def completedCount (donor : DonorRecord) : Nat :=
  (donor.scheduled.filter fun entry => entry.completed).length

end Ledger

namespace DonorDashboard

/-- The React state that loading and completing touch (lines 43-46). -/
structure DashboardState where
  donationHistory : List Donation
  rewardPoints : Int
  loading : Bool
  error : String
  deriving DecidableEq, Repr

/-- What surrounds one run of `loadDonorData`: the outcomes of
`contract.getDonorInfo(account)`, of `contract.getScheduledDonations(account)` and
of `provider.getLogs(filter)` with the blocks of the logs, and the locale. -/
structure LoadEnv where
  donorInfo : Except String DonorInfo
  scheduledDonations : Except String ScheduledDonations
  donationEvents : Except String (List DonationEvent)
  localeTime : Nat → String

/-- The message of the `catch` clause of `loadDonorData` (line 173). -/
def loadFailed : String := "Failed to load donor data. Please try again later."

/-- The function `loadDonorData` (lines 106-177) on the state.  `toNumber()` throws
on reward points beyond `Number.MAX_SAFE_INTEGER`; every failure after
`setRewardPoints` leaves the history as it was. -/
def loadDonorData (env : LoadEnv) (s : DashboardState) : DashboardState :=
  match env.donorInfo with
  | .error _ => { s with error := loadFailed, loading := false }
  | .ok info =>
    if info.isRegistered = false then
      { s with error := "Please complete your registration first", loading := false }
    else if 9007199254740991 < info.rewardPoints then
      { s with error := loadFailed, loading := false }
    else
      match env.scheduledDonations, env.donationEvents with
      | .ok sd, .ok events =>
        match donationHistory env.localeTime sd events with
        | some history =>
          { donationHistory := history, rewardPoints := info.rewardPoints,
            loading := false, error := "" }
        | none =>
          { s with rewardPoints := info.rewardPoints, error := loadFailed, loading := false }
      | _, _ =>
        { s with rewardPoints := info.rewardPoints, error := loadFailed, loading := false }

/-- The React state when `handleCompleteDonation(scheduledTimestamp)` returns
(lines 278-296): the run `handleCompleteDonation` with its `loadDonorData` effect
carried out on the state, then the message of the run and `setLoading(false)`;
`load` surrounds that run of `loadDonorData`. -/
def completeDonationState (env : CompleteEnv) (load : LoadEnv) (scheduledTimestamp : JsNum)
    (s : DashboardState) : DashboardState :=
  { (if CompletionEffect.loadDonorData ∈ (handleCompleteDonation env scheduledTimestamp).effects
      then loadDonorData load s else s) with
    error := (handleCompleteDonation env scheduledTimestamp).error
    loading := false }

/-- The dashboard of a donor together with the ledger it talks to. -/
structure World where
  ledger : Ledger.DonorRecord
  view : DashboardState
  deriving DecidableEq, Repr

/-- What `handleCompleteDonation` sees of the contract's answer: a refusal rejects
the call, an accepted transaction is mined. -/
def receiptOf (answer : Except String Ledger.DonorRecord) : CompleteEnv :=
  match answer with
  | .ok _ => ⟨.ok (.ok ())⟩
  | .error message => ⟨.error message⟩

/-- A run of `loadDonorData` reads the scheduled donations from the ledger, if the
call succeeds. -/
def LoadEnv.Reads (load : LoadEnv) (ledger : Ledger.DonorRecord) : Prop :=
  ∀ sd, load.scheduledDonations = .ok sd → sd = Ledger.getScheduledDonations ledger

/-- The world after one click on the Complete button of the entry `d`. -/
def clickComplete (w : World) (d : Donation) (load : LoadEnv) : World :=
  { ledger := Ledger.after (completeArgument d) w.ledger
    view := completeDonationState (receiptOf (Ledger.answer (completeArgument d) w.ledger))
      load (completeArgument d) w.view }

/-- One event of the donor dashboard: a click on the Complete button of an entry
that offers it (the list is rendered when `loading` is false, lines 435-440), or a
run of `loadDonorData` started by one of the listeners (lines 60-99).  A run of
`handleCompleteDonation` is one event: it sets `loading` first, and the spinner
replaces the list and its buttons until the run has set `loading` back. -/
inductive DonorStep : World → World → Prop where
  | complete (w : World) (d : Donation) (load : LoadEnv) :
      w.view.loading = false → d ∈ w.view.donationHistory → completeOffered d = true →
      load.Reads (Ledger.after (completeArgument d) w.ledger) →
      DonorStep w (clickComplete w d load)
  | reload (w : World) (load : LoadEnv) :
      load.Reads w.ledger → DonorStep w { w with view := loadDonorData load w.view }

/-- The dashboard has just loaded the history from the ledger. -/
def World.Loaded (w : World) : Prop :=
  w.view.loading = false ∧
    ∃ (localeTime : Nat → String) (events : List DonationEvent),
      donationHistory localeTime (Ledger.getScheduledDonations w.ledger) events
        = some w.view.donationHistory

/-- A donor with one scheduled donation, on 30 November 2023, not yet completed. -/
def donorOneOpen : Ledger.DonorRecord :=
  { rewardPoints := 0, lastDonationTime := 0,
    scheduled := [⟨1701340200, "Medical Center", "", false⟩] }

/-- The history entry of the scheduled donation of `donorOneOpen`. -/
def entryOneOpen : Donation :=
  { id := "scheduled-1701340200", date := 19691, time := "10:30:00 AM",
    hospital := some "Medical Center", status := "Scheduled", pointsEarned := 0,
    notes := some "" }

/-- The dashboard of `donorOneOpen`, loaded. -/
def worldOneOpen : World :=
  { ledger := donorOneOpen
    view := { donationHistory := [entryOneOpen], rewardPoints := 0, loading := false,
              error := "" } }

/-- A run of `loadDonorData` after the completion: the ledger answers, and the log
of the recorded donation has a third topic that does not decode. -/
def loadWithLog : LoadEnv :=
  { donorInfo := .ok ⟨true, 10, 1701340200⟩
    scheduledDonations := .ok ⟨[1701340200], ["Medical Center"], [true], [""]⟩
    donationEvents := .ok [⟨"0xabc", 1701340300, none⟩]
    localeTime := fun _ => "10:30:00 AM" }

/-- A run of `loadDonorData` after the completion that finds no log. -/
def loadWithoutLog : LoadEnv :=
  { donorInfo := .ok ⟨true, 10, 1701340200⟩
    scheduledDonations := .ok ⟨[1701340200], ["Medical Center"], [true], [""]⟩
    donationEvents := .ok []
    localeTime := fun _ => "10:30:00 AM" }

end DonorDashboard

/-! ## HospitalDashboard.js and RecipientDashboard.js: counts and colours -/

namespace HospitalDashboard

/-- The number on the Pending Requests card (line 258). -/
def pendingCount (requests : List BloodRequest) : Nat :=
  (requests.filter fun r => decide (r.status = "PENDING")).length

/-- The number on the Fulfilled Requests card (line 268). -/
def fulfilledCount (requests : List BloodRequest) : Nat :=
  (requests.filter fun r => decide (r.status = "FULFILLED")).length

end HospitalDashboard

namespace RecipientDashboard

/-- The constant `urgencyLevels`: the values the Urgency Level select offers. -/
def urgencyLevels : List String := ["Normal", "Urgent", "Emergency"]

/-- The function `getUrgencyColor(urgency)`. -/
def getUrgencyColor (urgency : String) : String :=
  if urgency = "emergency" then "error"
  else if urgency = "urgent" then "warning"
  else "info"

/-- The form after `handleInputChange` for the select named `urgency`. -/
def selectUrgency (level : String) (s : State) : State :=
  { s with newRequest := { s.newRequest with urgency := level } }

end RecipientDashboard

/-! ## Scheduling: the checks of `handleScheduleDonation` -/

open DonorDashboard

theorem minimumInterval_eq : minimumInterval = 7776000000 := by
  unfold minimumInterval; norm_num

theorem catchMessage_of_ne {m : String} (h : m ≠ "") : catchMessage m = m := by
  simp [catchMessage, h]

theorem timeClip_of_le {v : Int} (h0 : 0 ≤ v) (h : v ≤ 8640000000000000) :
    timeClip v = some v := by
  unfold timeClip
  rw [if_pos]
  omega

/-- A run that fails one of the checks on the form or on the clock issues nothing. -/
theorem handle_not_future {env : ScheduleEnv} {sd : ScheduleData} {r : Int}
    (hr : scheduledDateTime env.tza sd = some r) (hle : r ≤ env.now) :
    (handleScheduleDonation env sd).effects = [] := by
  unfold handleScheduleDonation
  split
  · rfl
  · split
    · rfl
    · simp [hr, jsLe, hle]

/-- The run of a complete form with a valid requested time in the future, whose donor
lookup succeeds with a representable last donation date: all that is left is the
interval check. -/
theorem handle_ready {env : ScheduleEnv} {sd : ScheduleData} {info : DonorInfo} {r : Int}
    (hform : FormReady env sd) (hinfo : env.donorInfo = .ok info)
    (hvalid : (info.lastDonationTime : Int) * 1000 ≤ 8640000000000000)
    (hr : scheduledDateTime env.tza sd = some r) (hfuture : env.now < r) :
    handleScheduleDonation env sd =
      if r - (info.lastDonationTime : Int) * 1000 < minimumInterval then
        ⟨[.getDonorInfo env.account], "Must wait 90 days between donations"⟩
      else
        match env.receipt with
        | .error message =>
          ⟨[.getDonorInfo env.account, .scheduleDonation sd.hospital sd.notes],
            catchMessage message⟩
        | .ok (.error message) =>
          ⟨[.getDonorInfo env.account, .scheduleDonation sd.hospital sd.notes, .txWait],
            catchMessage message⟩
        | .ok (.ok status) =>
          if status = 1 then
            ⟨[.getDonorInfo env.account, .scheduleDonation sd.hospital sd.notes, .txWait,
                .loadDonorData, .closeDialog],
              "Donation scheduled for " ++ env.localeDate ++ " at " ++ sd.time ++ " at "
                ++ sd.hospital⟩
          else
            ⟨[.getDonorInfo env.account, .scheduleDonation sd.hospital sd.notes, .txWait],
              "Transaction failed"⟩ := by
  obtain ⟨hd, ht, hh, hc⟩ := hform
  have hclip : timeClip ((info.lastDonationTime : Int) * 1000)
      = some ((info.lastDonationTime : Int) * 1000) :=
    timeClip_of_le (by positivity) hvalid
  unfold handleScheduleDonation
  rw [if_neg (by simp [hd, ht, hh]), if_neg (by simp [hc]), hr]
  rw [if_neg (by simp [jsLe, hfuture])]
  simp only [hinfo, hclip, jsSub, jsLt, decide_eq_true_eq]
  split
  · rw [catchMessage_of_ne (by decide)]
  · rcases env.receipt with m | (m | st)
    · rfl
    · rfl
    · simp only []
      split
      · rfl
      · rw [catchMessage_of_ne (by decide)]

/-- In a ready run the `scheduleDonation` call is issued exactly when the interval
check passes. -/
theorem scheduled_iff_of_ready {env : ScheduleEnv} {sd : ScheduleData} {info : DonorInfo}
    {r : Int} (hform : FormReady env sd) (hinfo : env.donorInfo = .ok info)
    (hvalid : (info.lastDonationTime : Int) * 1000 ≤ 8640000000000000)
    (hr : scheduledDateTime env.tza sd = some r) (hfuture : env.now < r) :
    (handleScheduleDonation env sd).scheduled = true ↔
      minimumInterval ≤ r - (info.lastDonationTime : Int) * 1000 := by
  rw [handle_ready hform hinfo hvalid hr hfuture]
  by_cases h : r - (info.lastDonationTime : Int) * 1000 < minimumInterval
  · rw [if_pos h]
    simp [Outcome.scheduled, Effect.isScheduleDonation]
    exact h
  · rw [if_neg h]
    have h2 : minimumInterval ≤ r - (info.lastDonationTime : Int) * 1000 := not_lt.mp h
    simp only [h2, iff_true]
    rcases env.receipt with m | (m | st)
    · simp [Outcome.scheduled, Effect.isScheduleDonation]
    · simp [Outcome.scheduled, Effect.isScheduleDonation]
    · simp only []
      split <;> simp [Outcome.scheduled, Effect.isScheduleDonation]

/-- C1, as stated, fails: with the last donation at 1699000000 s and the clock at
1700000000000 ms, a request for 1699957800000 ms is less than 90 days after the last
donation, yet the run fails with the not-in-the-future error, not the
eligibility-window one. -/
theorem C1_counterexample :
    ¬ ∀ (env : ScheduleEnv) (sd : ScheduleData) (info : DonorInfo) (r : Int),
        env.donorInfo = .ok info → 0 < info.lastDonationTime →
        scheduledDateTime env.tza sd = some r →
        r - (info.lastDonationTime : Int) * 1000 < minimumInterval →
        (handleScheduleDonation env sd).error = "Must wait 90 days between donations" ∧
          (handleScheduleDonation env sd).scheduled = false := by
  intro h
  have h1 := h (sampleEnv 1700000000000 ⟨true, 10, 1699000000⟩)
    (sampleForm 1699920000000 "10:30") ⟨true, 10, 1699000000⟩ 1699957800000
    rfl (by decide) (by decide) (by decide)
  revert h1
  decide

/-- C1, amended: for a donor with a prior donation (at a representable date) and a
valid requested time less than 90 days after it, no `scheduleDonation` call is
issued; and when the form is complete, the contract function is available and the
requested time is strictly after the current time, the run fails with
'Must wait 90 days between donations' after the donor lookup alone. -/
theorem C1_eligibility_window (env : ScheduleEnv) (sd : ScheduleData) (info : DonorInfo)
    (r : Int) (hinfo : env.donorInfo = .ok info) (_hprior : 0 < info.lastDonationTime)
    (hvalid : (info.lastDonationTime : Int) * 1000 ≤ 8640000000000000)
    (hr : scheduledDateTime env.tza sd = some r)
    (hwin : r - (info.lastDonationTime : Int) * 1000 < minimumInterval) :
    (handleScheduleDonation env sd).scheduled = false ∧
      (FormReady env sd → env.now < r →
        (handleScheduleDonation env sd).error = "Must wait 90 days between donations" ∧
        (handleScheduleDonation env sd).effects = [.getDonorInfo env.account]) := by
  have hready : FormReady env sd → env.now < r →
      handleScheduleDonation env sd
        = ⟨[.getDonorInfo env.account], "Must wait 90 days between donations"⟩ := by
    intro hform hfuture
    rw [handle_ready hform hinfo hvalid hr hfuture, if_pos hwin]
  refine ⟨?_, fun hform hfuture => by rw [hready hform hfuture]; exact ⟨rfl, rfl⟩⟩
  by_cases hform : FormReady env sd
  · by_cases hfuture : env.now < r
    · rw [hready hform hfuture]; rfl
    · rw [Outcome.scheduled, handle_not_future hr (not_lt.mp hfuture)]; rfl
  · unfold handleScheduleDonation
    unfold FormReady at hform
    split
    · rfl
    · split
      · rfl
      · rename_i h1 h2
        exact absurd ⟨fun h => h1 (Or.inl h), fun h => h1 (Or.inr (Or.inl h)),
          fun h => h1 (Or.inr (Or.inr h)), by simpa using h2⟩ hform

/-- Witness of C1: a request 27 days after the last donation, in the future. -/
theorem C1_eligibility_window_witness :
    (handleScheduleDonation (sampleEnv 1700000000000 ⟨true, 10, 1699000000⟩)
        (sampleForm 1701302400000 "10:30")).scheduled = false ∧
      (handleScheduleDonation (sampleEnv 1700000000000 ⟨true, 10, 1699000000⟩)
        (sampleForm 1701302400000 "10:30")).error = "Must wait 90 days between donations" :=
  have h := C1_eligibility_window (sampleEnv 1700000000000 ⟨true, 10, 1699000000⟩)
    (sampleForm 1701302400000 "10:30") ⟨true, 10, 1699000000⟩ 1701340200000
    rfl (by decide) (by decide) (by decide) (by decide)
  ⟨h.1, (h.2 (by decide) (by decide)).1⟩

/-- C2: for a complete form, a valid requested time strictly after the current time
and a donor lookup that answers a representable last donation date, the
`scheduleDonation` call is issued if and only if
requestedTime - lastDonationTime ≥ 7,776,000,000 ms (90 days); a rejected run fails
with the eligibility-window error; a request exactly 90 days after the last donation
is accepted; with the last donation at T0+10 days a request for T0+50 days is
rejected and one for T0+101 days is accepted. -/
theorem C2_interval_check_iff (env : ScheduleEnv) (sd : ScheduleData) (info : DonorInfo)
    (r : Int) (hform : FormReady env sd) (hinfo : env.donorInfo = .ok info)
    (hvalid : (info.lastDonationTime : Int) * 1000 ≤ 8640000000000000)
    (hr : scheduledDateTime env.tza sd = some r) (hfuture : env.now < r) :
    minimumInterval = 90 * 24 * 60 * 60 * 1000 ∧ minimumInterval = 7776000000 ∧
    ((handleScheduleDonation env sd).scheduled = true ↔
      7776000000 ≤ r - (info.lastDonationTime : Int) * 1000) ∧
    ((handleScheduleDonation env sd).scheduled = false →
      (handleScheduleDonation env sd).error = "Must wait 90 days between donations") ∧
    (r - (info.lastDonationTime : Int) * 1000 = 7776000000 →
      (handleScheduleDonation env sd).scheduled = true) ∧
    (∀ T0 : Int, (info.lastDonationTime : Int) * 1000 = T0 + 10 * msPerDay →
      r = T0 + 50 * msPerDay → (handleScheduleDonation env sd).scheduled = false) ∧
    (∀ T0 : Int, (info.lastDonationTime : Int) * 1000 = T0 + 10 * msPerDay →
      r = T0 + 101 * msPerDay → (handleScheduleDonation env sd).scheduled = true) := by
  have hiff := scheduled_iff_of_ready hform hinfo hvalid hr hfuture
  rw [minimumInterval_eq] at hiff
  refine ⟨rfl, minimumInterval_eq, hiff, ?_, ?_, ?_, ?_⟩
  · intro hs
    have hlt : r - (info.lastDonationTime : Int) * 1000 < minimumInterval := by
      rw [minimumInterval_eq]
      by_contra hc
      rw [hiff.mpr (not_lt.mp hc)] at hs
      exact Bool.noConfusion hs
    rw [handle_ready hform hinfo hvalid hr hfuture, if_pos hlt]
  · intro he
    exact hiff.mpr (le_of_eq he.symm)
  · intro T0 hl hT
    have hn : ¬ (handleScheduleDonation env sd).scheduled = true := by
      rw [hiff]; unfold msPerDay at hl hT; omega
    simpa using hn
  · intro T0 hl hT
    rw [hiff]; unfold msPerDay at hl hT; omega

/-- Witness of C2: a request exactly 90 days after the last donation. -/
theorem C2_interval_check_iff_witness :
    FormReady (sampleEnv 1700000000000 ⟨true, 10, 1693564200⟩)
        (sampleForm 1701302400000 "10:30") ∧
      (handleScheduleDonation (sampleEnv 1700000000000 ⟨true, 10, 1693564200⟩)
        (sampleForm 1701302400000 "10:30")).scheduled = true :=
  ⟨by decide,
    (C2_interval_check_iff (sampleEnv 1700000000000 ⟨true, 10, 1693564200⟩)
      (sampleForm 1701302400000 "10:30") ⟨true, 10, 1693564200⟩ 1701340200000
      (by decide) rfl (by decide) (by decide) (by decide)).2.2.2.2.1 (by decide)⟩

/-- C3: for a complete form whose requested time is valid and not strictly after the
current time (equal included), the run fails with
'Please schedule for a future date and time' whatever the contract would answer to
the donor lookup, and it issues no effect at all: neither a donor lookup nor a
`scheduleDonation` call. -/
theorem C3_not_in_future (env : ScheduleEnv) (sd : ScheduleData) (r : Int)
    (hform : FormReady env sd) (hr : scheduledDateTime env.tza sd = some r)
    (hle : r ≤ env.now) :
    (handleScheduleDonation env sd).error = "Please schedule for a future date and time" ∧
      (handleScheduleDonation env sd).effects = [] ∧
      (handleScheduleDonation env sd).lookedUp = false ∧
      (handleScheduleDonation env sd).scheduled = false := by
  obtain ⟨hd, ht, hh, hc⟩ := hform
  have h : handleScheduleDonation env sd
      = ⟨[], "Please schedule for a future date and time"⟩ := by
    unfold handleScheduleDonation
    rw [if_neg (by simp [hd, ht, hh]), if_neg (by simp [hc]), hr,
      if_pos (by simp [jsLe, hle]), catchMessage_of_ne (by decide)]
  rw [h]
  exact ⟨rfl, rfl, rfl, rfl⟩

/-- Witness of C3: a request for exactly the current time. -/
theorem C3_not_in_future_witness :
    (handleScheduleDonation (sampleEnv 1699957800000 ⟨true, 10, 0⟩)
        (sampleForm 1699920000000 "10:30")).error
      = "Please schedule for a future date and time" ∧
    (handleScheduleDonation (sampleEnv 1699957800000 ⟨true, 10, 0⟩)
        (sampleForm 1699920000000 "10:30")).effects = [] :=
  have h := C3_not_in_future (sampleEnv 1699957800000 ⟨true, 10, 0⟩)
    (sampleForm 1699920000000 "10:30") 1699957800000 (by decide) (by decide) (by decide)
  ⟨h.1, h.2.1⟩

/-- C4, as stated, fails: with the clock at the epoch (now = 0) a never-donated donor
(lastDonationTime = 0) who asks for 01:00 on 1 January 1970 asks for a time strictly
after the current time, and the interval check rejects the request. -/
theorem C4_counterexample :
    ¬ ∀ (env : ScheduleEnv) (sd : ScheduleData) (info : DonorInfo) (r : Int),
        FormReady env sd → env.donorInfo = .ok info → info.lastDonationTime = 0 →
        scheduledDateTime env.tza sd = some r → env.now < r →
        (handleScheduleDonation env sd).scheduled = true := by
  intro h
  have h1 := h (sampleEnv 0 ⟨true, 0, 0⟩) (sampleForm 0 "01:00") ⟨true, 0, 0⟩ 3600000
    (by decide) rfl rfl (by decide) (by decide)
  revert h1
  decide

/-- C4, amended: the interval check is not skipped for the sentinel 0, it is applied
to it as to any other value; for a donor whose lastDonationTime is 0, every
requested time strictly after the current time that is at least 90 days after the
epoch (7,776,000,000 ms) passes the check and proceeds to the `scheduleDonation`
call; a requested time less than 90 days after the epoch is rejected. -/
theorem C4_never_donated (env : ScheduleEnv) (sd : ScheduleData) (info : DonorInfo)
    (r : Int) (hform : FormReady env sd) (hinfo : env.donorInfo = .ok info)
    (hnever : info.lastDonationTime = 0) (hr : scheduledDateTime env.tza sd = some r)
    (hfuture : env.now < r) :
    (7776000000 ≤ r → (handleScheduleDonation env sd).scheduled = true) ∧
      (r < 7776000000 → (handleScheduleDonation env sd).scheduled = false ∧
        (handleScheduleDonation env sd).error = "Must wait 90 days between donations") := by
  have hvalid : (info.lastDonationTime : Int) * 1000 ≤ 8640000000000000 := by
    rw [hnever]; decide
  have hiff := scheduled_iff_of_ready hform hinfo hvalid hr hfuture
  rw [minimumInterval_eq, hnever] at hiff
  refine ⟨fun h => hiff.mpr (by simpa using h), fun h => ?_⟩
  have hlt : r - (info.lastDonationTime : Int) * 1000 < minimumInterval := by
    rw [minimumInterval_eq, hnever]; simpa using h
  rw [handle_ready hform hinfo hvalid hr hfuture, if_pos hlt]
  exact ⟨rfl, rfl⟩

/-- Witness of C4: a never-donated donor scheduling in November 2023. -/
theorem C4_never_donated_witness :
    (handleScheduleDonation (sampleEnv 1700000000000 ⟨true, 0, 0⟩)
        (sampleForm 1701302400000 "10:30")).scheduled = true :=
  (C4_never_donated (sampleEnv 1700000000000 ⟨true, 0, 0⟩)
    (sampleForm 1701302400000 "10:30") ⟨true, 0, 0⟩ 1701340200000
    (by decide) rfl rfl (by decide) (by decide)).1 (by decide)

/-- C5, as stated, fails: with the last donation at 1699000000 s and the clock at
1700000000000 ms (about 11.6 days later), a request for 2 February 2024 is
scheduled although now - lastDonationTime is less than 90 days. -/
theorem C5_counterexample :
    ¬ ∀ (env : ScheduleEnv) (sd : ScheduleData) (info : DonorInfo),
        env.donorInfo = .ok info → (handleScheduleDonation env sd).scheduled = true →
        minimumInterval ≤ env.now - (info.lastDonationTime : Int) * 1000 := by
  intro h
  have h1 := h (sampleEnv 1700000000000 ⟨true, 10, 1699000000⟩)
    (sampleForm 1706832000000 "10:30") ⟨true, 10, 1699000000⟩ rfl (by decide)
  revert h1
  decide

/-- C5, amended: the `scheduleDonation` call is reached with a valid requested time
only if that time is strictly after the current time, the donor lookup succeeded
and, the last donation date being representable,
requestedTime - lastDonationTime ≥ 90 days: the interval is measured from the
requested time, not from the current time. -/
theorem C5_scheduled_only_if (env : ScheduleEnv) (sd : ScheduleData) (r : Int)
    (hr : scheduledDateTime env.tza sd = some r)
    (hs : (handleScheduleDonation env sd).scheduled = true) :
    env.now < r ∧ ∃ info : DonorInfo, env.donorInfo = .ok info ∧
      ((info.lastDonationTime : Int) * 1000 ≤ 8640000000000000 →
        minimumInterval ≤ r - (info.lastDonationTime : Int) * 1000) := by
  have hfuture : env.now < r := by
    by_contra hc
    rw [Outcome.scheduled, handle_not_future hr (not_lt.mp hc)] at hs
    exact Bool.noConfusion hs
  have hform : FormReady env sd := by
    by_contra hc
    unfold handleScheduleDonation at hs
    unfold FormReady at hc
    split at hs
    · exact Bool.noConfusion hs
    · split at hs
      · exact Bool.noConfusion hs
      · rename_i h1 h2
        exact hc ⟨fun h => h1 (Or.inl h), fun h => h1 (Or.inr (Or.inl h)),
          fun h => h1 (Or.inr (Or.inr h)), by simpa using h2⟩
  refine ⟨hfuture, ?_⟩
  obtain ⟨hd, ht, hh, hc⟩ := hform
  cases hinfo : env.donorInfo with
  | error m =>
    unfold handleScheduleDonation at hs
    rw [if_neg (by simp [hd, ht, hh]), if_neg (by simp [hc]), hr,
      if_neg (by simp [jsLe, hfuture])] at hs
    simp [hinfo, Outcome.scheduled, Effect.isScheduleDonation] at hs
  | ok info =>
    refine ⟨info, rfl, fun hvalid => ?_⟩
    exact (scheduled_iff_of_ready ⟨hd, ht, hh, hc⟩ hinfo hvalid hr hfuture).mp hs

/-- Witness of C5: the scheduled run of 2 February 2024, requested on 14 November
2023. -/
theorem C5_scheduled_only_if_witness :
    (handleScheduleDonation (sampleEnv 1700000000000 ⟨true, 10, 1699000000⟩)
        (sampleForm 1706832000000 "10:30")).scheduled = true ∧
      (sampleEnv 1700000000000 ⟨true, 10, 1699000000⟩).now < 1706869800000 :=
  ⟨by decide,
    (C5_scheduled_only_if (sampleEnv 1700000000000 ⟨true, 10, 1699000000⟩)
      (sampleForm 1706832000000 "10:30") 1706869800000 (by decide) (by decide)).1⟩

/-- C6 fails on the code: for a donor whose record has isRegistered = false (never
donated), a complete form for a future time runs through the donor lookup and issues
the `scheduleDonation` call; the outcome is the one of a registered donor. -/
theorem C6_unregistered_donor_is_scheduled :
    (handleScheduleDonation (sampleEnv 1700000000000 ⟨false, 0, 0⟩)
        (sampleForm 1701302400000 "10:30")).effects
      = [.getDonorInfo "0xD0", .scheduleDonation "Medical Center" "", .txWait,
          .loadDonorData, .closeDialog] ∧
    (handleScheduleDonation (sampleEnv 1700000000000 ⟨false, 0, 0⟩)
        (sampleForm 1701302400000 "10:30")).scheduled = true ∧
    handleScheduleDonation (sampleEnv 1700000000000 ⟨false, 0, 0⟩)
        (sampleForm 1701302400000 "10:30")
      = handleScheduleDonation (sampleEnv 1700000000000 ⟨true, 0, 0⟩)
        (sampleForm 1701302400000 "10:30") := by
  decide

/-- C7 fails on the code: two successful attempts that differ only in the requested
date and time (30 November 2023 10:30 and 2 February 2024 15:45) issue the same
effects, in particular the same `scheduleDonation` call, which carries the hospital
and the notes and no time. -/
theorem C7_commit_carries_no_time :
    scheduledDateTime 0 (sampleForm 1701302400000 "10:30") = some 1701340200000 ∧
    scheduledDateTime 0 (sampleForm 1706832000000 "15:45") = some 1706888700000 ∧
    (handleScheduleDonation (sampleEnv 1700000000000 ⟨true, 0, 0⟩)
        (sampleForm 1701302400000 "10:30")).scheduled = true ∧
    (handleScheduleDonation (sampleEnv 1700000000000 ⟨true, 0, 0⟩)
        (sampleForm 1706832000000 "15:45")).scheduled = true ∧
    (handleScheduleDonation (sampleEnv 1700000000000 ⟨true, 0, 0⟩)
        (sampleForm 1701302400000 "10:30")).effects
      = (handleScheduleDonation (sampleEnv 1700000000000 ⟨true, 0, 0⟩)
        (sampleForm 1706832000000 "15:45")).effects := by
  decide

/-! ## Inventory and request status: `HospitalDashboard` -/

open HospitalDashboard

theorem handleUpdateRequestStatus_inventory (callOk : Bool) (requestId : Int)
    (status : String) (s : State) :
    (handleUpdateRequestStatus callOk requestId status s).inventory = s.inventory := by
  unfold handleUpdateRequestStatus
  split <;> rfl

theorem handleUpdateRequestStatus_ok (requestId : Int) (status : String) (s : State) :
    (handleUpdateRequestStatus true requestId status s).requests
      = s.requests.map fun request =>
          if request.id = requestId then { request with status := status } else request := by
  simp [handleUpdateRequestStatus]

theorem mem_updateAt {α : Type} (f : α → α) (x : α) :
    ∀ (n : Nat) (l : List α), x ∈ updateAt f n l → x ∈ l ∨ ∃ y ∈ l, x = f y := by
  intro n l
  induction l generalizing n with
  | nil => intro h; simp [updateAt] at h
  | cons a l ih =>
    cases n with
    | zero =>
      intro h
      simp only [updateAt, List.mem_cons] at h
      rcases h with h | h
      · exact Or.inr ⟨a, List.mem_cons_self _ _, h⟩
      · exact Or.inl (List.mem_cons_of_mem _ h)
    | succ n =>
      intro h
      simp only [updateAt, List.mem_cons] at h
      rcases h with h | h
      · exact Or.inl (h ▸ List.mem_cons_self _ _)
      · rcases ih n h with h' | ⟨y, hy, hxy⟩
        · exact Or.inl (List.mem_cons_of_mem _ h')
        · exact Or.inr ⟨y, List.mem_cons_of_mem _ hy, hxy⟩

/-- Every record after `handleUpdateInventory` is a record from before or holds
`parseInt(quantity)`. -/
theorem mem_handleUpdateInventory {today bloodGroup quantity : String} {s : State}
    {item : InventoryItem}
    (h : item ∈ (handleUpdateInventory today bloodGroup quantity s).inventory) :
    item ∈ s.inventory ∨ item.quantity = parseInt quantity := by
  unfold handleUpdateInventory handleDialogClose at h
  simp only [] at h
  split at h
  · rcases mem_updateAt _ _ _ _ h with h' | ⟨y, _, hy⟩
    · exact Or.inl h'
    · exact Or.inr (by rw [hy])
  · rcases List.mem_append.mp h with h' | h'
    · exact Or.inl h'
    · exact Or.inr (by rw [List.mem_singleton.mp h'])

theorem findIndex_updateAt {α : Type} (p : α → Bool) (f : α → α) :
    ∀ (l : List α) (i : Nat), findIndex p l = some i →
      ∃ y ∈ l, p y = true ∧ f y ∈ updateAt f i l := by
  intro l
  induction l with
  | nil => intro i h; simp [findIndex] at h
  | cons a l ih =>
    intro i h
    unfold findIndex at h
    by_cases hp : p a = true
    · rw [if_pos hp] at h
      cases h
      exact ⟨a, List.mem_cons_self _ _, hp, by simp [updateAt]⟩
    · rw [if_neg hp] at h
      cases hf : findIndex p l with
      | none => rw [hf] at h; simp at h
      | some j =>
        rw [hf] at h
        simp only [Option.map_some', Option.some.injEq] at h
        subst h
        obtain ⟨y, hy, hpy, hmem⟩ := ih j hf
        exact ⟨y, List.mem_cons_of_mem _ hy, hpy, by
          simp only [updateAt]; exact List.mem_cons_of_mem _ hmem⟩

/-- After `handleUpdateInventory` some record of the blood group holds
`parseInt(quantity)`, whatever that number is. -/
theorem exists_mem_handleUpdateInventory (today bloodGroup quantity : String) (s : State) :
    ∃ item ∈ (handleUpdateInventory today bloodGroup quantity s).inventory,
      item.bloodGroup = bloodGroup ∧ item.quantity = parseInt quantity := by
  unfold handleUpdateInventory handleDialogClose
  simp only []
  cases hf : findIndex (fun item : InventoryItem => decide (item.bloodGroup = bloodGroup))
      s.inventory with
  | none =>
    exact ⟨_, List.mem_append_right _ (List.mem_singleton_self _), rfl, rfl⟩
  | some i =>
    obtain ⟨y, _, hpy, hmem⟩ := findIndex_updateAt _
      (fun item : InventoryItem =>
        { item with quantity := parseInt quantity, lastUpdated := today }) _ _ hf
    exact ⟨_, hmem, by simpa using hpy, rfl⟩

/-- A run of calls whose quantities are all non-negative numbers keeps every
quantity of the inventory non-negative. -/
theorem runInventoryCalls_nonneg (calls : List InventoryCall) :
    ∀ s : State, (∀ item ∈ s.inventory, jsGe item.quantity (some 0) = true) →
      (∀ c ∈ calls, jsGe (parseInt c.quantity) (some 0) = true) →
      ∀ item ∈ (runInventoryCalls calls s).inventory, jsGe item.quantity (some 0) = true := by
  induction calls with
  | nil => intro s hs _ item hi; exact hs item hi
  | cons c cs ih =>
    intro s hs hc
    unfold runInventoryCalls
    rw [List.foldl_cons]
    refine ih _ ?_ (fun c' hc' => hc c' (List.mem_cons_of_mem _ hc'))
    intro item hi
    rcases mem_handleUpdateInventory hi with h | h
    · exact hs item h
    · rw [h]; exact hc c (List.mem_cons_self _ _)

/-- C8, as stated, fails: with the `O+` inventory set to 5, fulfilling the pending
2-unit `O+` request leaves no `O+` record holding 3. -/
theorem C8_counterexample :
    ¬ ∀ (s : State) (r : BloodRequest) (item : InventoryItem) (q : Int),
        r ∈ s.requests → item ∈ s.inventory → item.bloodGroup = r.bloodGroup →
        item.quantity = some q →
        ∃ item' ∈ (handleUpdateRequestStatus true r.id "FULFILLED" s).inventory,
          item'.bloodGroup = r.bloodGroup ∧ item'.quantity = some (q - r.units) := by
  intro h
  have h1 := h (stateWithOPos "5") requestOPos
    { bloodGroup := "O+", quantity := some 5, lastUpdated := "2024-03-16" } 5
    (by decide) (by decide) (by decide) (by decide)
  revert h1
  decide

/-- C8, amended: when a request is moved to FULFILLED by a successful
`handleUpdateRequestStatus`, its status becomes FULFILLED and every inventory record
is unchanged: the handler deducts nothing from the inventory. -/
theorem C8_fulfil_leaves_inventory (s : State) (r : BloodRequest) (hr : r ∈ s.requests) :
    (handleUpdateRequestStatus true r.id "FULFILLED" s).inventory = s.inventory ∧
      { r with status := "FULFILLED" }
        ∈ (handleUpdateRequestStatus true r.id "FULFILLED" s).requests ∧
      ∀ r' ∈ (handleUpdateRequestStatus true r.id "FULFILLED" s).requests,
        r'.id = r.id → r'.status = "FULFILLED" := by
  refine ⟨handleUpdateRequestStatus_inventory _ _ _ _, ?_, ?_⟩
  · rw [handleUpdateRequestStatus_ok]
    exact List.mem_map.mpr ⟨r, hr, by simp⟩
  · intro r' hr' hid
    rw [handleUpdateRequestStatus_ok] at hr'
    obtain ⟨a, _, ha⟩ := List.mem_map.mp hr'
    by_cases h : a.id = r.id
    · rw [if_pos h] at ha; rw [← ha]
    · rw [if_neg h] at ha; rw [← ha] at hid; exact absurd hid h

/-- Witness of C8: `O+` inventory 5 and the 2-unit `O+` request give inventory 5 and
status FULFILLED. -/
theorem C8_fulfil_leaves_inventory_witness :
    (handleUpdateRequestStatus true 1 "FULFILLED" (stateWithOPos "5")).inventory
        = (stateWithOPos "5").inventory ∧
      { requestOPos with status := "FULFILLED" }
        ∈ (handleUpdateRequestStatus true 1 "FULFILLED" (stateWithOPos "5")).requests :=
  have h := C8_fulfil_leaves_inventory (stateWithOPos "5") requestOPos (by decide)
  ⟨h.1, h.2.1⟩

/-- C9, as stated, fails: with the `O+` inventory at 0, fulfilling the 2-unit `O+`
request changes the request list (the request becomes FULFILLED). -/
theorem C9_counterexample :
    ¬ ∀ (s : State) (r : BloodRequest) (item : InventoryItem) (callOk : Bool),
        r ∈ s.requests → item ∈ s.inventory → item.bloodGroup = r.bloodGroup →
        jsLt item.quantity (some r.units) = true →
        (handleUpdateRequestStatus callOk r.id "FULFILLED" s).requests = s.requests ∧
          (handleUpdateRequestStatus callOk r.id "FULFILLED" s).inventory = s.inventory := by
  intro h
  have h1 := h (stateWithOPos "0") requestOPos
    { bloodGroup := "O+", quantity := some 0, lastUpdated := "2024-03-16" } true
    (by decide) (by decide) (by decide) (by decide)
  revert h1
  decide

/-- C9, amended: for a request whose units exceed the inventory quantity held for
its blood group, the handler makes no inventory check: when the contract call
succeeds the request becomes FULFILLED and the inventory and the error are
unchanged; only when the contract call fails are the request list and the
inventory both unchanged, with the error 'Failed to update request status'. -/
theorem C9_fulfil_without_inventory_check (s : State) (r : BloodRequest)
    (item : InventoryItem) (hr : r ∈ s.requests) (_hitem : item ∈ s.inventory)
    (_hgroup : item.bloodGroup = r.bloodGroup)
    (_hshort : jsLt item.quantity (some r.units) = true) :
    ({ r with status := "FULFILLED" }
        ∈ (handleUpdateRequestStatus true r.id "FULFILLED" s).requests ∧
      (handleUpdateRequestStatus true r.id "FULFILLED" s).inventory = s.inventory ∧
      (handleUpdateRequestStatus true r.id "FULFILLED" s).error = s.error) ∧
    ((handleUpdateRequestStatus false r.id "FULFILLED" s).requests = s.requests ∧
      (handleUpdateRequestStatus false r.id "FULFILLED" s).inventory = s.inventory ∧
      (handleUpdateRequestStatus false r.id "FULFILLED" s).error
        = "Failed to update request status") := by
  refine ⟨⟨?_, handleUpdateRequestStatus_inventory _ _ _ _, ?_⟩, ?_, ?_, ?_⟩
  · rw [handleUpdateRequestStatus_ok]
    exact List.mem_map.mpr ⟨r, hr, by simp⟩
  · simp [handleUpdateRequestStatus]
  · simp [handleUpdateRequestStatus]
  · simp [handleUpdateRequestStatus]
  · simp [handleUpdateRequestStatus]

/-- Witness of C9: `O+` inventory 0 and the 2-unit `O+` request. -/
theorem C9_fulfil_without_inventory_check_witness :
    { requestOPos with status := "FULFILLED" }
        ∈ (handleUpdateRequestStatus true 1 "FULFILLED" (stateWithOPos "0")).requests ∧
      (handleUpdateRequestStatus true 1 "FULFILLED" (stateWithOPos "0")).inventory
        = (stateWithOPos "0").inventory :=
  have h := C9_fulfil_without_inventory_check (stateWithOPos "0") requestOPos
    { bloodGroup := "O+", quantity := some 0, lastUpdated := "2024-03-16" }
    (by decide) (by decide) (by decide) (by decide)
  ⟨h.1.1, h.1.2.1⟩

/-- C10, as stated, fails: from the loaded inventory the call
`handleUpdateInventory('A+', '-5')` leaves a record whose quantity is not ≥ 0, and
that call changes the inventory. -/
theorem C10_counterexample :
    (¬ ∀ (calls : List InventoryCall),
        ∀ item ∈ (runInventoryCalls calls loadedState).inventory,
          jsGe item.quantity (some 0) = true) ∧
    (¬ ∀ (s : State) (today bloodGroup quantity : String),
        jsLt (parseInt quantity) (some 0) = true →
        (handleUpdateInventory today bloodGroup quantity s).inventory = s.inventory) := by
  constructor
  · intro h
    have h1 := h [⟨"2024-03-16", "A+", "-5"⟩]
      { bloodGroup := "A+", quantity := some (-5), lastUpdated := "2024-03-16" } (by decide)
    revert h1
    decide
  · intro h
    have h1 := h loadedState "2024-03-16" "A+" "-5" (by decide)
    revert h1
    decide

/-- C10, amended: for every sequence of `handleUpdateInventory` calls starting from
the loaded inventory in which every quantity text parses to a number ≥ 0, every
record's quantity is ≥ 0 after every call of the sequence; the handler has no
InvalidQuantity check: every call, whatever the sign of its quantity, leaves a
record of the blood group holding `parseInt(quantity)`. -/
theorem C10_inventory_nonneg (calls : List InventoryCall)
    (hq : ∀ c ∈ calls, jsGe (parseInt c.quantity) (some 0) = true) :
    (∀ k : Nat, ∀ item ∈ (runInventoryCalls (calls.take k) loadedState).inventory,
      jsGe item.quantity (some 0) = true) ∧
    (∀ (s : State) (today bloodGroup quantity : String),
      ∃ item ∈ (handleUpdateInventory today bloodGroup quantity s).inventory,
        item.bloodGroup = bloodGroup ∧ item.quantity = parseInt quantity) := by
  refine ⟨fun k => ?_, fun s today bloodGroup quantity =>
    exists_mem_handleUpdateInventory today bloodGroup quantity s⟩
  refine runInventoryCalls_nonneg (calls.take k) loadedState (by decide) ?_
  intro c hc
  exact hq c (List.mem_of_mem_take hc)

/-- Witness of C10: two updates with non-negative quantities. -/
theorem C10_inventory_nonneg_witness :
    ((runInventoryCalls
        (List.take 2 [⟨"2024-03-16", "O+", "5"⟩, ⟨"2024-03-17", "O-", "0"⟩])
        loadedState).inventory.all fun item => jsGe item.quantity (some 0)) = true :=
  List.all_eq_true.mpr
    ((C10_inventory_nonneg [⟨"2024-03-16", "O+", "5"⟩, ⟨"2024-03-17", "O-", "0"⟩]
      (by decide)).1 2)

/-! ## The inventory list under `handleUpdateInventory` -/

theorem length_updateAt {α : Type} (f : α → α) :
    ∀ (n : Nat) (l : List α), (updateAt f n l).length = l.length := by
  intro n l
  induction l generalizing n with
  | nil => cases n <;> rfl
  | cons a l ih =>
    cases n with
    | zero => rfl
    | succ n => simp [updateAt, ih]

theorem getElem?_updateAt {α : Type} (f : α → α) :
    ∀ (n : Nat) (l : List α) (j : Nat),
      (updateAt f n l)[j]? = if j = n then l[j]?.map f else l[j]? := by
  intro n l
  induction l generalizing n with
  | nil => intro j; simp [updateAt]
  | cons a l ih =>
    intro j
    cases n with
    | zero =>
      cases j with
      | zero => simp [updateAt]
      | succ j => simp [updateAt]
    | succ n =>
      cases j with
      | zero => simp [updateAt]
      | succ j => simp [updateAt, ih]

theorem map_updateAt {α β : Type} (f : α → α) (g : α → β) (hfg : ∀ x, g (f x) = g x) :
    ∀ (n : Nat) (l : List α), (updateAt f n l).map g = l.map g := by
  intro n l
  induction l generalizing n with
  | nil => cases n <;> rfl
  | cons a l ih =>
    cases n with
    | zero => simp [updateAt, hfg]
    | succ n => simp [updateAt, ih]

theorem findIndex_none {α : Type} (p : α → Bool) :
    ∀ l : List α, findIndex p l = none ↔ ∀ x ∈ l, p x = false := by
  intro l
  induction l with
  | nil => simp [findIndex]
  | cons a l ih =>
    unfold findIndex
    by_cases hp : p a = true
    · simp [hp]
    · simp only [if_neg hp, Option.map_eq_none', ih, List.mem_cons, forall_eq_or_imp]
      simp [hp]

/-- The index `findIndex` answers is the position of the first element satisfying
the predicate. -/
theorem findIndex_some {α : Type} (p : α → Bool) :
    ∀ (l : List α) (i : Nat), findIndex p l = some i →
      ∃ x, l[i]? = some x ∧ p x = true ∧ ∀ j < i, ∀ y, l[j]? = some y → p y = false := by
  intro l
  induction l with
  | nil => intro i h; simp [findIndex] at h
  | cons a l ih =>
    intro i h
    unfold findIndex at h
    by_cases hp : p a = true
    · rw [if_pos hp] at h
      cases h
      exact ⟨a, by simp, hp, fun j hj => absurd hj (Nat.not_lt_zero j)⟩
    · rw [if_neg hp] at h
      cases hf : findIndex p l with
      | none => rw [hf] at h; simp at h
      | some k =>
        rw [hf] at h
        simp only [Option.map_some', Option.some.injEq] at h
        subst h
        obtain ⟨x, hx, hpx, hfirst⟩ := ih k hf
        refine ⟨x, by simpa using hx, hpx, ?_⟩
        intro j hj y hy
        cases j with
        | zero =>
          simp only [List.getElem?_cons_zero, Option.some.injEq] at hy
          subst hy
          simpa using hp
        | succ j =>
          simp only [List.getElem?_cons_succ] at hy
          exact hfirst j (by omega) y hy

/-- C11: `handleUpdateInventory` preserves one record per blood group: if no two
records of the inventory share a bloodGroup before the call, none do after it, for
every blood group and every quantity text. -/
theorem C11_one_record_per_blood_group (today bloodGroup quantity : String) (s : State)
    (h : (s.inventory.map (·.bloodGroup)).Nodup) :
    ((handleUpdateInventory today bloodGroup quantity s).inventory.map (·.bloodGroup)).Nodup := by
  unfold handleUpdateInventory handleDialogClose
  simp only []
  cases hf : findIndex (fun item : InventoryItem => decide (item.bloodGroup = bloodGroup))
      s.inventory with
  | some i =>
    simp only []
    rw [map_updateAt (fun item : InventoryItem =>
      { item with quantity := parseInt quantity, lastUpdated := today })
      (fun item : InventoryItem => item.bloodGroup) (fun _ => rfl)]
    exact h
  | none =>
    simp only [List.map_append, List.map_cons, List.map_nil]
    have hnone := (findIndex_none _ _).mp hf
    refine List.Nodup.append h (List.nodup_singleton _) ?_
    rw [List.disjoint_singleton]
    intro hmem
    obtain ⟨x, hx, hxg⟩ := List.mem_map.mp hmem
    have := hnone x hx
    simp [hxg] at this

/-- Witness of C11: updating `O+` and adding `O-` on the loaded inventory. -/
theorem C11_one_record_per_blood_group_witness :
    ((handleUpdateInventory "2024-03-16" "O-" "4" loadedState).inventory.map
        (·.bloodGroup)).Nodup ∧
      (loadedState.inventory.map (·.bloodGroup)).Nodup :=
  ⟨C11_one_record_per_blood_group "2024-03-16" "O-" "4" loadedState (by decide), by decide⟩

/-- C12: after `handleUpdateInventory(bloodGroup, quantity)`, when a record for
bloodGroup existed, the first such record holds `parseInt(quantity)` (and the day of
the update) with its other field unchanged, every other position holds the record it
held, and the length is unchanged; when none existed, exactly one new record for
bloodGroup holding `parseInt(quantity)` is appended at the end and the list grows by
one. -/
theorem C12_update_inventory_frame (today bloodGroup quantity : String) (s : State) :
    ((∃ item ∈ s.inventory, item.bloodGroup = bloodGroup) →
      ∃ (i : Nat) (old : InventoryItem),
        s.inventory[i]? = some old ∧ old.bloodGroup = bloodGroup ∧
        (∀ j < i, ∀ x, s.inventory[j]? = some x → x.bloodGroup ≠ bloodGroup) ∧
        (handleUpdateInventory today bloodGroup quantity s).inventory[i]?
          = some { old with quantity := parseInt quantity, lastUpdated := today } ∧
        (∀ j, j ≠ i → (handleUpdateInventory today bloodGroup quantity s).inventory[j]?
          = s.inventory[j]?) ∧
        (handleUpdateInventory today bloodGroup quantity s).inventory.length
          = s.inventory.length) ∧
    ((∀ item ∈ s.inventory, item.bloodGroup ≠ bloodGroup) →
      (handleUpdateInventory today bloodGroup quantity s).inventory
          = s.inventory ++
            [{ bloodGroup := bloodGroup, quantity := parseInt quantity, lastUpdated := today }] ∧
        (handleUpdateInventory today bloodGroup quantity s).inventory.length
          = s.inventory.length + 1) := by
  constructor
  · rintro ⟨item, hitem, hbg⟩
    cases hf : findIndex (fun item : InventoryItem => decide (item.bloodGroup = bloodGroup))
        s.inventory with
    | none =>
      have := (findIndex_none _ _).mp hf item hitem
      simp [hbg] at this
    | some i =>
      obtain ⟨old, hold, hp, hfirst⟩ := findIndex_some _ _ _ hf
      have hinv : (handleUpdateInventory today bloodGroup quantity s).inventory
          = updateAt (fun item : InventoryItem =>
              { item with quantity := parseInt quantity, lastUpdated := today })
              i s.inventory := by
        unfold handleUpdateInventory handleDialogClose
        simp only [hf]
      refine ⟨i, old, hold, by simpa using hp, ?_, ?_, ?_, ?_⟩
      · intro j hj x hx
        simpa using hfirst j hj x hx
      · rw [hinv, getElem?_updateAt, if_pos rfl, hold]; rfl
      · intro j hj
        rw [hinv, getElem?_updateAt, if_neg hj]
      · rw [hinv, length_updateAt]
  · intro hnone
    have hf : findIndex (fun item : InventoryItem => decide (item.bloodGroup = bloodGroup))
        s.inventory = none := by
      rw [findIndex_none]
      intro x hx
      simpa using hnone x hx
    have hinv : (handleUpdateInventory today bloodGroup quantity s).inventory
        = s.inventory ++
          [{ bloodGroup := bloodGroup, quantity := parseInt quantity, lastUpdated := today }] := by
      unfold handleUpdateInventory handleDialogClose
      simp only [hf]
    refine ⟨hinv, ?_⟩
    rw [hinv]; simp

/-- Witness of C12: `O+` exists in the loaded inventory, `O-` does not. -/
theorem C12_update_inventory_frame_witness :
    (handleUpdateInventory "2024-03-16" "O+" "5" loadedState).inventory.length
        = loadedState.inventory.length ∧
      (handleUpdateInventory "2024-03-16" "O-" "4" loadedState).inventory.length
        = loadedState.inventory.length + 1 :=
  ⟨match (C12_update_inventory_frame "2024-03-16" "O+" "5" loadedState).1
      ⟨{ bloodGroup := "O+", quantity := some 8, lastUpdated := "2024-03-14" },
        by decide, rfl⟩ with
    | ⟨_, _, _, _, _, _, _, hlen⟩ => hlen,
    ((C12_update_inventory_frame "2024-03-16" "O-" "4" loadedState).2 (by decide)).2⟩

/-! ## Request status in the two hospital views -/

/-- In a list with pairwise distinct keys, rewriting the entries that carry the key
of the entry `p` leaves every entry unchanged whose status (any field `st`) differs
from the one of `p`. -/
theorem getElem?_map_update_of_ne {α κ σ : Type} [DecidableEq κ] (key : α → κ) (st : α → σ)
    (upd : α → α) (l : List α) (hnodup : (l.map key).Nodup) (p : α) (hp : p ∈ l)
    (i : Nat) (r : α) (hr : l[i]? = some r) (hne : st r ≠ st p) :
    (l.map fun x => if key x = key p then upd x else x)[i]? = some r := by
  rw [List.getElem?_map, hr, Option.map_some']
  have hmem : r ∈ l := List.getElem?_mem hr
  have hkey : key r ≠ key p := by
    intro h
    exact hne (congrArg st (List.inj_on_of_nodup_map hnodup hmem hp h))
  rw [if_neg hkey]

theorem map_key_map_update {α κ : Type} [DecidableEq κ] (key : α → κ) (upd : α → α)
    (k : κ) (hupd : ∀ x, key (upd x) = key x) (l : List α) :
    (l.map fun x => if key x = k then upd x else x).map key = l.map key := by
  rw [List.map_map]
  apply List.map_congr_left
  intro x _
  simp only [Function.comp]
  split
  · exact hupd x
  · rfl

theorem HospitalDashboard.handleDialogOpen_requests (type : String)
    (item : Option InventoryItem) (s : State) :
    (handleDialogOpen type item s).requests = s.requests := by
  cases item <;> rfl

theorem HospitalDashboard.handleUpdateRequestStatus_requests (callOk : Bool)
    (requestId : Int) (status : String) (s : State) :
    (handleUpdateRequestStatus callOk requestId status s).requests
      = if callOk then s.requests.map fun request =>
          if request.id = requestId then { request with status := status } else request
        else s.requests := by
  cases callOk <;> simp [handleUpdateRequestStatus]

/-- The ids of the listed requests never change in the hospital dashboard. -/
theorem HospitalDashboard.step_ids {v v' : Session} (h : Step v v') :
    v'.state.requests.map (·.id) = v.state.requests.map (·.id) := by
  cases h with
  | approve request _ _ _ => rfl
  | reject request _ _ _ => rfl
  | settle call callOk _ =>
    show (handleUpdateRequestStatus callOk call.requestId call.button.status
      v.state).requests.map (·.id) = _
    rw [HospitalDashboard.handleUpdateRequestStatus_requests]
    cases callOk
    · rfl
    · exact map_key_map_update (fun r : BloodRequest => r.id)
        (fun r => { r with status := call.button.status }) call.requestId (fun _ => rfl)
        v.state.requests
  | openAdd _ => rfl
  | openEdit item _ _ => rfl
  | close _ _ => rfl
  | selectBloodGroup group _ _ _ _ => rfl
  | typeUnits text _ _ => rfl
  | update today _ _ => rfl

theorem HospitalDashboard.reachable_nodup {v : Session} (h : Reachable v) :
    (v.state.requests.map (·.id)).Nodup := by
  induction h with
  | refl => decide
  | tail _ hstep ih => rw [HospitalDashboard.step_ids hstep]; exact ih

/-- One event of the hospital dashboard leaves a request unchanged that is not
`PENDING` and for which no run of the handler waits, and starts no run for it, when
the ids are pairwise distinct. -/
theorem HospitalDashboard.step_keeps_settled {v v' : Session}
    (hnodup : (v.state.requests.map (·.id)).Nodup) (h : Step v v') (i : Nat)
    (r : BloodRequest) (hr : v.state.requests[i]? = some r) (hst : r.status ≠ "PENDING")
    (hfree : ∀ call ∈ v.awaiting, call.requestId ≠ r.id) :
    v'.state.requests[i]? = some r ∧ ∀ call ∈ v'.awaiting, call.requestId ≠ r.id := by
  have hclick : ∀ (request : BloodRequest) (button : Button), request ∈ v.state.requests →
      request.status = "PENDING" →
      ∀ call ∈ v.awaiting ++ [⟨request.id, button⟩], call.requestId ≠ r.id := by
    intro request button hmem hpend call hcall
    rcases List.mem_append.mp hcall with hc | hc
    · exact hfree call hc
    · rw [List.mem_singleton.mp hc]
      intro hid
      have : request = r :=
        List.inj_on_of_nodup_map hnodup hmem (List.getElem?_mem hr) hid
      exact hst (this ▸ hpend)
  cases h with
  | approve request _ hmem hpend => exact ⟨hr, hclick request .approve hmem hpend⟩
  | reject request _ hmem hpend => exact ⟨hr, hclick request .reject hmem hpend⟩
  | settle call callOk hmem =>
    refine ⟨?_, fun c hc => hfree c (List.mem_of_mem_erase hc)⟩
    show (handleUpdateRequestStatus callOk call.requestId call.button.status
      v.state).requests[i]? = some r
    rw [HospitalDashboard.handleUpdateRequestStatus_requests]
    cases callOk
    · exact hr
    · simp only [if_true]
      rw [List.getElem?_map, hr, Option.map_some', if_neg (fun e => hfree call hmem e.symm)]
  | openAdd _ => exact ⟨hr, hfree⟩
  | openEdit item _ _ => exact ⟨hr, hfree⟩
  | close _ _ => exact ⟨hr, hfree⟩
  | selectBloodGroup group _ _ _ _ => exact ⟨hr, hfree⟩
  | typeUnits text _ _ => exact ⟨hr, hfree⟩
  | update today _ _ => exact ⟨hr, hfree⟩

/-- In the hospital dashboard a request that is `FULFILLED` or `REJECTED` while no
run of the handler waits for it is found unchanged, at the same position, after
every later sequence of events. -/
theorem HospitalDashboard.settled_request_is_kept (v v' : Session) (hreach : Reachable v)
    (hsteps : Relation.ReflTransGen Step v v') (i : Nat) (r : BloodRequest)
    (hr : v.state.requests[i]? = some r)
    (hst : r.status = "FULFILLED" ∨ r.status = "REJECTED")
    (hfree : ∀ call ∈ v.awaiting, call.requestId ≠ r.id) :
    v'.state.requests[i]? = some r ∧ ∀ call ∈ v'.awaiting, call.requestId ≠ r.id := by
  induction hsteps with
  | refl => exact ⟨hr, hfree⟩
  | tail hsb hstep ih =>
    refine HospitalDashboard.step_keeps_settled
      (HospitalDashboard.reachable_nodup (Relation.ReflTransGen.trans hreach hsb))
      hstep i r ih.1 ?_ ih.2
    rcases hst with h | h <;> rw [h] <;> decide

theorem truthy_eq_false {t : String} : truthy t = false ↔ t = "" := by
  simp [truthy]

/-- The three ways `handleRejectConfirm` returns a state. -/
theorem ApproveRequests.handleRejectConfirm_cases {s s' : ApproveRequests.State}
    (h : ApproveRequests.handleRejectConfirm s = some s') :
    (s.rejectionReason = "" ∧
        s' = { s with error := "Please provide a reason for rejection" }) ∨
    (s.rejectionReason ≠ "" ∧ ∃ selected, s.selectedRequest = some selected ∧
        s' = ApproveRequests.handleDialogClose { s with requests := s.requests.map fun request =>
          if request.id = selected.id then
            { request with status := "REJECTED", rejectionReason := some s.rejectionReason }
          else request }) ∨
    (s.rejectionReason ≠ "" ∧ s.selectedRequest = none ∧ s.requests = [] ∧
        s' = ApproveRequests.handleDialogClose s) := by
  unfold ApproveRequests.handleRejectConfirm at h
  by_cases hreason : s.rejectionReason = ""
  · rw [if_pos (truthy_eq_false.mpr hreason)] at h
    exact Or.inl ⟨hreason, (Option.some.inj h).symm⟩
  · rw [if_neg (fun hc => hreason (truthy_eq_false.mp hc))] at h
    cases hsel : s.selectedRequest with
    | some selected =>
      rw [hsel] at h
      exact Or.inr (Or.inl ⟨hreason, selected, rfl, (Option.some.inj h).symm⟩)
    | none =>
      rw [hsel] at h
      cases hreq : s.requests with
      | nil =>
        rw [hreq] at h
        exact Or.inr (Or.inr ⟨hreason, rfl, rfl, (Option.some.inj h).symm⟩)
      | cons a l =>
        rw [hreq] at h
        exact Option.noConfusion h

theorem ApproveRequests.inv_loadedState : ApproveRequests.Inv ApproveRequests.loadedState :=
  ⟨by decide, fun _ h => Option.noConfusion h⟩

theorem ApproveRequests.step_inv {s s' : ApproveRequests.State} (hinv : ApproveRequests.Inv s)
    (h : ApproveRequests.Step s s') : ApproveRequests.Inv s' := by
  obtain ⟨hnodup, hsel⟩ := hinv
  cases h with
  | approve request _ hmem hpend =>
    refine ⟨?_, ?_⟩
    · show ((s.requests.map _).map _).Nodup
      rw [map_key_map_update (fun r : ApproveRequests.BloodRequest => r.id)
        (fun r => { r with status := "APPROVED" }) request.id (fun _ => rfl) s.requests]
      exact hnodup
    · intro selected hs r hr hid
      obtain ⟨r0, hr0, hmap⟩ := List.mem_map.mp hr
      by_cases hk : r0.id = request.id
      · rw [if_pos hk] at hmap
        exact Or.inr (by rw [← hmap])
      · rw [if_neg hk] at hmap
        subst hmap
        exact hsel selected hs r0 hr0 hid
  | reject request _ hmem hpend =>
    refine ⟨hnodup, ?_⟩
    intro selected hs r hr hid
    have hs' : request = selected := Option.some.inj hs
    subst hs'
    have : r = request := List.inj_on_of_nodup_map hnodup hr hmem hid
    rw [this]
    exact Or.inl hpend
  | typeReason text _ _ => exact ⟨hnodup, hsel⟩
  | confirm _ _ _ hc =>
    rcases ApproveRequests.handleRejectConfirm_cases hc with
      ⟨_, rfl⟩ | ⟨_, selected, _, rfl⟩ | ⟨_, _, _, rfl⟩
    · exact ⟨hnodup, hsel⟩
    · refine ⟨?_, fun _ h => Option.noConfusion h⟩
      show ((s.requests.map _).map _).Nodup
      rw [map_key_map_update (fun r : ApproveRequests.BloodRequest => r.id)
        (fun r => { r with status := "REJECTED", rejectionReason := some s.rejectionReason })
        selected.id (fun _ => rfl) s.requests]
      exact hnodup
    · exact ⟨hnodup, fun _ h => Option.noConfusion h⟩
  | close _ _ => exact ⟨hnodup, fun _ h => Option.noConfusion h⟩

theorem ApproveRequests.reachable_inv {s : ApproveRequests.State}
    (h : ApproveRequests.Reachable s) : ApproveRequests.Inv s := by
  induction h with
  | refl => exact ApproveRequests.inv_loadedState
  | tail _ hstep ih => exact ApproveRequests.step_inv ih hstep

/-- One action of the approval view leaves every request unchanged that is
`FULFILLED` or `REJECTED`, in a state that satisfies the invariant. -/
theorem ApproveRequests.step_keeps_terminal {s s' : ApproveRequests.State}
    (hinv : ApproveRequests.Inv s) (h : ApproveRequests.Step s s') (i : Nat)
    (r : ApproveRequests.BloodRequest) (hr : s.requests[i]? = some r)
    (hst : r.status = "FULFILLED" ∨ r.status = "REJECTED") :
    s'.requests[i]? = some r := by
  obtain ⟨hnodup, hsel⟩ := hinv
  have hnp : r.status ≠ "PENDING" := by
    rcases hst with h | h <;> rw [h] <;> decide
  have hna : r.status ≠ "APPROVED" := by
    rcases hst with h | h <;> rw [h] <;> decide
  cases h with
  | approve request _ hmem hpend =>
    exact getElem?_map_update_of_ne (fun r : ApproveRequests.BloodRequest => r.id)
      (fun r => r.status) (fun r => { r with status := "APPROVED" }) s.requests hnodup
      request hmem i r hr (by show r.status ≠ request.status; rw [hpend]; exact hnp)
  | reject request _ _ _ => exact hr
  | typeReason text _ _ => exact hr
  | confirm _ _ _ hc =>
    rcases ApproveRequests.handleRejectConfirm_cases hc with
      ⟨_, rfl⟩ | ⟨_, selected, hs, rfl⟩ | ⟨_, _, _, rfl⟩
    · exact hr
    · show (s.requests.map _)[i]? = some r
      rw [List.getElem?_map, hr, Option.map_some']
      have hk : r.id ≠ selected.id := by
        intro hk
        rcases hsel selected hs r (List.getElem?_mem hr) hk with h | h
        · exact hnp h
        · exact hna h
      rw [if_neg hk]
    · exact hr
  | close _ _ => exact hr

/-- In the approval view no transition leaves a terminal state: in every reachable
state a request that is `FULFILLED` or `REJECTED` is found unchanged, at the same
position, after every later sequence of enabled actions. -/
theorem ApproveRequests.terminal_request_is_kept (s s' : ApproveRequests.State)
    (hreach : ApproveRequests.Reachable s)
    (hsteps : Relation.ReflTransGen ApproveRequests.Step s s') (i : Nat)
    (r : ApproveRequests.BloodRequest) (hr : s.requests[i]? = some r)
    (hst : r.status = "FULFILLED" ∨ r.status = "REJECTED") :
    s'.requests[i]? = some r := by
  induction hsteps with
  | refl => exact hr
  | tail hsb hstep ih =>
    exact ApproveRequests.step_keeps_terminal
      (ApproveRequests.reachable_inv (Relation.ReflTransGen.trans hreach hsb))
      hstep i r ih hst

/-- C13 fails on the code for the hospital dashboard: Approve and then Reject are
clicked on the row of the pending request 1 before either contract call has
returned (both buttons are rendered, the status being `PENDING` at both clicks);
when the call of Approve returns the request becomes `FULFILLED`, and when the call
of Reject returns the handler applies its update without looking at the status:
the `FULFILLED` request becomes `REJECTED`. -/
theorem C13_terminal_state_is_left :
    loadedSession.state.requests[0]?.map (·.status) = some "PENDING" ∧
      Step loadedSession sessionApproveClicked ∧
      Step sessionApproveClicked sessionBothClicked ∧
      Step sessionBothClicked sessionFulfilled ∧
      Reachable sessionFulfilled ∧
      sessionFulfilled.state.requests[0]?.map (·.status) = some "FULFILLED" ∧
      Step sessionFulfilled sessionRejected ∧
      sessionRejected.state.requests[0]?.map (·.status) = some "REJECTED" := by
  have h1 : Step loadedSession sessionApproveClicked :=
    Step.approve loadedSession requestOPos ⟨rfl, rfl⟩ (by decide) rfl
  have h2 : Step sessionApproveClicked sessionBothClicked :=
    Step.reject sessionApproveClicked requestOPos ⟨rfl, rfl⟩ (by decide) rfl
  have h3 : Step sessionBothClicked sessionFulfilled :=
    Step.settle sessionBothClicked ⟨1, .approve⟩ true (by decide)
  have h4 : Step sessionFulfilled sessionRejected :=
    Step.settle sessionFulfilled ⟨1, .reject⟩ true (by decide)
  exact ⟨by decide, h1, h2, h3,
    ((Relation.ReflTransGen.single h1).tail h2).tail h3, by decide, h4, by decide⟩

/-- One action of the approval view leaves the status of a listed request as it is
or sets it to `APPROVED` or `REJECTED`; the list keeps its length. -/
theorem ApproveRequests.approval_step_status_at {s s' : ApproveRequests.State}
    (h : ApproveRequests.Step s s') (i : Nat) (r' : ApproveRequests.BloodRequest)
    (hr' : s'.requests[i]? = some r') :
    ∃ r, s.requests[i]? = some r ∧
      (r'.status = r.status ∨ r'.status = "APPROVED" ∨ r'.status = "REJECTED") := by
  cases h with
  | approve request _ _ _ =>
    change (s.requests.map _)[i]? = some r' at hr'
    rw [List.getElem?_map] at hr'
    cases hr : s.requests[i]? with
    | none => rw [hr] at hr'; exact Option.noConfusion hr'
    | some r =>
      rw [hr, Option.map_some'] at hr'
      refine ⟨r, rfl, ?_⟩
      by_cases hk : r.id = request.id
      · rw [if_pos hk] at hr'
        exact Or.inr (Or.inl (by rw [← Option.some.inj hr']))
      · rw [if_neg hk] at hr'
        exact Or.inl (by rw [← Option.some.inj hr'])
  | reject request _ _ _ => exact ⟨r', hr', Or.inl rfl⟩
  | typeReason text _ _ => exact ⟨r', hr', Or.inl rfl⟩
  | confirm _ _ _ hc =>
    rcases ApproveRequests.handleRejectConfirm_cases hc with
      ⟨_, rfl⟩ | ⟨_, selected, _, rfl⟩ | ⟨_, _, _, rfl⟩
    · exact ⟨r', hr', Or.inl rfl⟩
    · change (s.requests.map _)[i]? = some r' at hr'
      rw [List.getElem?_map] at hr'
      cases hr : s.requests[i]? with
      | none => rw [hr] at hr'; exact Option.noConfusion hr'
      | some r =>
        rw [hr, Option.map_some'] at hr'
        refine ⟨r, rfl, ?_⟩
        by_cases hk : r.id = selected.id
        · rw [if_pos hk] at hr'
          exact Or.inr (Or.inr (by rw [← Option.some.inj hr']))
        · rw [if_neg hk] at hr'
          exact Or.inl (by rw [← Option.some.inj hr'])
    · exact ⟨r', hr', Or.inl rfl⟩
  | close _ _ => exact ⟨r', hr', Or.inl rfl⟩

/-- One event of the hospital dashboard leaves the status of a listed request as it
is or sets it to `FULFILLED` or `REJECTED`. -/
theorem HospitalDashboard.dashboard_step_status_at {v v' : Session} (h : Step v v')
    (i : Nat) (r' : BloodRequest) (hr' : v'.state.requests[i]? = some r') :
    ∃ r, v.state.requests[i]? = some r ∧
      (r'.status = r.status ∨ r'.status = "FULFILLED" ∨ r'.status = "REJECTED") := by
  have key : ∀ (callOk : Bool) (requestId : Int) (status : String),
      (handleUpdateRequestStatus callOk requestId status v.state).requests[i]? = some r' →
      ∃ r, v.state.requests[i]? = some r ∧ (r'.status = r.status ∨ r'.status = status) := by
    intro callOk requestId status hget
    rw [HospitalDashboard.handleUpdateRequestStatus_requests] at hget
    cases callOk
    · exact ⟨r', hget, Or.inl rfl⟩
    · simp only [if_true] at hget
      rw [List.getElem?_map] at hget
      cases hr : v.state.requests[i]? with
      | none => rw [hr] at hget; exact Option.noConfusion hget
      | some r =>
        rw [hr, Option.map_some'] at hget
        refine ⟨r, rfl, ?_⟩
        by_cases hk : r.id = requestId
        · rw [if_pos hk] at hget
          exact Or.inr (by rw [← Option.some.inj hget])
        · rw [if_neg hk] at hget
          exact Or.inl (by rw [← Option.some.inj hget])
  cases h with
  | approve request _ _ _ => exact ⟨r', hr', Or.inl rfl⟩
  | reject request _ _ _ => exact ⟨r', hr', Or.inl rfl⟩
  | settle call callOk _ =>
    obtain ⟨r, hr, h | h⟩ := key callOk call.requestId call.button.status hr'
    · exact ⟨r, hr, Or.inl h⟩
    · refine ⟨r, hr, Or.inr ?_⟩
      rw [h]
      cases call.button
      · exact Or.inl rfl
      · exact Or.inr rfl
  | openAdd _ => exact ⟨r', hr', Or.inl rfl⟩
  | openEdit item _ _ => exact ⟨r', hr', Or.inl rfl⟩
  | close _ _ => exact ⟨r', hr', Or.inl rfl⟩
  | selectBloodGroup group _ _ _ _ => exact ⟨r', hr', Or.inl rfl⟩
  | typeUnits text _ _ => exact ⟨r', hr', Or.inl rfl⟩
  | update today _ _ => exact ⟨r', hr', Or.inl rfl⟩

/-- No reachable state of the approval view holds a `FULFILLED` request. -/
theorem ApproveRequests.approval_reachable_status {s : ApproveRequests.State}
    (h : ApproveRequests.Reachable s) :
    ∀ r ∈ s.requests, r.status = "PENDING" ∨ r.status = "APPROVED" ∨ r.status = "REJECTED" := by
  induction h with
  | refl => decide
  | tail _ hstep ih =>
    intro r' hr'
    obtain ⟨i, hi⟩ := List.mem_iff_getElem?.mp hr'
    obtain ⟨r, hr, hst⟩ := ApproveRequests.approval_step_status_at hstep i r' hi
    rcases hst with h | h | h
    · rw [h]; exact ih r (List.getElem?_mem hr)
    · exact Or.inr (Or.inl h)
    · exact Or.inr (Or.inr h)

/-- No reachable state of the hospital dashboard holds an `APPROVED` request. -/
theorem HospitalDashboard.dashboard_reachable_status {v : Session} (h : Reachable v) :
    ∀ r ∈ v.state.requests,
      r.status = "PENDING" ∨ r.status = "FULFILLED" ∨ r.status = "REJECTED" := by
  induction h with
  | refl => decide
  | tail _ hstep ih =>
    intro r' hr'
    obtain ⟨i, hi⟩ := List.mem_iff_getElem?.mp hr'
    obtain ⟨r, hr, hst⟩ := HospitalDashboard.dashboard_step_status_at hstep i r' hi
    rcases hst with h | h | h
    · rw [h]; exact ih r (List.getElem?_mem hr)
    · exact Or.inr (Or.inl h)
    · exact Or.inr (Or.inr h)

/-- C14, as stated, fails for the hospital dashboard: one click on Approve, once
its contract call has returned, takes the pending request 1 of the loaded dashboard
directly to FULFILLED. -/
theorem C14_counterexample :
    ¬ ∀ (v v' : Session) (i : Nat) (r r' : BloodRequest), Reachable v → Step v v' →
        v.state.requests[i]? = some r → r.status = "PENDING" →
        v'.state.requests[i]? = some r' →
        r'.status = "PENDING" ∨ r'.status = "APPROVED" ∨ r'.status = "REJECTED" := by
  intro h
  have h1 := h sessionApproveClicked
    { state := handleUpdateRequestStatus true 1 "FULFILLED" loadedState, awaiting := [] } 0
    requestOPos { requestOPos with status := "FULFILLED" }
    (Relation.ReflTransGen.single
      (Step.approve loadedSession requestOPos ⟨rfl, rfl⟩ (by decide) rfl))
    (Step.settle sessionApproveClicked ⟨1, .approve⟩ true (by decide))
    (by decide) rfl (by decide)
  revert h1
  decide

/-- C14, amended: in ApproveRequests one action takes a PENDING request only to
APPROVED or REJECTED (or leaves it PENDING) and no reachable state holds a FULFILLED
request; in HospitalDashboard one event takes a PENDING request only to FULFILLED
or REJECTED (or leaves it PENDING), so FULFILLED is reached directly from PENDING,
and no reachable state holds an APPROVED request. -/
theorem C14_one_step_from_pending :
    (∀ (s s' : ApproveRequests.State) (i : Nat) (r r' : ApproveRequests.BloodRequest),
      ApproveRequests.Step s s' → s.requests[i]? = some r → r.status = "PENDING" →
      s'.requests[i]? = some r' →
      r'.status = "PENDING" ∨ r'.status = "APPROVED" ∨ r'.status = "REJECTED") ∧
    (∀ s : ApproveRequests.State, ApproveRequests.Reachable s →
      ∀ r ∈ s.requests, r.status ≠ "FULFILLED") ∧
    (∀ (v v' : Session) (i : Nat) (r r' : BloodRequest),
      Step v v' → v.state.requests[i]? = some r → r.status = "PENDING" →
      v'.state.requests[i]? = some r' →
      r'.status = "PENDING" ∨ r'.status = "FULFILLED" ∨ r'.status = "REJECTED") ∧
    (∀ v : Session, Reachable v → ∀ r ∈ v.state.requests, r.status ≠ "APPROVED") ∧
    (∃ v v' : Session, Reachable v ∧ Step v v' ∧
      v.state.requests[0]?.map (·.status) = some "PENDING" ∧
      v'.state.requests[0]?.map (·.status) = some "FULFILLED") := by
  refine ⟨?_, ?_, ?_, ?_, ?_⟩
  · intro s s' i r r' hstep hr hpend hr'
    obtain ⟨r0, hr0, hst⟩ := ApproveRequests.approval_step_status_at hstep i r' hr'
    rw [hr] at hr0
    cases hr0
    rcases hst with h | h | h
    · exact Or.inl (h.trans hpend)
    · exact Or.inr (Or.inl h)
    · exact Or.inr (Or.inr h)
  · intro s hreach r hr hful
    rcases ApproveRequests.approval_reachable_status hreach r hr with h | h | h <;>
      · rw [h] at hful; revert hful; decide
  · intro v v' i r r' hstep hr hpend hr'
    obtain ⟨r0, hr0, hst⟩ := HospitalDashboard.dashboard_step_status_at hstep i r' hr'
    rw [hr] at hr0
    cases hr0
    rcases hst with h | h | h
    · exact Or.inl (h.trans hpend)
    · exact Or.inr (Or.inl h)
    · exact Or.inr (Or.inr h)
  · intro v hreach r hr happ
    rcases HospitalDashboard.dashboard_reachable_status hreach r hr with h | h | h <;>
      · rw [h] at happ; revert happ; decide
  · exact ⟨sessionApproveClicked,
      { state := handleUpdateRequestStatus true 1 "FULFILLED" loadedState, awaiting := [] },
      Relation.ReflTransGen.single
        (Step.approve loadedSession requestOPos ⟨rfl, rfl⟩ (by decide) rfl),
      Step.settle sessionApproveClicked ⟨1, .approve⟩ true (by decide),
      by decide, by decide⟩

/-- Witness of C14: approving the first request of the loaded approval view. -/
theorem C14_one_step_from_pending_witness :
    ({ ApproveRequests.requestJohn with status := "APPROVED" }
        : ApproveRequests.BloodRequest).status = "PENDING" ∨
      ({ ApproveRequests.requestJohn with status := "APPROVED" }
        : ApproveRequests.BloodRequest).status = "APPROVED" ∨
      ({ ApproveRequests.requestJohn with status := "APPROVED" }
        : ApproveRequests.BloodRequest).status = "REJECTED" :=
  C14_one_step_from_pending.1 ApproveRequests.loadedState
    (ApproveRequests.handleApprove 1 ApproveRequests.loadedState) 0
    ApproveRequests.requestJohn { ApproveRequests.requestJohn with status := "APPROVED" }
    (ApproveRequests.Step.approve ApproveRequests.loadedState ApproveRequests.requestJohn
      rfl (by decide) rfl)
    (by decide) rfl (by decide)

/-! ## The status-change handlers -/

/-- C15, as stated, fails: `handleUpdateRequestStatus(2, 'REJECTED')` on the loaded
hospital dashboard changes the FULFILLED request 2, and `handleApprove(1)` changes
the request 1 of the approval view after it has been REJECTED. -/
theorem C15_counterexample :
    (¬ ∀ (s : State) (requestId : Int) (status : String) (i : Nat) (r : BloodRequest),
        s.requests[i]? = some r → r.id = requestId → r.status ≠ "PENDING" →
        (handleUpdateRequestStatus true requestId status s).requests[i]? = some r) ∧
    (¬ ∀ (s : ApproveRequests.State) (requestId : Int) (i : Nat)
        (r : ApproveRequests.BloodRequest),
        s.requests[i]? = some r → r.id = requestId → r.status ≠ "PENDING" →
        (ApproveRequests.handleApprove requestId s).requests[i]? = some r) := by
  constructor
  · intro h
    have h1 := h loadedState 2 "REJECTED" 1
      { id := 2, bloodGroup := "A+", units := 1, recipient := "0x8765...4321",
        status := "FULFILLED", date := "2024-03-14", urgency := "normal" }
      (by decide) rfl (by decide)
    revert h1
    decide
  · intro h
    have h1 := h ApproveRequests.stateRejected 1 0
      { ApproveRequests.requestJohn with
        status := "REJECTED", rejectionReason := some "No stock" }
      (by decide) rfl (by decide)
    revert h1
    decide

/-- C15, amended: no status-change handler checks the current status of the request
and none reports InvalidTransition: whatever the current status of a request with
the given id, a successful `handleUpdateRequestStatus` gives it the target status,
`handleApprove` gives it APPROVED, and `handleRejectConfirm` with a non-empty reason
gives the request with the id of the selected request REJECTED and the reason; the
error state is left as it was.  Transitions are restricted by the views alone, which
offer these actions on PENDING requests only. -/
theorem C15_handlers_do_not_check_status :
    (∀ (s : State) (requestId : Int) (status : String) (i : Nat) (r : BloodRequest),
      s.requests[i]? = some r → r.id = requestId →
      (handleUpdateRequestStatus true requestId status s).requests[i]?
          = some { r with status := status } ∧
        (handleUpdateRequestStatus true requestId status s).error = s.error) ∧
    (∀ (s : ApproveRequests.State) (requestId : Int) (i : Nat)
      (r : ApproveRequests.BloodRequest),
      s.requests[i]? = some r → r.id = requestId →
      (ApproveRequests.handleApprove requestId s).requests[i]?
          = some { r with status := "APPROVED" } ∧
        (ApproveRequests.handleApprove requestId s).error = s.error) ∧
    (∀ (s : ApproveRequests.State) (selected : ApproveRequests.BloodRequest) (i : Nat)
      (r : ApproveRequests.BloodRequest),
      s.selectedRequest = some selected → s.rejectionReason ≠ "" →
      s.requests[i]? = some r → r.id = selected.id →
      ∃ s', ApproveRequests.handleRejectConfirm s = some s' ∧
        s'.requests[i]?
          = some { r with status := "REJECTED", rejectionReason := some s.rejectionReason } ∧
        s'.error = s.error) := by
  refine ⟨?_, ?_, ?_⟩
  · intro s requestId status i r hr hid
    constructor
    · rw [handleUpdateRequestStatus_ok, List.getElem?_map, hr, Option.map_some', if_pos hid]
    · simp [handleUpdateRequestStatus]
  · intro s requestId i r hr hid
    constructor
    · show (s.requests.map _)[i]? = _
      rw [List.getElem?_map, hr, Option.map_some', if_pos hid]
    · rfl
  · intro s selected i r hsel hreason hr hid
    refine ⟨(ApproveRequests.handleDialogClose { s with requests := s.requests.map fun request =>
      if request.id = selected.id then
        { request with status := "REJECTED", rejectionReason := some s.rejectionReason }
      else request }), ?_, ?_, ?_⟩
    · unfold ApproveRequests.handleRejectConfirm
      rw [if_neg (fun hc => hreason (truthy_eq_false.mp hc)), hsel]
    · show (s.requests.map _)[i]? = _
      rw [List.getElem?_map, hr, Option.map_some', if_pos hid]
    · rfl

/-- Witness of C15: rejecting the FULFILLED request 2 of the loaded hospital
dashboard. -/
theorem C15_handlers_do_not_check_status_witness :
    (handleUpdateRequestStatus true 2 "REJECTED" loadedState).requests[1]?
      = some { id := 2, bloodGroup := "A+", units := 1, recipient := "0x8765...4321",
               status := "REJECTED", date := "2024-03-14", urgency := "normal" } :=
  (C15_handlers_do_not_check_status.1 loadedState 2 "REJECTED" 1
    { id := 2, bloodGroup := "A+", units := 1, recipient := "0x8765...4321",
      status := "FULFILLED", date := "2024-03-14", urgency := "normal" }
    (by decide) rfl).1

/-- C16: `handleApprove(requestId)` sets the status of the request with that id to
APPROVED and changes nothing else: the list keeps its length and order, at every
position a request with another id is unchanged and a request with that id differs
in its status alone, and the rest of the state of the view (which holds no
inventory) is unchanged. -/
theorem C16_approve_frame (requestId : Int) (s : ApproveRequests.State) :
    (ApproveRequests.handleApprove requestId s).requests.length = s.requests.length ∧
    (∀ (i : Nat) (r : ApproveRequests.BloodRequest), s.requests[i]? = some r →
      (r.id = requestId →
        (ApproveRequests.handleApprove requestId s).requests[i]?
          = some { r with status := "APPROVED" }) ∧
      (r.id ≠ requestId →
        (ApproveRequests.handleApprove requestId s).requests[i]? = some r)) ∧
    (ApproveRequests.handleApprove requestId s).loading = s.loading ∧
    (ApproveRequests.handleApprove requestId s).error = s.error ∧
    (ApproveRequests.handleApprove requestId s).selectedRequest = s.selectedRequest ∧
    (ApproveRequests.handleApprove requestId s).openDialog = s.openDialog ∧
    (ApproveRequests.handleApprove requestId s).rejectionReason = s.rejectionReason := by
  refine ⟨?_, ?_, rfl, rfl, rfl, rfl, rfl⟩
  · simp [ApproveRequests.handleApprove]
  · intro i r hr
    constructor
    · intro hid
      show (s.requests.map _)[i]? = _
      rw [List.getElem?_map, hr, Option.map_some', if_pos hid]
    · intro hid
      show (s.requests.map _)[i]? = _
      rw [List.getElem?_map, hr, Option.map_some', if_neg hid]

/-- Witness of C16: approving request 1 of the loaded view. -/
theorem C16_approve_frame_witness :
    (ApproveRequests.handleApprove 1 ApproveRequests.loadedState).requests[0]?
      = some { ApproveRequests.requestJohn with status := "APPROVED" } :=
  ((C16_approve_frame 1 ApproveRequests.loadedState).2.1 0 ApproveRequests.requestJohn
    (by decide)).1 rfl

/-- C17: `handleRejectConfirm` with an empty rejection reason sets the error
'Please provide a reason for rejection' and leaves every request, the selected
request and the open dialog (and the empty reason) unchanged. -/
theorem C17_reject_without_reason (s : ApproveRequests.State)
    (hreason : s.rejectionReason = "") :
    ∃ s', ApproveRequests.handleRejectConfirm s = some s' ∧
      s'.error = "Please provide a reason for rejection" ∧
      s'.requests = s.requests ∧ s'.selectedRequest = s.selectedRequest ∧
      s'.openDialog = s.openDialog ∧ s'.rejectionReason = s.rejectionReason ∧
      s'.loading = s.loading := by
  refine ⟨{ s with error := "Please provide a reason for rejection" }, ?_,
    rfl, rfl, rfl, rfl, rfl, rfl⟩
  unfold ApproveRequests.handleRejectConfirm
  rw [if_pos (truthy_eq_false.mpr hreason)]

/-- Witness of C17: the rejection dialog open on the first request, nothing typed. -/
theorem C17_reject_without_reason_witness :
    ∃ s', ApproveRequests.handleRejectConfirm (ApproveRequests.stateRejecting "") = some s' ∧
      s'.error = "Please provide a reason for rejection" ∧
      s'.requests = (ApproveRequests.stateRejecting "").requests ∧
      s'.selectedRequest = (ApproveRequests.stateRejecting "").selectedRequest ∧
      s'.openDialog = (ApproveRequests.stateRejecting "").openDialog ∧
      s'.rejectionReason = (ApproveRequests.stateRejecting "").rejectionReason ∧
      s'.loading = (ApproveRequests.stateRejecting "").loading :=
  C17_reject_without_reason (ApproveRequests.stateRejecting "") rfl

/-- C18: `handleRejectConfirm` with a non-empty reason and a selected request
returns a state in which the list keeps its length and order, every request with the
id of the selected request is REJECTED and holds exactly the entered reason as its
rejectionReason with its other fields unchanged, every other request is unchanged,
and the dialog is closed. -/
theorem C18_reject_with_reason (s : ApproveRequests.State)
    (selected : ApproveRequests.BloodRequest) (hsel : s.selectedRequest = some selected)
    (hreason : s.rejectionReason ≠ "") :
    ∃ s', ApproveRequests.handleRejectConfirm s = some s' ∧
      s'.requests.length = s.requests.length ∧
      (∀ (i : Nat) (r : ApproveRequests.BloodRequest), s.requests[i]? = some r →
        (r.id = selected.id → s'.requests[i]?
          = some { r with status := "REJECTED", rejectionReason := some s.rejectionReason }) ∧
        (r.id ≠ selected.id → s'.requests[i]? = some r)) ∧
      s'.openDialog = false ∧ s'.selectedRequest = none ∧ s'.rejectionReason = "" ∧
      s'.error = s.error ∧ s'.loading = s.loading := by
  refine ⟨(ApproveRequests.handleDialogClose { s with requests := s.requests.map fun request =>
      if request.id = selected.id then
        { request with status := "REJECTED", rejectionReason := some s.rejectionReason }
      else request }), ?_, ?_, ?_, rfl, rfl, rfl, rfl, rfl⟩
  · unfold ApproveRequests.handleRejectConfirm
    rw [if_neg (fun hc => hreason (truthy_eq_false.mp hc)), hsel]
  · simp [ApproveRequests.handleDialogClose]
  · intro i r hr
    constructor
    · intro hid
      show (s.requests.map _)[i]? = _
      rw [List.getElem?_map, hr, Option.map_some', if_pos hid]
    · intro hid
      show (s.requests.map _)[i]? = _
      rw [List.getElem?_map, hr, Option.map_some', if_neg hid]

/-- Witness of C18: rejecting the first request of the loaded view for 'No stock'. -/
theorem C18_reject_with_reason_witness :
    ∃ s', ApproveRequests.handleRejectConfirm (ApproveRequests.stateRejecting "No stock")
        = some s' ∧
      s'.requests.map (·.status) = ["REJECTED", "PENDING", "PENDING"] ∧
      s'.requests.map (·.rejectionReason) = [some "No stock", none, none] :=
  match C18_reject_with_reason (ApproveRequests.stateRejecting "No stock")
      ApproveRequests.requestJohn rfl (by decide) with
  | ⟨s', h, _⟩ => ⟨s', h, by cases h; decide, by cases h; decide⟩

/-! ## Creating a request: `handleSubmitRequest` -/

/-- The run of `handleSubmitRequest` that succeeds. -/
theorem RecipientDashboard.handleSubmitRequest_of_succeeds {env : RecipientDashboard.SubmitEnv}
    (s : RecipientDashboard.State) (hs : RecipientDashboard.Succeeds env) :
    RecipientDashboard.handleSubmitRequest env s
      = ⟨RecipientDashboard.handleDialogClose
          { s with error := "", loading := false,
                   requests := RecipientDashboard.submittedRequest env s.newRequest
                     :: s.requests },
        [.requestBlood s.newRequest.bloodGroup, .txWait]⟩ := by
  obtain ⟨hacc, hcon, hsig, htx⟩ := hs
  unfold RecipientDashboard.handleSubmitRequest
  rw [if_neg (by simp [hacc]), if_neg (by simp [hcon, hsig]), htx]

/-- C19, as stated, fails: with a connected wallet and a mined transaction, the form
'B-', units '0' makes `handleSubmitRequest` call `requestBlood` and add a request. -/
theorem C19_counterexample :
    ¬ ∀ (env : RecipientDashboard.SubmitEnv) (s : RecipientDashboard.State),
        jsLe (parseInt s.newRequest.units) (some 0) = true →
        (RecipientDashboard.handleSubmitRequest env s).state.requests = s.requests ∧
          (RecipientDashboard.handleSubmitRequest env s).effects.any
            RecipientDashboard.Effect.isRequestBlood = false := by
  intro h
  have h1 := h RecipientDashboard.sampleEnv (RecipientDashboard.stateWithForm "0") (by decide)
  revert h1
  decide

/-- C19, amended: `handleSubmitRequest` makes no check of the units: when the units
entered are zero or negative and the run succeeds (wallet connected, contract and
signer available, transaction mined), `requestBlood(bloodGroup)` is called and a
request holding the entered units is put in front of the list; the Submit Request
button, disabled only while bloodGroup or units is empty, is enabled for such units
once a blood group is chosen. -/
theorem C19_units_are_not_checked (env : RecipientDashboard.SubmitEnv)
    (s : RecipientDashboard.State) (hs : RecipientDashboard.Succeeds env)
    (hunits : jsLe (parseInt s.newRequest.units) (some 0) = true) :
    (RecipientDashboard.handleSubmitRequest env s).effects
        = [.requestBlood s.newRequest.bloodGroup, .txWait] ∧
      (RecipientDashboard.handleSubmitRequest env s).state.requests
        = RecipientDashboard.submittedRequest env s.newRequest :: s.requests ∧
      (RecipientDashboard.submittedRequest env s.newRequest).units
        = .text s.newRequest.units ∧
      (RecipientDashboard.handleSubmitRequest env s).state.error = "" ∧
      (s.newRequest.bloodGroup ≠ "" → RecipientDashboard.SubmitEnabled s) := by
  rw [RecipientDashboard.handleSubmitRequest_of_succeeds s hs]
  refine ⟨rfl, rfl, rfl, rfl, fun hbg => ⟨by simp [truthy, hbg], ?_⟩⟩
  have hne : s.newRequest.units ≠ "" := by
    intro hc
    rw [hc] at hunits
    revert hunits
    decide
  simp [truthy, hne]

/-- Witness of C19: the units '-3'. -/
theorem C19_units_are_not_checked_witness :
    (RecipientDashboard.handleSubmitRequest RecipientDashboard.sampleEnv
        (RecipientDashboard.stateWithForm "-3")).effects
      = [.requestBlood "B-", .txWait] ∧
    (RecipientDashboard.handleSubmitRequest RecipientDashboard.sampleEnv
        (RecipientDashboard.stateWithForm "-3")).state.requests.length = 3 :=
  have h := C19_units_are_not_checked RecipientDashboard.sampleEnv
    (RecipientDashboard.stateWithForm "-3") ⟨by decide, rfl, rfl, rfl⟩ (by decide)
  ⟨h.1, by rw [h.2.1]; decide⟩

/-- C20: on a successful `handleSubmitRequest` the list is the new request followed
by all previously listed requests, unchanged and in their previous order (the length
grows by exactly one); the new request has status PENDING whatever the form fields
contain and carries the submitted bloodGroup, units and urgency. -/
theorem C20_submitted_request_first (env : RecipientDashboard.SubmitEnv)
    (s : RecipientDashboard.State) (hs : RecipientDashboard.Succeeds env) :
    ∃ new : RecipientDashboard.BloodRequest,
      (RecipientDashboard.handleSubmitRequest env s).state.requests = new :: s.requests ∧
      new.status = "PENDING" ∧ new.bloodGroup = s.newRequest.bloodGroup ∧
      new.units = .text s.newRequest.units ∧ new.urgency = s.newRequest.urgency ∧
      (RecipientDashboard.handleSubmitRequest env s).state.requests.length
        = s.requests.length + 1 ∧
      (RecipientDashboard.handleSubmitRequest env s).state.requests[0]? = some new ∧
      ∀ (i : Nat), (RecipientDashboard.handleSubmitRequest env s).state.requests[i + 1]?
        = s.requests[i]? := by
  rw [RecipientDashboard.handleSubmitRequest_of_succeeds s hs]
  refine ⟨RecipientDashboard.submittedRequest env s.newRequest, rfl, rfl, rfl, rfl, rfl,
    ?_, ?_, fun i => ?_⟩
  · simp [RecipientDashboard.handleDialogClose]
  · simp [RecipientDashboard.handleDialogClose]
  · simp [RecipientDashboard.handleDialogClose]

/-- Witness of C20: two units of 'B-' submitted on the loaded dashboard. -/
theorem C20_submitted_request_first_witness :
    ∃ new : RecipientDashboard.BloodRequest,
      (RecipientDashboard.handleSubmitRequest RecipientDashboard.sampleEnv
        (RecipientDashboard.stateWithForm "2")).state.requests
          = new :: (RecipientDashboard.stateWithForm "2").requests ∧
      new.status = "PENDING" :=
  match C20_submitted_request_first RecipientDashboard.sampleEnv
      (RecipientDashboard.stateWithForm "2") ⟨by decide, rfl, rfl, rfl⟩ with
  | ⟨new, h, hst, _⟩ => ⟨new, h, hst⟩

/-! ## Failed ledger calls -/

/-- C21 is confirmed: when `contract.updateRequestStatus` fails,
`handleUpdateRequestStatus` leaves the request list and the inventory as they were
(the state differs only in `error`) and reports 'Failed to update request status';
when `requestBlood` or the wait for its transaction rejects with `message`,
`handleSubmitRequest` leaves the request list as it was (the state differs only in
`error` and `loading`) and reports the message of the rejection, which is
'Failed to submit request' when the rejection carries none; the reported error is
not empty. -/
theorem C21_failed_call_leaves_requests (requestId : Int) (status : String) (s : State)
    (env : RecipientDashboard.SubmitEnv) (r : RecipientDashboard.State) (message : String)
    (haccount : (env.account.map truthy).getD false = true)
    (hcontract : env.hasContract = true) (hsigner : env.hasSigner = true)
    (hfail : env.requestBlood = .error message ∨ env.requestBlood = .ok (.error message)) :
    handleUpdateRequestStatus false requestId status s
        = { s with error := "Failed to update request status" } ∧
      (handleUpdateRequestStatus false requestId status s).requests = s.requests ∧
      (handleUpdateRequestStatus false requestId status s).inventory = s.inventory ∧
      (RecipientDashboard.handleSubmitRequest env r).state
        = { r with error := RecipientDashboard.catchMessage message, loading := false } ∧
      (RecipientDashboard.handleSubmitRequest env r).state.requests = r.requests ∧
      (RecipientDashboard.handleSubmitRequest env r).state.error ≠ "" := by
  have hstate : (RecipientDashboard.handleSubmitRequest env r).state
      = { r with error := RecipientDashboard.catchMessage message, loading := false } := by
    unfold RecipientDashboard.handleSubmitRequest
    rw [if_neg (by simp [haccount]), if_neg (by simp [hcontract, hsigner])]
    rcases hfail with h | h <;> rw [h]
  refine ⟨rfl, rfl, rfl, hstate, by rw [hstate], ?_⟩
  rw [hstate]
  show RecipientDashboard.catchMessage message ≠ ""
  unfold RecipientDashboard.catchMessage
  split
  · decide
  · assumption

/-- C21 holds on a concrete run: on the loaded hospital dashboard a failed status
update of request 1 leaves the two requests, and on the recipient form for 2 units
of B- a `requestBlood` call rejected with 'user rejected transaction' leaves the
two requests and reports that message. -/
theorem C21_failed_call_leaves_requests_witness :
    (handleUpdateRequestStatus false 1 "FULFILLED" loadedState).requests
        = loadedState.requests ∧
      (RecipientDashboard.handleSubmitRequest
          { RecipientDashboard.sampleEnv with
            requestBlood := .error "user rejected transaction" }
          (RecipientDashboard.stateWithForm "2")).state.requests
        = (RecipientDashboard.stateWithForm "2").requests ∧
      (RecipientDashboard.handleSubmitRequest
          { RecipientDashboard.sampleEnv with
            requestBlood := .error "user rejected transaction" }
          (RecipientDashboard.stateWithForm "2")).state.error
        = "user rejected transaction" :=
  have h := C21_failed_call_leaves_requests 1 "FULFILLED" loadedState
    { RecipientDashboard.sampleEnv with requestBlood := .error "user rejected transaction" }
    (RecipientDashboard.stateWithForm "2") "user rejected transaction"
    (by decide) rfl rfl (Or.inl rfl)
  ⟨h.2.1, h.2.2.2.2.1, by decide⟩

/-! ## Reward tiers and the next reward -/

/-- C25 is confirmed: for every integer points value (in particular every
non-negative one) `getRewardLevel` answers Platinum exactly from 100 points, Gold
exactly from 50 to 99, Silver exactly from 20 to 49 and Bronze exactly below 20,
each with its colour; and the tier does not go down when the points go up. -/
theorem C25_reward_tiers (points : Int) :
    ((getRewardLevel points).level = "Platinum" ↔ 100 ≤ points) ∧
      ((getRewardLevel points).level = "Gold" ↔ 50 ≤ points ∧ points < 100) ∧
      ((getRewardLevel points).level = "Silver" ↔ 20 ≤ points ∧ points < 50) ∧
      ((getRewardLevel points).level = "Bronze" ↔ points < 20) ∧
      (getRewardLevel points ∈
        [⟨"Platinum", "#E5E4E2"⟩, ⟨"Gold", "#FFD700"⟩, ⟨"Silver", "#C0C0C0"⟩,
          (⟨"Bronze", "#CD7F32"⟩ : RewardLevel)]) ∧
      ∀ more : Int, points ≤ more →
        tierRank (getRewardLevel points).level ≤ tierRank (getRewardLevel more).level := by
  refine ⟨?_, ?_, ?_, ?_, ?_, ?_⟩
  · unfold getRewardLevel; split_ifs <;> simp <;> omega
  · unfold getRewardLevel; split_ifs <;> simp <;> omega
  · unfold getRewardLevel; split_ifs <;> simp <;> omega
  · unfold getRewardLevel; split_ifs <;> simp <;> omega
  · unfold getRewardLevel; split_ifs <;> simp
  · intro more hle
    unfold getRewardLevel
    split_ifs <;> simp [tierRank] <;> omega

/-- C30 is confirmed: for every non-negative integer `rewardPoints` the displayed
next-reward value is a multiple of 10, lies strictly above `rewardPoints` and at
most 10 above it, and no multiple of 10 above `rewardPoints` is smaller. -/
theorem C30_next_reward_least_multiple (rewardPoints : Nat) :
    10 ∣ nextReward rewardPoints ∧ rewardPoints < nextReward rewardPoints ∧
      nextReward rewardPoints ≤ rewardPoints + 10 ∧
      ∀ m : Nat, 10 ∣ m → rewardPoints < m → nextReward rewardPoints ≤ m := by
  unfold nextReward
  refine ⟨?_, ?_, ?_, ?_⟩
  · omega
  · omega
  · omega
  · intro m hm hlt
    omega

/-! ## The request counts of the hospital dashboard -/

theorem map_update_of_not_mem (requestId : Int) (status : String) :
    ∀ l : List BloodRequest, requestId ∉ l.map (·.id) →
      (l.map fun request =>
        if request.id = requestId then { request with status := status } else request) = l := by
  intro l
  induction l with
  | nil => intro _; rfl
  | cons a t ih =>
    intro h
    simp only [List.map_cons, List.mem_cons, not_or] at h
    rw [List.map_cons, ih h.2, if_neg (fun e => h.1 e.symm)]

theorem counts_after_fulfil (requestId : Int) :
    ∀ l : List BloodRequest, (l.map (·.id)).Nodup →
      ∀ r ∈ l, r.id = requestId → r.status = "PENDING" →
        pendingCount (l.map fun request =>
            if request.id = requestId then { request with status := "FULFILLED" }
            else request) + 1 = pendingCount l ∧
          fulfilledCount (l.map fun request =>
            if request.id = requestId then { request with status := "FULFILLED" }
            else request) = fulfilledCount l + 1 := by
  intro l
  induction l with
  | nil => intro _ r hr; cases hr
  | cons a t ih =>
    intro hnodup r hr hid hst
    rw [List.map_cons, List.nodup_cons] at hnodup
    by_cases ha : a.id = requestId
    · have hra : r = a := by
        rcases List.mem_cons.mp hr with h | h
        · exact h
        · exact absurd (List.mem_map.mpr ⟨r, h, hid.trans ha.symm⟩) hnodup.1
      subst hra
      rw [List.map_cons, map_update_of_not_mem requestId "FULFILLED" t (ha ▸ hnodup.1),
        if_pos ha]
      simp [pendingCount, fulfilledCount, List.filter_cons, hst]
    · have hrt : r ∈ t := by
        rcases List.mem_cons.mp hr with h | h
        · exact absurd (h ▸ hid) ha
        · exact h
      have := ih hnodup.2 r hrt hid hst
      rw [List.map_cons, if_neg ha]
      unfold pendingCount fulfilledCount at this ⊢
      simp only [List.filter_cons]
      split <;> split <;> (try simp only [List.length_cons] at this ⊢) <;> omega

/-- C27 is confirmed: a successful `handleUpdateRequestStatus(requestId, status)`
changes nothing of the state but the request list, keeps its length and the ids in
their order, and leaves at every position the request that was there, with the new
status if its id is `requestId` and unchanged otherwise; when the ids are pairwise
distinct and the request with that id is PENDING, moving it to FULFILLED lowers the
pending count by exactly one, raises the fulfilled count by exactly one and leaves
the number of requests unchanged. -/
theorem C27_status_update_counts (requestId : Int) (status : String) (s : State)
    (hnodup : (s.requests.map (·.id)).Nodup) (r : BloodRequest) (hr : r ∈ s.requests)
    (hid : r.id = requestId) (hpending : r.status = "PENDING") :
    handleUpdateRequestStatus true requestId status s
        = { s with requests := (handleUpdateRequestStatus true requestId status s).requests } ∧
      (handleUpdateRequestStatus true requestId status s).requests.length
        = s.requests.length ∧
      (handleUpdateRequestStatus true requestId status s).requests.map (·.id)
        = s.requests.map (·.id) ∧
      (∀ (i : Nat) (x : BloodRequest), s.requests[i]? = some x →
        (handleUpdateRequestStatus true requestId status s).requests[i]?
          = some (if x.id = requestId then { x with status := status } else x)) ∧
      pendingCount (handleUpdateRequestStatus true requestId "FULFILLED" s).requests + 1
        = pendingCount s.requests ∧
      fulfilledCount (handleUpdateRequestStatus true requestId "FULFILLED" s).requests
        = fulfilledCount s.requests + 1 ∧
      (handleUpdateRequestStatus true requestId "FULFILLED" s).requests.length
        = s.requests.length := by
  refine ⟨rfl, ?_, ?_, ?_, ?_, ?_, ?_⟩
  · rw [handleUpdateRequestStatus_ok, List.length_map]
  · rw [handleUpdateRequestStatus_ok, List.map_map]
    apply List.map_congr_left
    intro x _
    show (if x.id = requestId then { x with status := status } else x).id = x.id
    split <;> rfl
  · intro i x hx
    rw [handleUpdateRequestStatus_ok, List.getElem?_map, hx]
    rfl
  · rw [handleUpdateRequestStatus_ok]
    exact (counts_after_fulfil requestId s.requests hnodup r hr hid hpending).1
  · rw [handleUpdateRequestStatus_ok]
    exact (counts_after_fulfil requestId s.requests hnodup r hr hid hpending).2
  · rw [handleUpdateRequestStatus_ok, List.length_map]

/-- C27 holds on the loaded dashboard: fulfilling the pending request 1 takes the
pending count from 1 to 0 and the fulfilled count from 1 to 2, with two requests
before and after. -/
theorem C27_status_update_counts_witness :
    pendingCount loadedState.requests = 1 ∧ fulfilledCount loadedState.requests = 1 ∧
      pendingCount (handleUpdateRequestStatus true 1 "FULFILLED" loadedState).requests = 0 ∧
      fulfilledCount (handleUpdateRequestStatus true 1 "FULFILLED" loadedState).requests
        = fulfilledCount loadedState.requests + 1 ∧
      (handleUpdateRequestStatus true 1 "FULFILLED" loadedState).requests.length = 2 :=
  have h := C27_status_update_counts 1 "FULFILLED" loadedState (by decide) requestOPos
    (by decide) (by decide) (by decide)
  ⟨by decide, by decide, by decide, h.2.2.2.2.2.1, by decide⟩

/-! ## Colours and the alert severity -/

/-- C28 fails on the code: `getUrgencyColor` tests for 'emergency' and 'urgent' in
lower case, while the form offers 'Normal', 'Urgent' and 'Emergency'; each offered
value gets the colour 'info', and a request submitted with the level 'Emergency'
is stored with that value and shown with 'info', where the lower-case 'emergency'
and 'urgent' of the mock requests get 'error' and 'warning'. -/
theorem C28_offered_levels_all_get_info :
    RecipientDashboard.urgencyLevels.map RecipientDashboard.getUrgencyColor
        = ["info", "info", "info"] ∧
      RecipientDashboard.getUrgencyColor "Emergency" = "info" ∧
      RecipientDashboard.getUrgencyColor "Urgent" = "info" ∧
      RecipientDashboard.getUrgencyColor "emergency" = "error" ∧
      RecipientDashboard.getUrgencyColor "urgent" = "warning" ∧
      ((RecipientDashboard.handleSubmitRequest RecipientDashboard.sampleEnv
          (RecipientDashboard.selectUrgency "Emergency"
            (RecipientDashboard.stateWithForm "2"))).state.requests.head?.map
        fun request => (request.urgency, RecipientDashboard.getUrgencyColor request.urgency))
        = some ("Emergency", "info") := by
  decide

/-- C29 fails on the code: a successful `handleCompleteDonation` sets the message
'Donation completed successfully!', which does not contain 'scheduled', so the
alert shows it with the severity 'error'; the success message of
`handleScheduleDonation` gets 'success' and each fixed failure message gets
'error'. -/
theorem C29_completed_message_gets_error_severity :
    (handleCompleteDonation ⟨.ok (.ok ())⟩ (some 1701340200)).error
        = "Donation completed successfully!" ∧
      alertSeverity (handleCompleteDonation ⟨.ok (.ok ())⟩ (some 1701340200)).error
        = "error" ∧
      (handleScheduleDonation (sampleEnv 1700000000000 ⟨true, 0, 0⟩)
          (sampleForm 1701302400000 "10:30")).error
        = "Donation scheduled for 11/30/2023 at 10:30 at Medical Center" ∧
      alertSeverity (handleScheduleDonation (sampleEnv 1700000000000 ⟨true, 0, 0⟩)
          (sampleForm 1701302400000 "10:30")).error = "success" ∧
      (failureMessages.all fun message => decide (alertSeverity message = "error")) = true := by
  decide

/-! ## Decimal digits: `parseInt` reads back what `toString` writes -/

theorem digitChar_toNat (k : Nat) (h : k < 10) : (Nat.digitChar k).toNat = 48 + k := by
  interval_cases k <;> rfl

theorem digitsValue_append_single (xs : List Nat) (d : Nat) :
    digitsValue 10 (xs ++ [d]) = digitsValue 10 xs * 10 + d := by
  simp [digitsValue, List.foldl_append]

theorem toDigitsCore_decimal :
    ∀ (fuel n : Nat) (acc : List Char), n < fuel →
      ∃ ds : List Char, Nat.toDigitsCore 10 fuel n acc = ds ++ acc ∧ ds ≠ [] ∧
        (∀ c ∈ ds, 48 ≤ c.toNat ∧ c.toNat ≤ 57) ∧
        digitsValue 10 (ds.map fun c => c.toNat - 48) = n := by
  intro fuel
  induction fuel with
  | zero => intro n acc h; omega
  | succ fuel ih =>
    intro n acc h
    have hd : (Nat.digitChar (n % 10)).toNat = 48 + n % 10 :=
      digitChar_toNat (n % 10) (Nat.mod_lt n (by decide))
    unfold Nat.toDigitsCore
    by_cases h0 : n / 10 = 0
    · refine ⟨[Nat.digitChar (n % 10)], by simp [h0], by simp, ?_, ?_⟩
      · intro c hc
        rw [List.mem_singleton.mp hc, hd]
        omega
      · simp only [List.map_cons, List.map_nil, hd, digitsValue, List.foldl_cons,
          List.foldl_nil]
        omega
    · obtain ⟨ds, heq, _, hdec, hval⟩ :=
        ih (n / 10) (Nat.digitChar (n % 10) :: acc) (by omega)
      refine ⟨ds ++ [Nat.digitChar (n % 10)], by simp [h0, heq], by simp, ?_, ?_⟩
      · intro c hc
        rcases List.mem_append.mp hc with hc | hc
        · exact hdec c hc
        · rw [List.mem_singleton.mp hc, hd]
          omega
      · rw [List.map_append, List.map_cons, List.map_nil, digitsValue_append_single, hval, hd]
        omega

theorem toString_decimal (n : Nat) :
    (toString n).toList ≠ [] ∧ (∀ c ∈ (toString n).toList, 48 ≤ c.toNat ∧ c.toNat ≤ 57) ∧
      digitsValue 10 ((toString n).toList.map fun c => c.toNat - 48) = n := by
  obtain ⟨ds, heq, hne, hdec, hval⟩ := toDigitsCore_decimal (n + 1) n [] (by omega)
  have hs : (toString n).toList = ds := by
    show (Nat.toDigits 10 n) = ds
    rw [Nat.toDigits, heq, List.append_nil]
  rw [hs]
  exact ⟨hne, hdec, hval⟩

theorem takeDigits_decimal :
    ∀ ds : List Char, (∀ c ∈ ds, 48 ≤ c.toNat ∧ c.toNat ≤ 57) →
      takeDigits 10 ds = ds.map fun c => c.toNat - 48 := by
  intro ds
  induction ds with
  | nil => intro _; rfl
  | cons c cs ih =>
    intro h
    have hc := h c (List.mem_cons_self c cs)
    have hcs := ih fun x hx => h x (List.mem_cons_of_mem c hx)
    have hlt : c.toNat - 48 < 10 := by omega
    simp only [takeDigits, digitValue, if_pos hc, if_pos hlt, hcs, List.map_cons]

theorem parseIntChars_decimal (ds : List Char) (hne : ds ≠ [])
    (hdec : ∀ c ∈ ds, 48 ≤ c.toNat ∧ c.toNat ≤ 57) :
    parseIntChars ds = some (digitsValue 10 (ds.map fun c => c.toNat - 48) : Int) := by
  cases ds with
  | nil => exact absurd rfl hne
  | cons c cs =>
    have hc := hdec c (List.mem_cons_self c cs)
    have hws : isStrWhiteSpace c = false := by
      simp [isStrWhiteSpace]
      omega
    have hminus : c ≠ '-' := by
      intro e
      rw [e] at hc
      revert hc
      decide
    have hplus : c ≠ '+' := by
      intro e
      rw [e] at hc
      revert hc
      decide
    have hradix : stripRadixPrefix (c :: cs) = (10, c :: cs) := by
      cases cs with
      | nil => rfl
      | cons d ds =>
        have hd := hdec d (by simp)
        have hx : ¬ (c = '0' ∧ (d = 'x' ∨ d = 'X')) := by
          rintro ⟨_, e | e⟩ <;> (rw [e] at hd; revert hd; decide)
        simp only [stripRadixPrefix, if_neg hx]
    have htake := takeDigits_decimal (c :: cs) hdec
    have hdrop : (c :: cs).dropWhile isStrWhiteSpace = c :: cs := by
      simp [List.dropWhile_cons, hws]
    have hsign : stripSign (c :: cs) = (false, c :: cs) := by
      simp [stripSign, hminus, hplus]
    simp [parseIntChars, hdrop, hsign, hradix, htake]

theorem splitOnChar_without_separator (sep : Char) :
    ∀ ds : List Char, (∀ c ∈ ds, c ≠ sep) → splitOnChar sep ds = [ds] := by
  intro ds
  induction ds with
  | nil => intro _; rfl
  | cons c cs ih =>
    intro h
    have hcs := ih fun x hx => h x (List.mem_cons_of_mem c hx)
    simp only [splitOnChar, if_neg (h c (List.mem_cons_self c cs)), hcs]

theorem scheduled_id_decodes (timestamp : Nat) :
    parseIntArg ((splitOnChar '-' ("scheduled-" ++ toString timestamp).toList)[1]?)
      = some (timestamp : Int) := by
  obtain ⟨hne, hdec, hval⟩ := toString_decimal timestamp
  have hsep : ∀ c ∈ (toString timestamp).toList, c ≠ '-' := by
    intro c hc e
    have := hdec c hc
    rw [e] at this
    revert this
    decide
  have hsplit : splitOnChar '-' ("scheduled-" ++ toString timestamp).toList
      = ["scheduled".toList, (toString timestamp).toList] := by
    have : ("scheduled-" ++ toString timestamp).toList
        = 's' :: 'c' :: 'h' :: 'e' :: 'd' :: 'u' :: 'l' :: 'e' :: 'd' :: '-' ::
          (toString timestamp).toList := by
      rw [String.toList, String.data_append]
      rfl
    rw [this]
    simp [splitOnChar]
    exact splitOnChar_without_separator '-' _ hsep
  rw [hsplit]
  show parseIntChars (toString timestamp).toList = some (timestamp : Int)
  rw [parseIntChars_decimal _ hne hdec, hval]

/-! ## The donation history of `loadDonorData` -/

theorem isoDay_of_le (seconds : Nat) (h : seconds ≤ 8640000000000) :
    isoDay seconds = some ((seconds : Int) * 1000 / msPerDay) := by
  unfold isoDay timeClip
  rw [if_pos (by omega)]
  rfl

theorem le_of_isoDay (seconds : Nat) (day : Int) (h : isoDay seconds = some day) :
    seconds ≤ 8640000000000 := by
  unfold isoDay timeClip at h
  split at h
  · omega
  · cases h

theorem mapWithIndex_some {α β : Type} (f : α → Nat → Option β) :
    ∀ (l : List α) (start : Nat) (out : List β), mapWithIndex f start l = some out →
      out.length = l.length ∧
      ∀ (i : Nat) (b : β), out[i]? = some b → ∃ a, l[i]? = some a ∧ f a (start + i) = some b := by
  intro l
  induction l with
  | nil =>
    intro start out h
    cases h
    exact ⟨rfl, fun i b hb => by simp at hb⟩
  | cons a t ih =>
    intro start out h
    unfold mapWithIndex at h
    split at h
    · rename_i b bs hb hbs
      cases h
      obtain ⟨hlen, hidx⟩ := ih (start + 1) bs hbs
      refine ⟨by simp [hlen], ?_⟩
      intro i x hx
      cases i with
      | zero =>
        simp at hx
        exact ⟨a, by simp, by rw [← hx]; exact hb⟩
      | succ i =>
        simp at hx
        obtain ⟨y, hy, hf⟩ := hidx i x hx
        exact ⟨y, by simpa using hy, by rw [← hf]; congr 1; omega⟩
    · cases h

theorem mapWithIndex_isSome {α β : Type} (f : α → Nat → Option β) :
    ∀ (l : List α) (start : Nat), (∀ a ∈ l, ∀ i, ∃ b, f a i = some b) →
      ∃ out, mapWithIndex f start l = some out := by
  intro l
  induction l with
  | nil => intro start _; exact ⟨[], rfl⟩
  | cons a t ih =>
    intro start h
    obtain ⟨b, hb⟩ := h a (List.mem_cons_self a t) start
    obtain ⟨bs, hbs⟩ := ih (start + 1) fun x hx => h x (List.mem_cons_of_mem a hx)
    exact ⟨b :: bs, by simp [mapWithIndex, hb, hbs]⟩

theorem scheduledDonationsList_isSome (localeTime : Nat → String) (sd : ScheduledDonations)
    (hvalid : ∀ ts ∈ sd.timestamps, ts ≤ 8640000000000) :
    ∃ l, scheduledDonationsList localeTime sd = some l := by
  apply mapWithIndex_isSome
  intro ts hts i
  simp [scheduledEntry, isoDay_of_le ts (hvalid ts hts)]

theorem completedHistory_isSome (localeTime : Nat → String) (events : List DonationEvent)
    (hvalid : ∀ e ∈ events, e.blockTimestamp ≤ 8640000000000)
    (hdecoded : ∀ e ∈ events, e.hospital ≠ none) :
    ∃ l, completedHistory localeTime events = some l := by
  apply mapWithIndex_isSome
  intro e he i
  cases hh : e.hospital with
  | none => exact absurd hh (hdecoded e he)
  | some hospital =>
    simp [completedEntry, isoDay_of_le e.blockTimestamp (hvalid e he), hh]

theorem mapWithIndex_defined {α β : Type} (f : α → Nat → Option β) (l : List α)
    (start : Nat) (out : List β) (h : mapWithIndex f start l = some out) (a : α)
    (ha : a ∈ l) : ∃ i b, f a i = some b := by
  obtain ⟨hlen, hidx⟩ := mapWithIndex_some f l start out h
  obtain ⟨i, hi, hget⟩ := List.mem_iff_getElem.mp ha
  have hi2 : i < out.length := by rw [hlen]; exact hi
  obtain ⟨a2, ha2, hf⟩ := hidx i out[i] (List.getElem?_eq_getElem hi2)
  rw [List.getElem?_eq_getElem hi, hget] at ha2
  cases ha2
  exact ⟨start + i, out[i], hf⟩

theorem valid_of_scheduledDonationsList (localeTime : Nat → String) (sd : ScheduledDonations)
    (l : List Donation) (h : scheduledDonationsList localeTime sd = some l) :
    ∀ ts ∈ sd.timestamps, ts ≤ 8640000000000 := by
  intro ts hts
  obtain ⟨i, b, hb⟩ := mapWithIndex_defined _ _ _ _ h ts hts
  unfold scheduledEntry at hb
  cases hday : isoDay ts with
  | none => rw [hday] at hb; cases hb
  | some day => exact le_of_isoDay ts day hday

theorem valid_of_completedHistory (localeTime : Nat → String) (events : List DonationEvent)
    (l : List Donation) (h : completedHistory localeTime events = some l) :
    ∀ e ∈ events, e.blockTimestamp ≤ 8640000000000 ∧ e.hospital ≠ none := by
  intro e he
  obtain ⟨i, b, hb⟩ := mapWithIndex_defined _ _ _ _ h e he
  unfold completedEntry at hb
  cases hday : isoDay e.blockTimestamp with
  | none => rw [hday] at hb; cases hb
  | some day =>
    cases hh : e.hospital with
    | none => rw [hday, hh] at hb; cases hb
    | some hospital => exact ⟨le_of_isoDay _ day hday, by simp⟩

theorem scheduled_entry_at (localeTime : Nat → String) (sd : ScheduledDonations)
    (l : List Donation) (h : scheduledDonationsList localeTime sd = some l) (i : Nat)
    (d : Donation) (hd : l[i]? = some d) :
    ∃ ts, sd.timestamps[i]? = some ts ∧ scheduledEntry localeTime sd ts i = some d := by
  obtain ⟨ts, hts, hf⟩ := (mapWithIndex_some _ _ _ _ h).2 i d hd
  exact ⟨ts, hts, by simpa using hf⟩

theorem completed_entry_status (localeTime : Nat → String) (events : List DonationEvent)
    (l : List Donation) (h : completedHistory localeTime events = some l) (d : Donation)
    (hd : d ∈ l) : d.status = "Completed" ∧ d.pointsEarned = 10 := by
  obtain ⟨i, hi⟩ := List.mem_iff_getElem?.mp hd
  obtain ⟨e, _, hf⟩ := (mapWithIndex_some _ _ _ _ h).2 i d hi
  unfold completedEntry at hf
  cases hday : isoDay e.blockTimestamp with
  | none => rw [hday] at hf; cases hf
  | some day =>
    cases hh : e.hospital with
    | none => rw [hday, hh] at hf; cases hf
    | some hospital =>
      rw [hday, hh] at hf
      cases hf
      exact ⟨rfl, rfl⟩

theorem totalPoints_of_entries :
    ∀ l : List Donation,
      (∀ d ∈ l, d.pointsEarned = if d.status = "Completed" then 10 else 0) →
      totalPoints l
        = 10 * ((l.filter fun d => decide (d.status = "Completed")).length : Int) := by
  intro l
  induction l with
  | nil => intro _; rfl
  | cons a t ih =>
    intro h
    have ha := h a (List.mem_cons_self a t)
    have ht := ih fun d hd => h d (List.mem_cons_of_mem a hd)
    unfold totalPoints at ht ⊢
    rw [List.map_cons, List.sum_cons, ht, ha, List.filter_cons]
    by_cases hs : a.status = "Completed"
    · simp [hs]
      omega
    · simp [hs]

theorem mayPrecede_total : IsTotal Donation MayPrecede :=
  ⟨fun a b => by
    simp only [MayPrecede, compareDonations, msPerDay]
    omega⟩

theorem mayPrecede_trans : IsTrans Donation MayPrecede :=
  ⟨fun a b c => by
    simp only [MayPrecede, compareDonations, msPerDay]
    omega⟩

theorem sortDonations_pairwise (l : List Donation) :
    (sortDonations l).Pairwise fun a b => b.date ≤ a.date := by
  haveI := mayPrecede_total
  haveI := mayPrecede_trans
  have h : (sortDonations l).Pairwise MayPrecede := List.sorted_insertionSort MayPrecede l
  refine h.imp ?_
  intro a b hab
  simp only [MayPrecede, compareDonations, msPerDay] at hab
  omega

theorem scheduled_entry_fields (localeTime : Nat → String) (sd : ScheduledDonations)
    (timestamp index : Nat) (d : Donation)
    (h : scheduledEntry localeTime sd timestamp index = some d) :
    d.id = "scheduled-" ++ toString timestamp ∧ timestamp ≤ 8640000000000 ∧
      (((sd.completed[index]?).getD false = true ∧ d.status = "Completed" ∧
          d.pointsEarned = 10) ∨
        ((sd.completed[index]?).getD false = false ∧ d.status = "Scheduled" ∧
          d.pointsEarned = 0)) := by
  unfold scheduledEntry at h
  cases hday : isoDay timestamp with
  | none => rw [hday] at h; cases h
  | some day =>
    rw [hday] at h
    cases h
    refine ⟨rfl, le_of_isoDay timestamp day hday, ?_⟩
    cases hc : (sd.completed[index]?).getD false <;> simp

/-- C22 is confirmed: when every timestamp is a valid date, `loadDonorData` builds
one entry per scheduled donation, in order; the entry of a donation whose
`completed` flag is true has the status 'Completed' and `pointsEarned` 10, every
other entry has the status 'Scheduled' and `pointsEarned` 0; so the total of
`pointsEarned` over the list is 10 times the number of its 'Completed' entries. -/
theorem C22_points_of_completed (localeTime : Nat → String) (sd : ScheduledDonations)
    (hvalid : ∀ ts ∈ sd.timestamps, ts ≤ 8640000000000) :
    ∃ l, scheduledDonationsList localeTime sd = some l ∧
      l.length = sd.timestamps.length ∧
      (∀ (i : Nat) (d : Donation), l[i]? = some d →
        ((sd.completed[i]?).getD false = true ∧ d.status = "Completed" ∧
            d.pointsEarned = 10) ∨
          ((sd.completed[i]?).getD false = false ∧ d.status = "Scheduled" ∧
            d.pointsEarned = 0)) ∧
      totalPoints l
        = 10 * ((l.filter fun d => decide (d.status = "Completed")).length : Int) := by
  obtain ⟨l, hl⟩ := scheduledDonationsList_isSome localeTime sd hvalid
  have hentry : ∀ (i : Nat) (d : Donation), l[i]? = some d →
      ((sd.completed[i]?).getD false = true ∧ d.status = "Completed" ∧
          d.pointsEarned = 10) ∨
        ((sd.completed[i]?).getD false = false ∧ d.status = "Scheduled" ∧
          d.pointsEarned = 0) := by
    intro i d hd
    obtain ⟨ts, _, hts⟩ := scheduled_entry_at localeTime sd l hl i d hd
    exact (scheduled_entry_fields localeTime sd ts i d hts).2.2
  refine ⟨l, hl, (mapWithIndex_some _ _ _ _ hl).1, hentry, ?_⟩
  apply totalPoints_of_entries
  intro d hd
  obtain ⟨i, hi⟩ := List.mem_iff_getElem?.mp hd
  rcases hentry i d hi with ⟨_, hs, hp⟩ | ⟨_, hs, hp⟩
  · rw [hs, hp]; rfl
  · rw [hs, hp]; rfl

/-- C22 holds on a concrete answer: of three scheduled donations the first and the
third are completed; the list has three entries and its `pointsEarned` total is
20. -/
theorem C22_points_of_completed_witness :
    (scheduledDonationsList (fun _ => "10:30:00 AM")
        ⟨[1701340200, 1709289000, 1693564200], ["Medical Center", "City Hospital", "Clinic"],
          [true, false, true], ["", "", ""]⟩).map List.length = some 3 ∧
      (scheduledDonationsList (fun _ => "10:30:00 AM")
        ⟨[1701340200, 1709289000, 1693564200], ["Medical Center", "City Hospital", "Clinic"],
          [true, false, true], ["", "", ""]⟩).map totalPoints
        = (scheduledDonationsList (fun _ => "10:30:00 AM")
            ⟨[1701340200, 1709289000, 1693564200],
              ["Medical Center", "City Hospital", "Clinic"],
              [true, false, true], ["", "", ""]⟩).map (fun l =>
            10 * ((l.filter fun d => decide (d.status = "Completed")).length : Int)) ∧
      (scheduledDonationsList (fun _ => "10:30:00 AM")
        ⟨[1701340200, 1709289000, 1693564200], ["Medical Center", "City Hospital", "Clinic"],
          [true, false, true], ["", "", ""]⟩).map totalPoints = some 20 :=
  match C22_points_of_completed (fun _ => "10:30:00 AM")
      ⟨[1701340200, 1709289000, 1693564200], ["Medical Center", "City Hospital", "Clinic"],
        [true, false, true], ["", "", ""]⟩ (by decide) with
  | ⟨_, hl, hlen, _, htotal⟩ =>
    ⟨by rw [hl]; exact congrArg some hlen, by rw [hl]; exact congrArg some htotal, by decide⟩

/-- C24 is confirmed: `loadDonorData` has a history to set exactly when every
scheduled timestamp and every block timestamp is a valid date and the hospital of
every event decodes (otherwise building an entry throws and no history is set); and
every history it sets is a permutation of the scheduled-donation entries together
with the completed-event entries, with one entry per scheduled donation and per
event, ordered most recent first: of two adjacent entries, and of any two entries,
the earlier one in the list has a date that is not earlier. -/
theorem C24_history_sorted_permutation (localeTime : Nat → String) (sd : ScheduledDonations)
    (events : List DonationEvent) :
    ((∃ history, donationHistory localeTime sd events = some history) ↔
      (∀ ts ∈ sd.timestamps, ts ≤ 8640000000000) ∧
        ∀ e ∈ events, e.blockTimestamp ≤ 8640000000000 ∧ e.hospital ≠ none) ∧
    ∀ history, donationHistory localeTime sd events = some history →
      ∃ scheduled completed,
        scheduledDonationsList localeTime sd = some scheduled ∧
        completedHistory localeTime events = some completed ∧
        history.Perm (scheduled ++ completed) ∧
        history.length = sd.timestamps.length + events.length ∧
        (∀ (i : Nat) (a b : Donation), history[i]? = some a → history[i + 1]? = some b →
          b.date ≤ a.date) ∧
        history.Pairwise fun a b => b.date ≤ a.date := by
  have hsplit : ∀ history, donationHistory localeTime sd events = some history →
      ∃ scheduled completed, scheduledDonationsList localeTime sd = some scheduled ∧
        completedHistory localeTime events = some completed ∧
        history = sortDonations (scheduled ++ completed) := by
    intro history h
    unfold donationHistory at h
    split at h
    · rename_i scheduled completed hs hc
      exact ⟨scheduled, completed, hs, hc, (Option.some.inj h).symm⟩
    · cases h
  refine ⟨⟨?_, ?_⟩, ?_⟩
  · rintro ⟨history, h⟩
    obtain ⟨scheduled, completed, hs, hc, _⟩ := hsplit history h
    exact ⟨valid_of_scheduledDonationsList localeTime sd scheduled hs,
      valid_of_completedHistory localeTime events completed hc⟩
  · rintro ⟨hts, hev⟩
    obtain ⟨scheduled, hs⟩ := scheduledDonationsList_isSome localeTime sd hts
    obtain ⟨completed, hc⟩ := completedHistory_isSome localeTime events
      (fun e he => (hev e he).1) (fun e he => (hev e he).2)
    exact ⟨sortDonations (scheduled ++ completed), by simp [donationHistory, hs, hc]⟩
  · intro history h
    obtain ⟨scheduled, completed, hs, hc, rfl⟩ := hsplit history h
    have hperm : (sortDonations (scheduled ++ completed)).Perm (scheduled ++ completed) :=
      List.perm_insertionSort MayPrecede _
    have hpair := sortDonations_pairwise (scheduled ++ completed)
    refine ⟨scheduled, completed, hs, hc, hperm, ?_, ?_, hpair⟩
    · rw [hperm.length_eq, List.length_append, (mapWithIndex_some _ _ _ _ hs).1,
        (mapWithIndex_some _ _ _ _ hc).1]
    · intro i a b ha hb
      obtain ⟨hi, rfl⟩ := List.getElem?_eq_some_iff.mp ha
      obtain ⟨hj, rfl⟩ := List.getElem?_eq_some_iff.mp hb
      exact List.pairwise_iff_getElem.mp hpair i (i + 1) hi hj (Nat.lt_succ_self i)

/-- C24 holds on concrete loads: three scheduled donations (30 November 2023,
1 March 2024, 1 September 2023) and no recorded donation give the history of the
three entries in the order 1 March, 30 November, 1 September; with a recorded
donation whose hospital decodes, its entry is merged in by date; with one whose
hospital does not decode, no history is set. -/
theorem C24_history_sorted_permutation_witness :
    (donationHistory (fun _ => "10:30:00 AM")
        ⟨[1701340200, 1709289000, 1693564200],
          ["Medical Center", "City Hospital", "Clinic"], [false, false, true],
          ["", "", ""]⟩ []).map List.length = some 3 ∧
      (donationHistory (fun _ => "10:30:00 AM")
        ⟨[1701340200, 1709289000, 1693564200],
          ["Medical Center", "City Hospital", "Clinic"], [false, false, true],
          ["", "", ""]⟩ []).map (fun history => history.map (·.id))
        = some ["scheduled-1709289000", "scheduled-1701340200", "scheduled-1693564200"] ∧
      (donationHistory (fun _ => "10:30:00 AM")
        ⟨[1701340200, 1709289000], ["Medical Center", "City Hospital"], [false, false],
          ["", ""]⟩
        [⟨"0xabc", 1704067200, some "Clinic"⟩]).map (fun history => history.map (·.id))
        = some ["scheduled-1709289000", "0xabc", "scheduled-1701340200"] ∧
      donationHistory (fun _ => "10:30:00 AM")
        ⟨[1701340200, 1709289000], ["Medical Center", "City Hospital"], [false, false],
          ["", ""]⟩
        [⟨"0xabc", 1704067200, none⟩] = none :=
  match (C24_history_sorted_permutation (fun _ => "10:30:00 AM")
      ⟨[1701340200, 1709289000, 1693564200],
        ["Medical Center", "City Hospital", "Clinic"], [false, false, true],
        ["", "", ""]⟩ []).1.mpr ⟨by decide, by decide⟩ with
  | ⟨history, hh⟩ =>
    match (C24_history_sorted_permutation (fun _ => "10:30:00 AM")
        ⟨[1701340200, 1709289000, 1693564200],
          ["Medical Center", "City Hospital", "Clinic"], [false, false, true],
          ["", "", ""]⟩ []).2 history hh with
    | ⟨_, _, _, _, _, hlen, _, _⟩ =>
      ⟨by rw [hh]; exact congrArg some hlen, by decide, by decide, by decide⟩

/-! ## The Complete button -/

theorem offered_entry (localeTime : Nat → String) (sd : ScheduledDonations)
    (events : List DonationEvent) (history : List Donation)
    (h : donationHistory localeTime sd events = some history) (d : Donation)
    (hd : d ∈ history) (hoffered : completeOffered d = true) :
    ∃ (i ts : Nat), sd.timestamps[i]? = some ts ∧ (sd.completed[i]?).getD false = false ∧
      d.id = "scheduled-" ++ toString ts ∧ completeArgument d = some (ts : Int) := by
  unfold donationHistory at h
  split at h
  · rename_i scheduled completed hs hc
    cases h
    have hstatus : d.status = "Scheduled" := by simpa [completeOffered] using hoffered
    have hmem : d ∈ scheduled ++ completed :=
      (List.perm_insertionSort MayPrecede _).mem_iff.mp hd
    rcases List.mem_append.mp hmem with hm | hm
    · obtain ⟨i, hi⟩ := List.mem_iff_getElem?.mp hm
      obtain ⟨ts, hts, he⟩ := scheduled_entry_at localeTime sd scheduled hs i d hi
      obtain ⟨hid, _, hflag⟩ := scheduled_entry_fields localeTime sd ts i d he
      refine ⟨i, ts, hts, ?_, hid, ?_⟩
      · rcases hflag with ⟨_, hst, _⟩ | ⟨hf, _, _⟩
        · rw [hstatus] at hst
          exact absurd hst (by decide)
        · exact hf
      · unfold completeArgument
        rw [hid]
        exact scheduled_id_decodes ts
    · have := (completed_entry_status localeTime events completed hc d hm).1
      rw [hstatus] at this
      exact absurd this (by decide)
  · cases h

/-- C26 is confirmed: for every timestamp for which `loadDonorData` builds the entry
of a scheduled donation, the id of the entry is 'scheduled-' followed by the
decimal digits of the timestamp, `parseInt(id.split('-')[1])` is that timestamp (a
number of seconds of at most 8640000000000, in the range where numbers are exact),
and the Complete action of the entry issues `completeScheduledDonation` with that
timestamp. -/
theorem C26_id_decodes_to_timestamp (localeTime : Nat → String) (sd : ScheduledDonations)
    (timestamp index : Nat) (d : Donation) (env : CompleteEnv)
    (h : scheduledEntry localeTime sd timestamp index = some d) :
    d.id = "scheduled-" ++ toString timestamp ∧
      completeArgument d = some (timestamp : Int) ∧
      timestamp ≤ 8640000000000 ∧
      (handleCompleteDonation env (completeArgument d)).effects.head?
        = some (.completeScheduledDonation (some (timestamp : Int))) := by
  obtain ⟨hid, hle, _⟩ := scheduled_entry_fields localeTime sd timestamp index d h
  have harg : completeArgument d = some (timestamp : Int) := by
    unfold completeArgument
    rw [hid]
    exact scheduled_id_decodes timestamp
  refine ⟨hid, harg, hle, ?_⟩
  rw [harg]
  unfold handleCompleteDonation
  split <;> rfl

/-- C26 holds on a concrete entry: the scheduled donation of 30 November 2023
(1701340200) gets the id 'scheduled-1701340200', which decodes to 1701340200. -/
theorem C26_id_decodes_to_timestamp_witness :
    scheduledEntry (fun _ => "10:30:00 AM")
        ⟨[1701340200], ["Medical Center"], [false], [""]⟩ 1701340200 0
      = some { id := "scheduled-1701340200", date := 19691, time := "10:30:00 AM",
               hospital := some "Medical Center", status := "Scheduled", pointsEarned := 0,
               notes := some "" } ∧
    completeArgument
        { id := "scheduled-1701340200", date := 19691, time := "10:30:00 AM",
          hospital := some "Medical Center", status := "Scheduled", pointsEarned := 0,
          notes := some "" }
      = some 1701340200 :=
  ⟨by decide,
    (C26_id_decodes_to_timestamp (fun _ => "10:30:00 AM")
      ⟨[1701340200], ["Medical Center"], [false], [""]⟩ 1701340200 0
      { id := "scheduled-1701340200", date := 19691, time := "10:30:00 AM",
        hospital := some "Medical Center", status := "Scheduled", pointsEarned := 0,
        notes := some "" }
      ⟨.ok (.ok ())⟩ (by decide)).2.1⟩

/-! ## Completing a scheduled donation twice -/

theorem markCompleted_timestamps (scheduledTime : Nat) :
    ∀ l : List Ledger.ScheduledDonation,
      (Ledger.markCompleted scheduledTime l).map (·.timestamp) = l.map (·.timestamp) := by
  intro l
  induction l with
  | nil => rfl
  | cons a t ih =>
    unfold Ledger.markCompleted
    split
    · rfl
    · rw [List.map_cons, ih, List.map_cons]

theorem find_markCompleted (scheduledTime : Nat) :
    ∀ (l : List Ledger.ScheduledDonation) (entry : Ledger.ScheduledDonation),
      l.find? (fun e => decide (e.timestamp = scheduledTime)) = some entry →
      (Ledger.markCompleted scheduledTime l).find? (fun e => decide (e.timestamp = scheduledTime))
        = some { entry with completed := true } := by
  intro l
  induction l with
  | nil => intro entry h; cases h
  | cons a t ih =>
    intro entry h
    unfold Ledger.markCompleted
    by_cases ha : a.timestamp = scheduledTime
    · rw [if_pos ha]
      simp only [List.find?_cons, ha, decide_True] at h ⊢
      cases h
      rw [ha]
    · rw [if_neg ha]
      simp only [List.find?_cons, ha, decide_False] at h ⊢
      exact ih entry h

theorem markCompleted_flag (scheduledTime : Nat) :
    ∀ l : List Ledger.ScheduledDonation, (l.map (·.timestamp)).Nodup →
      ∀ e ∈ Ledger.markCompleted scheduledTime l, e.timestamp = scheduledTime →
        e.completed = true := by
  intro l
  induction l with
  | nil => intro _ e he; cases he
  | cons a t ih =>
    intro hnodup e he hts
    rw [List.map_cons, List.nodup_cons] at hnodup
    unfold Ledger.markCompleted at he
    by_cases ha : a.timestamp = scheduledTime
    · rw [if_pos ha] at he
      rcases List.mem_cons.mp he with h | h
      · rw [h]
      · exact absurd (List.mem_map.mpr ⟨e, h, hts.trans ha.symm⟩) hnodup.1
    · rw [if_neg ha] at he
      rcases List.mem_cons.mp he with h | h
      · exact absurd (h ▸ hts) ha
      · exact ih hnodup.2 e h hts

theorem find_of_mem_nodup (scheduledTime : Nat) :
    ∀ l : List Ledger.ScheduledDonation, (l.map (·.timestamp)).Nodup →
      ∀ entry ∈ l, entry.timestamp = scheduledTime →
        l.find? (fun e => decide (e.timestamp = scheduledTime)) = some entry := by
  intro l
  induction l with
  | nil => intro _ entry he; cases he
  | cons a t ih =>
    intro hnodup entry he hts
    rw [List.map_cons, List.nodup_cons] at hnodup
    by_cases ha : a.timestamp = scheduledTime
    · simp only [List.find?_cons, ha, decide_True]
      rcases List.mem_cons.mp he with h | h
      · rw [h]
      · exact absurd (List.mem_map.mpr ⟨entry, h, hts.trans ha.symm⟩) hnodup.1
    · simp only [List.find?_cons, ha, decide_False]
      rcases List.mem_cons.mp he with h | h
      · exact absurd (h ▸ hts) ha
      · exact ih hnodup.2 entry h hts

theorem markCompleted_count (scheduledTime : Nat) :
    ∀ (l : List Ledger.ScheduledDonation) (entry : Ledger.ScheduledDonation),
      l.find? (fun e => decide (e.timestamp = scheduledTime)) = some entry →
      entry.completed = false →
      ((Ledger.markCompleted scheduledTime l).filter fun e => e.completed).length
        = (l.filter fun e => e.completed).length + 1 := by
  intro l
  induction l with
  | nil => intro entry h; cases h
  | cons a t ih =>
    intro entry h hopen
    unfold Ledger.markCompleted
    by_cases ha : a.timestamp = scheduledTime
    · rw [if_pos ha]
      simp only [List.find?_cons, ha, decide_True] at h
      cases h
      simp [List.filter_cons, hopen]
    · rw [if_neg ha]
      simp only [List.find?_cons, ha, decide_False] at h
      have := ih entry h hopen
      simp only [List.filter_cons]
      split <;> simp [this]

theorem completeScheduledDonation_open (scheduledTime : Nat) (donor : Ledger.DonorRecord)
    (entry : Ledger.ScheduledDonation)
    (hfind : donor.scheduled.find? (fun e => decide (e.timestamp = scheduledTime))
      = some entry)
    (hopen : entry.completed = false) :
    Ledger.completeScheduledDonation scheduledTime donor
      = .ok { rewardPoints := donor.rewardPoints + 10, lastDonationTime := scheduledTime,
              scheduled := Ledger.markCompleted scheduledTime donor.scheduled } := by
  unfold Ledger.completeScheduledDonation
  rw [hfind]
  simp [hopen]

theorem completeScheduledDonation_completed (scheduledTime : Nat)
    (donor : Ledger.DonorRecord) (entry : Ledger.ScheduledDonation)
    (hfind : donor.scheduled.find? (fun e => decide (e.timestamp = scheduledTime))
      = some entry)
    (hdone : entry.completed = true) :
    Ledger.completeScheduledDonation scheduledTime donor = .error .alreadyCompleted := by
  unfold Ledger.completeScheduledDonation
  rw [hfind]
  simp [hdone]

theorem completeScheduledDonation_ok (scheduledTime : Nat) (donor completed : Ledger.DonorRecord)
    (h : Ledger.completeScheduledDonation scheduledTime donor = .ok completed) :
    ∃ entry, donor.scheduled.find? (fun e => decide (e.timestamp = scheduledTime))
        = some entry ∧ entry.completed = false ∧
      completed = { rewardPoints := donor.rewardPoints + 10, lastDonationTime := scheduledTime,
                    scheduled := Ledger.markCompleted scheduledTime donor.scheduled } := by
  unfold Ledger.completeScheduledDonation at h
  cases hfind : donor.scheduled.find? (fun e => decide (e.timestamp = scheduledTime)) with
  | none => rw [hfind] at h; cases h
  | some entry =>
    rw [hfind] at h
    cases hc : entry.completed with
    | true => simp [hc] at h
    | false =>
      simp [hc] at h
      exact ⟨entry, rfl, hc, h.symm⟩

theorem after_eq (scheduledTimestamp : JsNum) (donor : Ledger.DonorRecord) :
    Ledger.after scheduledTimestamp donor = donor ∨
      ∃ (scheduledTime : Nat) (entry : Ledger.ScheduledDonation),
        donor.scheduled.find? (fun e => decide (e.timestamp = scheduledTime)) = some entry ∧
        entry.completed = false ∧
        Ledger.after scheduledTimestamp donor
          = { rewardPoints := donor.rewardPoints + 10, lastDonationTime := scheduledTime,
              scheduled := Ledger.markCompleted scheduledTime donor.scheduled } := by
  unfold Ledger.after Ledger.answer
  cases scheduledTimestamp with
  | none => exact Or.inl rfl
  | some n =>
    cases n with
    | negSucc k => exact Or.inl rfl
    | ofNat k =>
      cases h : Ledger.completeScheduledDonation k donor with
      | error e => simp [h]
      | ok completed =>
        obtain ⟨entry, hfind, hopen, heq⟩ := completeScheduledDonation_ok k donor completed h
        exact Or.inr ⟨k, entry, hfind, hopen, by simp [h, heq]⟩

theorem after_timestamps (scheduledTimestamp : JsNum) (donor : Ledger.DonorRecord) :
    (Ledger.after scheduledTimestamp donor).scheduled.map (·.timestamp)
      = donor.scheduled.map (·.timestamp) := by
  rcases after_eq scheduledTimestamp donor with h | ⟨k, entry, _, _, h⟩
  · rw [h]
  · rw [h]
    exact markCompleted_timestamps k donor.scheduled

theorem after_points (scheduledTimestamp : JsNum) (donor : Ledger.DonorRecord) :
    (Ledger.after scheduledTimestamp donor).rewardPoints + 10 * Ledger.completedCount donor
      = donor.rewardPoints
        + 10 * Ledger.completedCount (Ledger.after scheduledTimestamp donor) := by
  rcases after_eq scheduledTimestamp donor with h | ⟨k, entry, hfind, hopen, h⟩
  · rw [h]
  · rw [h]
    show donor.rewardPoints + 10
        + 10 * (donor.scheduled.filter fun e => e.completed).length
      = donor.rewardPoints
        + 10 * ((Ledger.markCompleted k donor.scheduled).filter fun e => e.completed).length
    rw [markCompleted_count k donor.scheduled entry hfind hopen]
    omega

/-- A run of `loadDonorData` that ends with an error leaves the history as it was;
a run that ends without one has set the history built from the answers. -/
theorem loadDonorData_history (load : LoadEnv) (s : DashboardState) :
    ((loadDonorData load s).error ≠ "" ∧
        (loadDonorData load s).donationHistory = s.donationHistory) ∨
      ((loadDonorData load s).error = "" ∧
        ∃ sd events, load.scheduledDonations = .ok sd ∧
          donationHistory load.localeTime sd events
            = some (loadDonorData load s).donationHistory) := by
  unfold loadDonorData
  cases hinfo : load.donorInfo with
  | error m => exact Or.inl ⟨by simp [loadFailed], rfl⟩
  | ok info =>
    simp only []
    split
    · exact Or.inl ⟨by simp, rfl⟩
    · split
      · exact Or.inl ⟨by simp [loadFailed], rfl⟩
      · split
        · rename_i sd events hsd hev
          cases hh : donationHistory load.localeTime sd events with
          | none => exact Or.inl ⟨by simp [loadFailed], rfl⟩
          | some history => exact Or.inr ⟨rfl, sd, events, hsd, hh⟩
        · exact Or.inl ⟨by simp [loadFailed], rfl⟩

theorem completeDonationState_accepted (load : LoadEnv) (scheduledTimestamp : JsNum)
    (s : DashboardState) :
    (handleCompleteDonation ⟨.ok (.ok ())⟩ scheduledTimestamp).effects
        = [.completeScheduledDonation scheduledTimestamp, .txWait, .loadDonorData] ∧
      completeDonationState ⟨.ok (.ok ())⟩ load scheduledTimestamp s
        = { loadDonorData load s with
            error := "Donation completed successfully!", loading := false } := by
  refine ⟨rfl, ?_⟩
  unfold completeDonationState
  rw [if_pos (by simp [handleCompleteDonation])]
  rfl

theorem completeDonationState_refused (load : LoadEnv) (scheduledTimestamp : JsNum)
    (s : DashboardState) (message : String) (hmessage : message ≠ "") :
    (handleCompleteDonation ⟨.error message⟩ scheduledTimestamp).effects
        = [.completeScheduledDonation scheduledTimestamp] ∧
      completeDonationState ⟨.error message⟩ load scheduledTimestamp s
        = { s with error := message, loading := false } := by
  refine ⟨rfl, ?_⟩
  unfold completeDonationState
  rw [if_neg (by simp [handleCompleteDonation])]
  simp [handleCompleteDonation, catchCompleteMessage, hmessage]

/-- The history after a click on Complete is the one before it or one that the
reload has built from the answers. -/
theorem clickComplete_history (w : World) (d : Donation) (load : LoadEnv) :
    (clickComplete w d load).view.donationHistory = w.view.donationHistory ∨
      ∃ sd events, load.scheduledDonations = .ok sd ∧
        donationHistory load.localeTime sd events
          = some (clickComplete w d load).view.donationHistory := by
  unfold clickComplete completeDonationState
  simp only []
  split
  · rcases loadDonorData_history load w.view with ⟨_, h⟩ | ⟨_, h⟩
    · exact Or.inl h
    · exact Or.inr h
  · exact Or.inl rfl

/-- What holds of the donor dashboard and its ledger along every run: an entry that
offers Complete carries the timestamp of a scheduled donation of the ledger. -/
theorem offered_names_ledger_entry (ledger : Ledger.DonorRecord) (localeTime : Nat → String)
    (events : List DonationEvent) (history : List Donation)
    (h : donationHistory localeTime (Ledger.getScheduledDonations ledger) events
      = some history)
    (d : Donation) (hd : d ∈ history) (hoffered : completeOffered d = true) :
    ∃ (i : Nat) (entry : Ledger.ScheduledDonation), ledger.scheduled[i]? = some entry ∧
      entry.completed = false ∧ completeArgument d = some (entry.timestamp : Int) := by
  obtain ⟨i, ts, hts, hflag, _, harg⟩ :=
    offered_entry localeTime _ events history h d hd hoffered
  simp only [Ledger.getScheduledDonations, List.getElem?_map] at hts hflag
  cases he : ledger.scheduled[i]? with
  | none => rw [he] at hts; cases hts
  | some entry =>
    rw [he] at hts hflag
    have hte : entry.timestamp = ts := by simpa using hts
    refine ⟨i, entry, he, by simpa using hflag, ?_⟩
    rw [hte]
    exact harg

theorem donor_run_invariant (w0 w : World) (hloaded : w0.Loaded)
    (hkeys : (w0.ledger.scheduled.map (·.timestamp)).Nodup)
    (hrun : Relation.ReflTransGen DonorStep w0 w) :
    (w.ledger.scheduled.map (·.timestamp)).Nodup ∧
      w.ledger.rewardPoints + 10 * Ledger.completedCount w0.ledger
        = w0.ledger.rewardPoints + 10 * Ledger.completedCount w.ledger ∧
      ∀ d ∈ w.view.donationHistory, completeOffered d = true →
        ∃ entry ∈ w.ledger.scheduled, completeArgument d = some (entry.timestamp : Int) := by
  have hfresh : ∀ (ledger : Ledger.DonorRecord) (load : LoadEnv) (history : List Donation),
      load.Reads ledger →
      (∃ sd events, load.scheduledDonations = .ok sd ∧
        donationHistory load.localeTime sd events = some history) →
      ∀ d ∈ history, completeOffered d = true →
        ∃ entry ∈ ledger.scheduled, completeArgument d = some (entry.timestamp : Int) := by
    intro ledger load history hreads ⟨sd, events, hsd, hh⟩ d hd hoffered
    rw [hreads sd hsd] at hh
    obtain ⟨i, entry, hi, _, harg⟩ :=
      offered_names_ledger_entry ledger load.localeTime events history hh d hd hoffered
    exact ⟨entry, List.getElem?_mem hi, harg⟩
  have hstale : ∀ (arg : JsNum) (ledger : Ledger.DonorRecord) (d : Donation),
      (∃ entry ∈ ledger.scheduled, completeArgument d = some (entry.timestamp : Int)) →
      ∃ entry ∈ (Ledger.after arg ledger).scheduled,
        completeArgument d = some (entry.timestamp : Int) := by
    intro arg ledger d ⟨entry, hmem, harg⟩
    have h1 : entry.timestamp ∈ (Ledger.after arg ledger).scheduled.map (·.timestamp) := by
      rw [after_timestamps]
      exact List.mem_map.mpr ⟨entry, hmem, rfl⟩
    obtain ⟨e2, hmem2, hts2⟩ := List.mem_map.mp h1
    exact ⟨e2, hmem2, by rw [hts2]; exact harg⟩
  induction hrun with
  | refl =>
    refine ⟨hkeys, rfl, ?_⟩
    obtain ⟨_, localeTime, events, hh⟩ := hloaded
    intro d hd hoffered
    obtain ⟨i, entry, hi, _, harg⟩ :=
      offered_names_ledger_entry w0.ledger localeTime events _ hh d hd hoffered
    exact ⟨entry, List.getElem?_mem hi, harg⟩
  | @tail b c _ hstep ih =>
    obtain ⟨hnodup, hpoints, hoffer⟩ := ih
    cases hstep with
    | complete d load _ _ _ hreads =>
      refine ⟨?_, ?_, ?_⟩
      · show ((Ledger.after (completeArgument d) b.ledger).scheduled.map (·.timestamp)).Nodup
        rw [after_timestamps]
        exact hnodup
      · have := after_points (completeArgument d) b.ledger
        show (Ledger.after (completeArgument d) b.ledger).rewardPoints
            + 10 * Ledger.completedCount w0.ledger
          = w0.ledger.rewardPoints
            + 10 * Ledger.completedCount (Ledger.after (completeArgument d) b.ledger)
        omega
      · intro d2 hd2 hoffered
        rcases clickComplete_history b d load with h | h
        · rw [h] at hd2
          exact hstale (completeArgument d) b.ledger d2 (hoffer d2 hd2 hoffered)
        · exact hfresh (Ledger.after (completeArgument d) b.ledger) load _ hreads h d2 hd2
            hoffered
    | reload load hreads =>
      refine ⟨hnodup, hpoints, ?_⟩
      intro d2 hd2 hoffered
      rcases loadDonorData_history load b.view with ⟨_, h⟩ | ⟨_, h⟩
      · exact hoffer d2 (h ▸ hd2) hoffered
      · exact hfresh b.ledger load _ hreads h d2 hd2 hoffered

/-- C23, as stated, fails on the code: the donor completes the scheduled donation
of 30 November 2023; the ledger accepts, but the reload that follows fails on the
log of the recorded donation, so the history is left as it was and
'Donation completed successfully!' is shown over it; the entry still has the status
'Scheduled' and offers Complete, although the donation is completed in the
ledger. -/
theorem C23_counterexample :
    ¬ ∀ (w0 w : World), w0.Loaded → (w0.ledger.scheduled.map (·.timestamp)).Nodup →
        Relation.ReflTransGen DonorStep w0 w →
        ∀ d ∈ w.view.donationHistory, w.view.loading = false → completeOffered d = true →
        ∀ entry ∈ w.ledger.scheduled, completeArgument d = some (entry.timestamp : Int) →
          entry.completed = false := by
  intro h
  have hstep : DonorStep worldOneOpen (clickComplete worldOneOpen entryOneOpen loadWithLog) :=
    DonorStep.complete worldOneOpen entryOneOpen loadWithLog rfl (by decide) (by decide)
      (by
        intro sd hsd
        rw [← Except.ok.inj hsd]
        decide)
  have h1 := h worldOneOpen (clickComplete worldOneOpen entryOneOpen loadWithLog)
    ⟨rfl, fun _ => "10:30:00 AM", [], by decide⟩ (by decide)
    (Relation.ReflTransGen.single hstep) entryOneOpen (by decide) (by decide) (by decide)
    ⟨1701340200, "Medical Center", "", true⟩ (by decide) (by decide)
  revert h1
  decide

/-- C23, amended: along every run of the donor dashboard from a loaded history, with
distinct scheduled times, the reward points of the ledger grow by 10 for each
donation that has become completed, however often Complete is clicked; an entry
that offers Complete carries the timestamp of a scheduled donation of the ledger,
and the click sends that timestamp whatever the ledger holds.  If the donation is
open, the ledger accepts and awards 10 points, a further completion would fail
with `AlreadyCompleted`, and the handler waits, reloads and reports
'Donation completed successfully!'; when the reload fails the history stays as it
was, and when it succeeds no entry of the new history offers Complete for that
donation.  If the donation is already completed, the ledger refuses with
`AlreadyCompleted`, and the handler reports that message without reloading,
the ledger and the rest of the state being left as they were. -/
theorem C23_completion_is_guarded_by_the_ledger (w0 w : World) (hloaded : w0.Loaded)
    (hkeys : (w0.ledger.scheduled.map (·.timestamp)).Nodup)
    (hrun : Relation.ReflTransGen DonorStep w0 w) :
    w.ledger.rewardPoints + 10 * Ledger.completedCount w0.ledger
        = w0.ledger.rewardPoints + 10 * Ledger.completedCount w.ledger ∧
    ∀ d ∈ w.view.donationHistory, completeOffered d = true →
      (∃ entry ∈ w.ledger.scheduled, completeArgument d = some (entry.timestamp : Int)) ∧
      ∀ entry ∈ w.ledger.scheduled, completeArgument d = some (entry.timestamp : Int) →
      ∀ load : LoadEnv,
        (entry.completed = false →
          Ledger.completeScheduledDonation entry.timestamp w.ledger
            = .ok (clickComplete w d load).ledger ∧
          (clickComplete w d load).ledger.rewardPoints = w.ledger.rewardPoints + 10 ∧
          Ledger.completeScheduledDonation entry.timestamp (clickComplete w d load).ledger
            = .error .alreadyCompleted ∧
          (handleCompleteDonation (receiptOf (Ledger.answer (completeArgument d) w.ledger))
              (completeArgument d)).effects
            = [.completeScheduledDonation (some (entry.timestamp : Int)), .txWait,
                .loadDonorData] ∧
          (clickComplete w d load).view
            = { loadDonorData load w.view with
                error := "Donation completed successfully!", loading := false } ∧
          ((loadDonorData load w.view).error ≠ "" →
            (clickComplete w d load).view.donationHistory = w.view.donationHistory) ∧
          (load.Reads (clickComplete w d load).ledger →
            (loadDonorData load w.view).error = "" →
            ∀ d2 ∈ (clickComplete w d load).view.donationHistory, completeOffered d2 = true →
              completeArgument d2 ≠ some (entry.timestamp : Int))) ∧
        (entry.completed = true →
          Ledger.completeScheduledDonation entry.timestamp w.ledger
            = .error .alreadyCompleted ∧
          (handleCompleteDonation (receiptOf (Ledger.answer (completeArgument d) w.ledger))
              (completeArgument d)).effects
            = [.completeScheduledDonation (some (entry.timestamp : Int))] ∧
          clickComplete w d load
            = { ledger := w.ledger
                view := { w.view with error := "AlreadyCompleted", loading := false } }) := by
  obtain ⟨hnodup, hpoints, hoffer⟩ := donor_run_invariant w0 w hloaded hkeys hrun
  refine ⟨hpoints, ?_⟩
  intro d hd hoffered
  refine ⟨hoffer d hd hoffered, ?_⟩
  intro entry hmem harg load
  have hfind := find_of_mem_nodup entry.timestamp w.ledger.scheduled hnodup entry hmem rfl
  constructor
  · intro hopen
    have hcs := completeScheduledDonation_open entry.timestamp w.ledger entry hfind hopen
    have hans : Ledger.answer (completeArgument d) w.ledger
        = .ok { rewardPoints := w.ledger.rewardPoints + 10,
                lastDonationTime := entry.timestamp,
                scheduled := Ledger.markCompleted entry.timestamp w.ledger.scheduled } := by
      rw [harg]
      show (match Ledger.completeScheduledDonation entry.timestamp w.ledger with
        | .ok completed => Except.ok completed
        | .error e => Except.error e.message) = _
      rw [hcs]
    have hafter : Ledger.after (completeArgument d) w.ledger
        = { rewardPoints := w.ledger.rewardPoints + 10,
            lastDonationTime := entry.timestamp,
            scheduled := Ledger.markCompleted entry.timestamp w.ledger.scheduled } := by
      unfold Ledger.after
      rw [hans]
    have hview : (clickComplete w d load).view
        = { loadDonorData load w.view with
            error := "Donation completed successfully!", loading := false } := by
      unfold clickComplete
      simp only [hans, receiptOf]
      exact (completeDonationState_accepted load (completeArgument d) w.view).2
    refine ⟨?_, ?_, ?_, ?_, hview, ?_, ?_⟩
    · show _ = Except.ok (Ledger.after (completeArgument d) w.ledger)
      rw [hafter]
      exact hcs
    · show (Ledger.after (completeArgument d) w.ledger).rewardPoints = _
      rw [hafter]
    · show Ledger.completeScheduledDonation entry.timestamp
        (Ledger.after (completeArgument d) w.ledger) = _
      rw [hafter]
      exact completeScheduledDonation_completed entry.timestamp _
        { entry with completed := true }
        (find_markCompleted entry.timestamp w.ledger.scheduled entry hfind) rfl
    · simp only [hans, receiptOf]
      rw [(completeDonationState_accepted load (completeArgument d) w.view).1, harg]
    · intro herr
      rw [hview]
      rcases loadDonorData_history load w.view with ⟨_, h⟩ | ⟨h, _⟩
      · exact h
      · exact absurd h herr
    · intro hreads herr d2 hd2 hoffered2 harg2
      rw [hview] at hd2
      rcases loadDonorData_history load w.view with ⟨h, _⟩ | ⟨_, sd, events, hsd, hh⟩
      · exact h herr
      · have hsd2 := hreads sd hsd
        change sd = Ledger.getScheduledDonations (Ledger.after (completeArgument d) w.ledger)
          at hsd2
        rw [hafter] at hsd2
        rw [hsd2] at hh
        obtain ⟨i, e2, hi, hopen2, he2⟩ :=
          offered_names_ledger_entry _ load.localeTime events _ hh d2 hd2 hoffered2
        rw [he2] at harg2
        have hts : e2.timestamp = entry.timestamp := by
          have := Option.some.inj harg2
          omega
        have hdone := markCompleted_flag entry.timestamp w.ledger.scheduled hnodup e2
          (List.getElem?_mem hi) hts
        rw [hdone] at hopen2
        cases hopen2
  · intro hdone
    have hcs := completeScheduledDonation_completed entry.timestamp w.ledger entry hfind hdone
    have hans : Ledger.answer (completeArgument d) w.ledger = .error "AlreadyCompleted" := by
      rw [harg]
      show (match Ledger.completeScheduledDonation entry.timestamp w.ledger with
        | .ok completed => Except.ok completed
        | .error e => Except.error e.message) = _
      rw [hcs]
      rfl
    refine ⟨hcs, ?_, ?_⟩
    · simp only [hans, receiptOf]
      rw [(completeDonationState_refused load (completeArgument d) w.view "AlreadyCompleted"
        (by decide)).1, harg]
    · unfold clickComplete Ledger.after
      simp only [hans, receiptOf]
      rw [(completeDonationState_refused load (completeArgument d) w.view "AlreadyCompleted"
        (by decide)).2]

/-- C23, amended, on the donor with one open donation: the first click on Complete
gives the ledger 10 points; the reload fails on the log, so the history still holds
the entry with its Complete button under 'Donation completed successfully!'; the
second click on that entry is refused by the ledger and leaves ledger and history,
reporting 'AlreadyCompleted'; had the reload found no log, the new history would
hold the entry as 'Completed'. -/
theorem C23_completion_is_guarded_by_the_ledger_witness :
    (clickComplete worldOneOpen entryOneOpen loadWithLog).ledger.rewardPoints = 10 ∧
      (clickComplete worldOneOpen entryOneOpen loadWithLog).view
        = { donationHistory := [entryOneOpen], rewardPoints := 10, loading := false,
            error := "Donation completed successfully!" } ∧
      clickComplete (clickComplete worldOneOpen entryOneOpen loadWithLog) entryOneOpen
          loadWithLog
        = { ledger := (clickComplete worldOneOpen entryOneOpen loadWithLog).ledger
            view := { donationHistory := [entryOneOpen], rewardPoints := 10,
                      loading := false, error := "AlreadyCompleted" } } ∧
      (clickComplete worldOneOpen entryOneOpen loadWithoutLog).view.donationHistory.map
          (·.status) = ["Completed"] := by
  have hloaded : worldOneOpen.Loaded := ⟨rfl, fun _ => "10:30:00 AM", [], by decide⟩
  have hstep : DonorStep worldOneOpen (clickComplete worldOneOpen entryOneOpen loadWithLog) :=
    DonorStep.complete worldOneOpen entryOneOpen loadWithLog rfl (by decide) (by decide)
      (by
        intro sd hsd
        rw [← Except.ok.inj hsd]
        decide)
  have first := ((C23_completion_is_guarded_by_the_ledger worldOneOpen worldOneOpen hloaded
    (by decide) Relation.ReflTransGen.refl).2 entryOneOpen (by decide) (by decide)).2
    ⟨1701340200, "Medical Center", "", false⟩ (by decide) (by decide) loadWithLog
  have second := ((C23_completion_is_guarded_by_the_ledger worldOneOpen
    (clickComplete worldOneOpen entryOneOpen loadWithLog) hloaded (by decide)
    (Relation.ReflTransGen.single hstep)).2 entryOneOpen (by decide) (by decide)).2
    ⟨1701340200, "Medical Center", "", true⟩ (by decide) (by decide) loadWithLog
  refine ⟨(first.1 rfl).2.1, by decide, ?_, by decide⟩
  rw [(second.2 rfl).2.2]
  decide

end BloodDonationChain
